import Mathlib

/-!
# SDL3_gfx image filters (`SDL3_imageFilter.c`)

A shallow embedding of the byte-image filter routines of `SDL3_imageFilter.c`.

* Memory is a flat byte-addressed store; a pointer is an address and `NULL` is address `0`.
  Source and destination buffers may therefore alias, exactly as in C.
* Every filter maps a memory and its C arguments to an `Outcome`: either the call returns a
  `bool` and leaves a memory, or it reaches behaviour the C standard leaves undefined
  (`memcpy` on overlapping regions, a shift by at least the width of the type, an access
  outside the local constant array), or a loop has not finished within the given fuel.
* Arguments are natural numbers (integers for `int` parameters) standing for values of the
  C parameter types; `unsigned int` arithmetic that can wrap is reduced modulo `2 ^ 32`.
* Single-precision floating point arithmetic is a parameter (`FloatOps`): the control flow and
  the set of written bytes do not depend on it.
-/

namespace ImageFilter

/-! ## Memory -/

/-- Flat memory: address to byte value. -/
abbrev Mem := Nat → Nat

/-- Read of one `unsigned char`. -/
def load (m : Mem) (a : Nat) : Nat := m a % 256

/-- Write of one `unsigned char`: the stored value is the C conversion of the integer `v`
to `unsigned char` (reduction modulo 256). -/
def store (m : Mem) (a : Nat) (v : Int) : Mem :=
  fun x => if x = a then (v % 256).toNat else m x

/-- Result of running a filter. -/
inductive Outcome where
  /-- The call returned `b`, leaving memory `m`. -/
  | ret (b : Bool) (m : Mem)
  /-- The call reached undefined behaviour. -/
  | undefined
  /-- The loop did not finish within the fuel. -/
  | timeout

/-- The returned `bool`, when the call returns. -/
def Outcome.retval : Outcome → Option Bool
  | .ret b _ => some b
  | .undefined => none
  | .timeout => none

/-- The byte at address `a` after the call, when the call returns. -/
def Outcome.byte : Outcome → Nat → Option Nat
  | .ret _ m, a => some (load m a)
  | .undefined, _ => none
  | .timeout, _ => none

/-- The raw memory after the call, when the call returns. -/
def Outcome.mem : Outcome → Option Mem
  | .ret _ m => some m
  | .undefined => none
  | .timeout => none

/-- Conversion of an `int` to `bool` as done by `return (0)` and `return (-1)` in a function
returning `bool`: every non-zero value becomes `true`. -/
def boolOfInt (v : Int) : Bool := decide (v ≠ 0)

/-- Whether the `n`-byte regions starting at `a` and `b` share an address. -/
def overlaps (a b n : Nat) : Prop := a < b + n ∧ b < a + n

instance (a b n : Nat) : Decidable (overlaps a b n) := by
  unfold overlaps; infer_instance

/-- Library call `memcpy(dst, src, n)`: copies `n` bytes from `src` to `dst`; the behaviour is
undefined (`none`) when the two regions overlap. -/
def memcpy (m : Mem) (dst src n : Nat) : Option Mem :=
  if overlaps dst src n then none
  else some (fun x => if dst ≤ x ∧ x < dst + n then load m (src + (x - dst)) else m x)

/-- Library call `memset(dst, c, n)`: sets `n` bytes from `dst` to `(unsigned char) c`. -/
def memset (m : Mem) (dst : Nat) (c : Int) (n : Nat) : Mem :=
  fun x => if dst ≤ x ∧ x < dst + n then (c % 256).toNat else m x

/-- The loop `for (i = 0; i < length; i++) body`, the body taking the index and the memory. -/
def forBytes (length : Nat) (body : Nat → Mem → Mem) (m : Mem) : Mem :=
  (List.range length).foldl (fun acc i => body i acc) m

/-- Continue with `k` on the memory produced by `memcpy`, or report undefined behaviour. -/
def afterMemcpy (r : Option Mem) (k : Mem → Outcome) : Outcome :=
  match r with
  | some m => k m
  | none => .undefined

/-! ## Floating point -/

/-- The single-precision operations used by the filters, as a parameter. `ofInt` is the
conversion from an integer (also used for the literals `255.0f`, `1.0f`, ...), `gt` and `eq`
are the comparisons `>` and `==`, and `toUChar` is the conversion `(unsigned char) x`. -/
structure FloatOps where
  /-- Carrier of the floating point values. -/
  F : Type
  /-- Conversion from an integer. -/
  ofInt : Int → F
  /-- Addition. -/
  add : F → F → F
  /-- Subtraction. -/
  sub : F → F → F
  /-- Multiplication. -/
  mul : F → F → F
  /-- Division. -/
  div : F → F → F
  /-- Comparison `a > b`. -/
  gt : F → F → Bool
  /-- Comparison `a == b`. -/
  eq : F → F → Bool
  /-- Conversion to `unsigned char`. -/
  toUChar : F → Int

/-- An exact fraction `num / den` (not normalised). -/
structure Frac where
  /-- Numerator. -/
  num : Int
  /-- Denominator. -/
  den : Nat

/-- Exact fraction arithmetic as an instance of `FloatOps`: no rounding, and the conversion to
`unsigned char` truncates toward zero. -/
def exactFloat : FloatOps where
  F := Frac
  ofInt := fun z => ⟨z, 1⟩
  add := fun a b => ⟨a.num * b.den + b.num * a.den, a.den * b.den⟩
  sub := fun a b => ⟨a.num * b.den - b.num * a.den, a.den * b.den⟩
  mul := fun a b => ⟨a.num * b.num, a.den * b.den⟩
  div := fun a b => ⟨a.num * b.den * Int.sign b.num, a.den * b.num.natAbs⟩
  gt := fun a b => decide (a.num * b.den > b.num * a.den)
  eq := fun a b => decide (a.num * b.den = b.num * a.den)
  toUChar := fun a => Int.tdiv a.num a.den

/-! ## Dual-source filters -/

/-- Filter using Add: D = saturation255(S1 + S2). -/
def SDL_imageFilterAdd (m : Mem) (Src1 Src2 Dest length : Nat) : Outcome :=
  if Src1 = 0 ∨ Src2 = 0 ∨ Dest = 0 then .ret false m
  else if length = 0 then .ret true m
  else .ret true (forBytes length (fun i m =>
    let result : Int := (load m (Src1 + i) : Int) + (load m (Src2 + i) : Int)
    let result : Int := if result > 255 then 255 else result
    store m (Dest + i) result) m)

/-- Filter using Mean: D = S1/2 + S2/2. -/
def SDL_imageFilterMean (fp : FloatOps) (m : Mem) (Src1 Src2 Dest length : Nat) : Outcome :=
  if Src1 = 0 ∨ Src2 = 0 ∨ Dest = 0 then .ret false m
  else if length = 0 then .ret true m
  else .ret true (forBytes length (fun i m =>
    let fSrc1 := fp.div (fp.ofInt (load m (Src1 + i))) (fp.ofInt 255)
    let fSrc2 := fp.div (fp.ofInt (load m (Src2 + i))) (fp.ofInt 255)
    let tmp := fp.add (fp.div fSrc1 (fp.ofInt 2)) (fp.div fSrc2 (fp.ofInt 2))
    store m (Dest + i) (fp.toUChar (fp.mul tmp (fp.ofInt 255)))) m)

/-- Filter using Sub: D = saturation0(S1 - S2). -/
def SDL_imageFilterSub (m : Mem) (Src1 Src2 Dest length : Nat) : Outcome :=
  if Src1 = 0 ∨ Src2 = 0 ∨ Dest = 0 then .ret false m
  else if length = 0 then .ret true m
  else .ret true (forBytes length (fun i m =>
    let result : Int := (load m (Src1 + i) : Int) - (load m (Src2 + i) : Int)
    let result : Int := if result < 0 then 0 else result
    store m (Dest + i) result) m)

/-- Filter using AbsDiff: D = | S1 - S2 |. -/
def SDL_imageFilterAbsDiff (m : Mem) (Src1 Src2 Dest length : Nat) : Outcome :=
  if Src1 = 0 ∨ Src2 = 0 ∨ Dest = 0 then .ret false m
  else if length = 0 then .ret true m
  else .ret true (forBytes length (fun i m =>
    let result : Int := (((load m (Src1 + i) : Int) - (load m (Src2 + i) : Int)).natAbs : Int)
    store m (Dest + i) result) m)

/-- Filter using Mult: D = saturation255(S1 * S2). Both factors are read from `Src1`. -/
def SDL_imageFilterMult (fp : FloatOps) (m : Mem) (Src1 Src2 Dest length : Nat) : Outcome :=
  if Src1 = 0 ∨ Src2 = 0 ∨ Dest = 0 then .ret false m
  else if length = 0 then .ret true m
  else .ret true (forBytes length (fun i m =>
    let fSrc1 := fp.div (fp.ofInt (load m (Src1 + i))) (fp.ofInt 255)
    let fSrc2 := fp.div (fp.ofInt (load m (Src1 + i))) (fp.ofInt 255)
    let tmp := fp.mul fSrc1 fSrc2
    store m (Dest + i) (fp.toUChar (fp.mul tmp (fp.ofInt 255)))) m)

/-- Filter using MultUnbound: D = S1 * S2, no saturation. -/
def SDL_imageFilterMultUnbound (m : Mem) (Src1 Src2 Dest length : Nat) : Outcome :=
  if Src1 = 0 ∨ Src2 = 0 ∨ Dest = 0 then .ret false m
  else if length = 0 then .ret true m
  else .ret true (forBytes length (fun i m =>
    let tmp : Nat := load m (Src1 + i) * load m (Src2 + i)
    store m (Dest + i) (tmp : Int)) m)

/-- Filter using MultInv: D = 255 - ((255 - S1) * (255 - S2)). -/
def SDL_imageFilterMultInv (fp : FloatOps) (m : Mem) (Src1 Src2 Dest length : Nat) : Outcome :=
  if Src1 = 0 ∨ Src2 = 0 ∨ Dest = 0 then .ret false m
  else if length = 0 then .ret true m
  else .ret true (forBytes length (fun i m =>
    let fSrc1 := fp.div (fp.ofInt (load m (Src1 + i))) (fp.ofInt 255)
    let fSrc2 := fp.div (fp.ofInt (load m (Src2 + i))) (fp.ofInt 255)
    let tmp := fp.sub (fp.ofInt 1)
      (fp.mul (fp.sub (fp.ofInt 1) fSrc1) (fp.sub (fp.ofInt 1) fSrc2))
    store m (Dest + i) (fp.toUChar (fp.mul tmp (fp.ofInt 255)))) m)

/-- Filter using MultDivby2: D = saturation255(S1/2 * S2). -/
def SDL_imageFilterMultDivby2 (fp : FloatOps) (m : Mem) (Src1 Src2 Dest length : Nat) :
    Outcome :=
  if Src1 = 0 ∨ Src2 = 0 ∨ Dest = 0 then .ret false m
  else if length = 0 then .ret true m
  else .ret true (forBytes length (fun i m =>
    let fSrc1 := fp.div (fp.ofInt (load m (Src1 + i))) (fp.ofInt 255)
    let fSrc2 := fp.div (fp.ofInt (load m (Src2 + i))) (fp.ofInt 255)
    let tmp := fp.div (fp.mul fSrc1 fSrc2) (fp.ofInt 2)
    let tmp := if fp.gt tmp (fp.ofInt 1) then fp.ofInt 1 else tmp
    store m (Dest + i) (fp.toUChar (fp.mul tmp (fp.ofInt 255)))) m)

/-- Filter using MultDivby4: D = saturation255(S1/2 * S2/2). -/
def SDL_imageFilterMultDivby4 (fp : FloatOps) (m : Mem) (Src1 Src2 Dest length : Nat) :
    Outcome :=
  if Src1 = 0 ∨ Src2 = 0 ∨ Dest = 0 then .ret false m
  else if length = 0 then .ret true m
  else .ret true (forBytes length (fun i m =>
    let fSrc1 := fp.div (fp.ofInt (load m (Src1 + i))) (fp.ofInt 255)
    let fSrc2 := fp.div (fp.ofInt (load m (Src2 + i))) (fp.ofInt 255)
    let tmp := fp.div (fp.mul fSrc1 fSrc2) (fp.ofInt 4)
    let tmp := if fp.gt tmp (fp.ofInt 1) then fp.ofInt 1 else tmp
    store m (Dest + i) (fp.toUChar (fp.mul tmp (fp.ofInt 255)))) m)

/-- Filter using BitAnd: D = S1 & S2. -/
def SDL_imageFilterBitAnd (m : Mem) (Src1 Src2 Dest length : Nat) : Outcome :=
  if Src1 = 0 ∨ Src2 = 0 ∨ Dest = 0 then .ret false m
  else if length = 0 then .ret true m
  else .ret true (forBytes length (fun i m =>
    store m (Dest + i) ((load m (Src1 + i) &&& load m (Src2 + i) : Nat) : Int)) m)

/-- Filter using BitOr: D = S1 | S2. -/
def SDL_imageFilterBitOr (m : Mem) (Src1 Src2 Dest length : Nat) : Outcome :=
  if Src1 = 0 ∨ Src2 = 0 ∨ Dest = 0 then .ret false m
  else if length = 0 then .ret true m
  else .ret true (forBytes length (fun i m =>
    store m (Dest + i) ((load m (Src1 + i) ||| load m (Src2 + i) : Nat) : Int)) m)

/-- Filter using Div: D = S1 / S2. The quotient `cursrc1[i] / cursrc2[i]` is an integer
division whose result is converted to `float`; `fSrc1` and `fSrc2` are computed and not
used. -/
def SDL_imageFilterDiv (fp : FloatOps) (m : Mem) (Src1 Src2 Dest length : Nat) : Outcome :=
  if Src1 = 0 ∨ Src2 = 0 ∨ Dest = 0 then .ret false m
  else if length = 0 then .ret true m
  else .ret true (forBytes length (fun i m =>
    if load m (Src2 + i) = 0 then store m (Dest + i) 0
    else
      let _fSrc1 := fp.div (fp.ofInt (load m (Src1 + i))) (fp.ofInt 255)
      let _fSrc2 := fp.div (fp.ofInt (load m (Src2 + i))) (fp.ofInt 255)
      let tmp := fp.ofInt ((load m (Src1 + i) / load m (Src2 + i) : Nat) : Int)
      let tmp := if fp.gt tmp (fp.ofInt 1) then fp.ofInt 1 else tmp
      store m (Dest + i) (fp.toUChar (fp.mul tmp (fp.ofInt 255)))) m)

/-! ## Single-source filters -/

/-- Filter using BitNegation: D = !S. The operand of `~` is promoted to `int`, where the
complement of `x` is `-x - 1`. -/
def SDL_imageFilterBitNegation (m : Mem) (Src1 Dest length : Nat) : Outcome :=
  if Src1 = 0 ∨ Dest = 0 then .ret false m
  else if length = 0 then .ret true m
  else .ret true (forBytes length (fun i m =>
    store m (Dest + i) (-(load m (Src1 + i) : Int) - 1)) m)

/-- Filter using AddByte: D = saturation255(S + C). The special case `C == 0` calls
`memcpy(Src1, Dest, length)`. -/
def SDL_imageFilterAddByte (m : Mem) (Src1 Dest length C : Nat) : Outcome :=
  if Src1 = 0 ∨ Dest = 0 then .ret false m
  else if length = 0 then .ret true m
  else if C = 0 then afterMemcpy (memcpy m Src1 Dest length) (fun m => .ret true m)
  else
    let iC : Int := (C : Int)
    .ret true (forBytes length (fun i m =>
      let result : Int := (load m (Src1 + i) : Int) + iC
      let result : Int := if result > 255 then 255 else result
      store m (Dest + i) result) m)

/-- Filter using AddByteToHalf: D = saturation255(S/2 + C). -/
def SDL_imageFilterAddByteToHalf (m : Mem) (Src1 Dest length C : Nat) : Outcome :=
  if Src1 = 0 ∨ Dest = 0 then .ret false m
  else if length = 0 then .ret true m
  else
    let iC : Int := (C : Int)
    .ret true (forBytes length (fun i m =>
      let result : Int := ((load m (Src1 + i) / 2 : Nat) : Int) + iC
      let result : Int := if result > 255 then 255 else result
      store m (Dest + i) result) m)

/-- Filter using SubByte: D = saturation0(S - C). The special case `C == 0` calls
`memcpy(Src1, Dest, length)`. -/
def SDL_imageFilterSubByte (m : Mem) (Src1 Dest length C : Nat) : Outcome :=
  if Src1 = 0 ∨ Dest = 0 then .ret false m
  else if length = 0 then .ret true m
  else if C = 0 then afterMemcpy (memcpy m Src1 Dest length) (fun m => .ret true m)
  else
    let iC : Int := (C : Int)
    .ret true (forBytes length (fun i m =>
      let result : Int := (load m (Src1 + i) : Int) - iC
      let result : Int := if result < 0 then 0 else result
      store m (Dest + i) result) m)

/-- Filter using MultByByte: D = saturation255(S * C). The special case `C == 1` calls
`memcpy(Src1, Dest, length)`. -/
def SDL_imageFilterMultByByte (fp : FloatOps) (m : Mem) (Src1 Dest length C : Nat) : Outcome :=
  if Src1 = 0 ∨ Dest = 0 then .ret false m
  else if length = 0 then .ret true m
  else if C = 1 then afterMemcpy (memcpy m Src1 Dest length) (fun m => .ret true m)
  else
    let fC := fp.div (fp.ofInt (C : Int)) (fp.ofInt 255)
    .ret true (forBytes length (fun i m =>
      let fSrc1 := fp.div (fp.ofInt (load m (Src1 + i))) (fp.ofInt 255)
      let tmp := fp.mul fSrc1 fC
      let tmp := if fp.gt tmp (fp.ofInt 1) then fp.ofInt 1 else tmp
      store m (Dest + i) (fp.toUChar (fp.mul tmp (fp.ofInt 255)))) m)

/-- Filter using ShiftRightAndMultByByte: D = saturation255((S >> N) * C). The special case
`N == 0 && C == 1` calls `memcpy(Src1, Dest, length)`. -/
def SDL_imageFilterShiftRightAndMultByByte (fp : FloatOps) (m : Mem)
    (Src1 Dest length N C : Nat) : Outcome :=
  if Src1 = 0 ∨ Dest = 0 then .ret false m
  else if length = 0 then .ret true m
  else if N > 8 then .ret false m
  else if N = 0 ∧ C = 1 then afterMemcpy (memcpy m Src1 Dest length) (fun m => .ret true m)
  else
    let fC := fp.div (fp.ofInt (C : Int)) (fp.ofInt 255)
    .ret true (forBytes length (fun i m =>
      let fSrc1 := fp.div (fp.ofInt ((load m (Src1 + i) >>> N : Nat) : Int)) (fp.ofInt 255)
      let tmp := fp.mul fSrc1 fC
      let tmp := if fp.gt tmp (fp.ofInt 1) then fp.ofInt 1 else tmp
      store m (Dest + i) (fp.toUChar (fp.mul tmp (fp.ofInt 255)))) m)

/-- Filter using ShiftRight: D = saturation0(S >> N). The special case `N == 0` calls
`memcpy(Src1, Dest, length)` and then executes `return (0)`. -/
def SDL_imageFilterShiftRight (m : Mem) (Src1 Dest length N : Nat) : Outcome :=
  if Src1 = 0 ∨ Dest = 0 then .ret false m
  else if length = 0 then .ret true m
  else if N > 8 then .ret false m
  else if N = 0 then
    afterMemcpy (memcpy m Src1 Dest length) (fun m => .ret (boolOfInt 0) m)
  else .ret true (forBytes length (fun i m =>
    let result : Int := ((load m (Src1 + i) >>> N : Nat) : Int)
    let result : Int := if result < 0 then 0 else result
    store m (Dest + i) result) m)

/-- Filter using ShiftLeftByte: D = (S << N). The range check executes `return (-1)`; the
special case `N == 0` calls `memcpy(Src1, Dest, length)`. -/
def SDL_imageFilterShiftLeftByte (m : Mem) (Src1 Dest length N : Nat) : Outcome :=
  if Src1 = 0 ∨ Dest = 0 then .ret false m
  else if length = 0 then .ret true m
  else if N > 8 then .ret (boolOfInt (-1)) m
  else if N = 0 then afterMemcpy (memcpy m Src1 Dest length) (fun m => .ret true m)
  else .ret true (forBytes length (fun i m =>
    let result : Int := (((load m (Src1 + i) <<< N) &&& 0xff : Nat) : Int)
    store m (Dest + i) result) m)

/-- Filter ShiftLeft: D = saturation255(S << N). The special case `N == 0` calls
`memcpy(Src1, Dest, length)`. -/
def SDL_imageFilterShiftLeft (m : Mem) (Src1 Dest length N : Nat) : Outcome :=
  if Src1 = 0 ∨ Dest = 0 then .ret false m
  else if length = 0 then .ret true m
  else if N > 8 then .ret false m
  else if N = 0 then afterMemcpy (memcpy m Src1 Dest length) (fun m => .ret true m)
  else .ret true (forBytes length (fun i m =>
    let result : Int := ((load m (Src1 + i) <<< N : Nat) : Int)
    let result : Int := if result > 255 then 255 else result
    store m (Dest + i) result) m)

/-- Filter using BinarizeUsingThreshold: D = (S >= T) ? 255:0. The special case `T == 0` calls
`memset(Dest, 255, length)`. -/
def SDL_imageFilterBinarizeUsingThreshold (m : Mem) (Src1 Dest length T : Nat) : Outcome :=
  if Src1 = 0 ∨ Dest = 0 then .ret false m
  else if length = 0 then .ret true m
  else if T = 0 then .ret true (memset m Dest 255 length)
  else .ret true (forBytes length (fun i m =>
    store m (Dest + i) (if load m (Src1 + i) ≥ T then 255 else 0)) m)

/-- Filter using ClipToRange: D = (S >= Tmin) & (S <= Tmax) S:Tmin | Tmax. The special case
tests `(Tmin == 0) && (Tmax == 25)` and calls `memcpy(Src1, Dest, length)`. -/
def SDL_imageFilterClipToRange (m : Mem) (Src1 Dest length Tmin Tmax : Nat) : Outcome :=
  if Src1 = 0 ∨ Dest = 0 then .ret false m
  else if length = 0 then .ret true m
  else if Tmin = 0 ∧ Tmax = 25 then
    afterMemcpy (memcpy m Src1 Dest length) (fun m => .ret true m)
  else .ret true (forBytes length (fun i m =>
    if load m (Src1 + i) < Tmin then store m (Dest + i) (Tmin : Int)
    else if load m (Src1 + i) > Tmax then store m (Dest + i) (Tmax : Int)
    else store m (Dest + i) (load m (Src1 + i) : Int)) m)

/-- Filter using NormalizeLinear:
D = saturation255((Nmax - Nmin)/(Cmax - Cmin)*(S - Cmin) + Nmin). The null check executes
`return(-1)` and the empty-length check executes `return(0)`. -/
def SDL_imageFilterNormalizeLinear (fp : FloatOps) (m : Mem) (Src Dest length : Nat)
    (Cmin Cmax Nmin Nmax : Int) : Outcome :=
  if Src = 0 ∨ Dest = 0 then .ret (boolOfInt (-1)) m
  else if length = 0 then .ret (boolOfInt 0) m
  else
    let fCMin := fp.div (fp.ofInt Cmin) (fp.ofInt 255)
    let fCMax := fp.div (fp.ofInt Cmax) (fp.ofInt 255)
    let fNMin := fp.div (fp.ofInt Nmin) (fp.ofInt 255)
    let fNMax := fp.div (fp.ofInt Nmax) (fp.ofInt 255)
    let dC := fp.sub fCMax fCMin
    if fp.eq dC (fp.ofInt 0) then .ret true m
    else
      let dN := fp.sub fNMax fNMin
      let factor := fp.div dN dC
      .ret true (forBytes length (fun i m =>
        let fSrc1 := fp.div (fp.ofInt (load m (Src + i))) (fp.ofInt 255)
        let tmp := fp.add (fp.mul factor (fp.sub fSrc1 fCMin)) fNMin
        let tmp := if fp.gt tmp (fp.ofInt 1) then fp.ofInt 1 else tmp
        store m (Dest + i) (fp.toUChar (fp.mul tmp (fp.ofInt 255)))) m)

/-! ## BPP-aware filters -/

/-- Capacity of the constant array `iC` of AddUint and SubUint. -/
def MAX_BYTES_PER_PIXEL : Nat := 16

/-- Conversion of an `unsigned int` to `int` (two's complement, 32 bits). -/
def toInt32 (n : Nat) : Int :=
  if n % 2 ^ 32 < 2 ^ 31 then ((n % 2 ^ 32 : Nat) : Int) else ((n % 2 ^ 32 : Nat) : Int) - 2 ^ 32

/-- Conversion of an `int` to `unsigned int` (32 bits). -/
def toUInt32 (v : Int) : Nat := (v % 2 ^ 32).toNat

/-- The local array `int iC[MAX_BYTES_PER_PIXEL]`: the value stored at each index, `none`
where nothing has been stored. -/
abbrev ConstArray := Nat → Option Int

/-- Read of `iC[j]`: undefined (`none`) outside the array or where nothing was stored. -/
def readConst (iC : ConstArray) (j : Nat) : Option Int :=
  if j < MAX_BYTES_PER_PIXEL then iC j else none

/-- The loop `for (k = bpp; k >= 0; k--) iC[k] = (int) ((C >> (8*(bpp - k))) & 0xff);`.
The first argument is the number of iterations left, so the iteration executed has index
`k` when it is `k + 1`. A store outside the array and a shift of the 32-bit `C` by 32 or more
are undefined (`none`). -/
def fillConst (bpp C : Nat) : Nat → ConstArray → Option ConstArray
  | 0, iC => some iC
  | k + 1, iC =>
    let sh : Nat := 8 * (bpp - k) % 2 ^ 32
    if k ≥ MAX_BYTES_PER_PIXEL then none
    else if sh ≥ 32 then none
    else fillConst bpp C k
      (fun x => if x = k then some (((C >>> sh) &&& 0xff : Nat) : Int) else iC x)

/-- The loop `for (j = 0; j < n; j++) body` for a body that may reach undefined behaviour. -/
def forIndex (n : Nat) (body : Nat → Mem → Option Mem) (m : Mem) : Option Mem :=
  (List.range n).foldl (fun acc j => acc.bind (body j)) (some m)

/-- The loop `for (i = istart; i < length; i += bpp) body` followed by `return true`, with
`unsigned int` wrap-around of `i += bpp`. The first explicit argument is the fuel: one unit per
iteration. -/
def forUnits (length bpp : Nat) (body : Nat → Mem → Option Mem) : Nat → Nat → Mem → Outcome
  | 0, i, m => if i < length then .timeout else .ret true m
  | fuel + 1, i, m =>
    if i < length then
      match body i m with
      | some m1 => forUnits length bpp body fuel ((i + bpp) % 2 ^ 32) m1
      | none => .undefined
    else .ret true m

/-- Filter using AddUint: D = saturation255((S[i] + Cs[i % BPP]). The special case `C == 0`
calls `memcpy(Src1, Dest, length)`. -/
def SDL_imageFilterAddUint (fuel : Nat) (m : Mem) (Src1 Dest length bpp C : Nat) : Outcome :=
  if Src1 = 0 ∨ Dest = 0 then .ret false m
  else if length = 0 then .ret true m
  else if C = 0 then afterMemcpy (memcpy m Src1 Dest length) (fun m => .ret true m)
  else
    match fillConst bpp C (toInt32 bpp + 1).toNat (fun _ => none) with
    | none => .undefined
    | some iC =>
      forUnits length bpp (fun i m =>
        forIndex bpp (fun j m =>
          if (i + j) % 2 ^ 32 < length then
            match readConst iC j with
            | none => none
            | some c =>
              let result : Int := (load m (Src1 + (i + j) % 2 ^ 32) : Int) + c
              let result : Int := if result > 255 then 255 else result
              some (store m (Dest + (i + j) % 2 ^ 32) result)
          else some m) m) fuel 0 m

/-- Filter using SubUint: D = saturation0(S[i] - Cs[i % BPP]). The special case `C == 0`
calls `memcpy(Src1, Dest, length)`. -/
def SDL_imageFilterSubUint (fuel : Nat) (m : Mem) (Src1 Dest length bpp C : Nat) : Outcome :=
  if Src1 = 0 ∨ Dest = 0 then .ret false m
  else if length = 0 then .ret true m
  else if C = 0 then afterMemcpy (memcpy m Src1 Dest length) (fun m => .ret true m)
  else
    match fillConst bpp C (toInt32 bpp + 1).toNat (fun _ => none) with
    | none => .undefined
    | some iC =>
      forUnits length bpp (fun i m =>
        forIndex bpp (fun j m =>
          if (i + j) % 2 ^ 32 < length then
            match readConst iC j with
            | none => none
            | some c =>
              let result : Int := (load m (Src1 + (i + j) % 2 ^ 32) : Int) - c
              let result : Int := if result < 0 then 0 else result
              some (store m (Dest + (i + j) % 2 ^ 32) result)
          else some m) m) fuel 0 m

/-- The loop `for (j = bpp; j >= 0; j--)
result |= (unsigned int) ((cursrc1[i + j] << (sizeof(unsigned int) * j)));` of ShiftRightUint,
where `result` is an `int`. The first explicit argument is the number of iterations left.
A shift of the promoted byte by 32 or more is undefined (`none`); a shifted value that does
not fit `int` is kept modulo `2 ^ 32`. -/
def packUnitInt (m : Mem) (Src1 i : Nat) : Nat → Int → Option Int
  | 0, result => some result
  | j + 1, result =>
    if 4 * j ≥ 32 then none
    else
      let x : Nat := (load m (Src1 + (i + j) % 2 ^ 32) <<< (4 * j)) % 2 ^ 32
      packUnitInt m Src1 i j (toInt32 (toUInt32 result ||| x))

/-- The loop `for (j = bpp; j >= 0; j--)
result |= (int) ((cursrc1[i + j] << (sizeof(unsigned int) * j)));` of ShiftLeftUint, where
`result` is an `unsigned int`. Same conventions as `packUnitInt`. -/
def packUnitUInt (m : Mem) (Src1 i : Nat) : Nat → Nat → Option Nat
  | 0, result => some result
  | j + 1, result =>
    if 4 * j ≥ 32 then none
    else
      let x : Nat := (load m (Src1 + (i + j) % 2 ^ 32) <<< (4 * j)) % 2 ^ 32
      packUnitUInt m Src1 i j (result ||| x)

/-- Filter using ShiftRightUint: D = saturation0((uint)S[i] >> N). The range check is
`N > 8`; the special case `N == 0` calls `memcpy(Src1, Dest, length)` and then executes
`return (0)`. In the store `(result >> bpp) & 0xFF` the mask keeps the value modulo 256. -/
def SDL_imageFilterShiftRightUint (fuel : Nat) (m : Mem) (Src1 Dest length bpp N : Nat) :
    Outcome :=
  if Src1 = 0 ∨ Dest = 0 then .ret false m
  else if length = 0 then .ret true m
  else if N > 8 then .ret false m
  else if N = 0 then
    afterMemcpy (memcpy m Src1 Dest length) (fun m => .ret (boolOfInt 0) m)
  else
    forUnits length bpp (fun i m =>
      if (i + bpp) % 2 ^ 32 < length then
        match packUnitInt m Src1 i (toInt32 bpp + 1).toNat 0 with
        | none => none
        | some result =>
          if N ≥ 32 then none
          else
            let result : Int := result >>> N
            forIndex bpp (fun j m =>
              if bpp ≥ 32 then none
              else some (store m (Dest + (i + j) % 2 ^ 32) ((result >>> bpp) % 256))) m
      else some m) fuel 0 m

/-- Filter using ShiftLeftUint: D = ((uint)S << N). The range check is `N > 32`; the special
case `N == 0` calls `memcpy(Src1, Dest, length)`. A shift of the 32-bit `result` by 32 is
undefined. -/
def SDL_imageFilterShiftLeftUint (fuel : Nat) (m : Mem) (Src1 Dest length bpp N : Nat) :
    Outcome :=
  if Src1 = 0 ∨ Dest = 0 then .ret false m
  else if length = 0 then .ret true m
  else if N > 32 then .ret false m
  else if N = 0 then afterMemcpy (memcpy m Src1 Dest length) (fun m => .ret true m)
  else
    forUnits length bpp (fun i m =>
      if (i + bpp) % 2 ^ 32 < length then
        match packUnitUInt m Src1 i (toInt32 bpp + 1).toNat 0 with
        | none => none
        | some result =>
          if N ≥ 32 then none
          else
            let result : Nat := (result <<< N) % 2 ^ 32
            forIndex bpp (fun j m =>
              if bpp ≥ 32 then none
              else some (store m (Dest + (i + j) % 2 ^ 32)
                (((result >>> bpp) &&& 0xFF : Nat) : Int))) m
      else some m) fuel 0 m

/-! ## Neighborhood filters (no implementation in the source) -/

/-- Filter using ConvolveKernel3x3Divide. -/
def SDL_imageFilterConvolveKernel3x3Divide (m : Mem) (Src Dest : Nat) (rows columns : Int)
    (Kernel Divisor : Nat) : Outcome :=
  if Src = 0 ∨ Dest = 0 ∨ Kernel = 0 then .ret false m
  else if columns < 3 ∨ rows < 3 ∨ Divisor = 0 then .ret false m
  else .ret false m

/-- Filter using ConvolveKernel5x5Divide. -/
def SDL_imageFilterConvolveKernel5x5Divide (m : Mem) (Src Dest : Nat) (rows columns : Int)
    (Kernel Divisor : Nat) : Outcome :=
  if Src = 0 ∨ Dest = 0 ∨ Kernel = 0 then .ret false m
  else if columns < 5 ∨ rows < 5 ∨ Divisor = 0 then .ret false m
  else .ret false m

/-- Filter using ConvolveKernel7x7Divide. -/
def SDL_imageFilterConvolveKernel7x7Divide (m : Mem) (Src Dest : Nat) (rows columns : Int)
    (Kernel Divisor : Nat) : Outcome :=
  if Src = 0 ∨ Dest = 0 ∨ Kernel = 0 then .ret false m
  else if columns < 7 ∨ rows < 7 ∨ Divisor = 0 then .ret false m
  else .ret false m

/-- Filter using ConvolveKernel9x9Divide. -/
def SDL_imageFilterConvolveKernel9x9Divide (m : Mem) (Src Dest : Nat) (rows columns : Int)
    (Kernel Divisor : Nat) : Outcome :=
  if Src = 0 ∨ Dest = 0 ∨ Kernel = 0 then .ret false m
  else if columns < 9 ∨ rows < 9 ∨ Divisor = 0 then .ret false m
  else .ret false m

/-- Filter using ConvolveKernel3x3ShiftRight. -/
def SDL_imageFilterConvolveKernel3x3ShiftRight (m : Mem) (Src Dest : Nat) (rows columns : Int)
    (Kernel NRightShift : Nat) : Outcome :=
  if Src = 0 ∨ Dest = 0 ∨ Kernel = 0 then .ret false m
  else if columns < 3 ∨ rows < 3 ∨ NRightShift > 7 then .ret false m
  else .ret false m

/-- Filter using ConvolveKernel5x5ShiftRight. -/
def SDL_imageFilterConvolveKernel5x5ShiftRight (m : Mem) (Src Dest : Nat) (rows columns : Int)
    (Kernel NRightShift : Nat) : Outcome :=
  if Src = 0 ∨ Dest = 0 ∨ Kernel = 0 then .ret false m
  else if columns < 5 ∨ rows < 5 ∨ NRightShift > 7 then .ret false m
  else .ret false m

/-- Filter using ConvolveKernel7x7ShiftRight. -/
def SDL_imageFilterConvolveKernel7x7ShiftRight (m : Mem) (Src Dest : Nat) (rows columns : Int)
    (Kernel NRightShift : Nat) : Outcome :=
  if Src = 0 ∨ Dest = 0 ∨ Kernel = 0 then .ret false m
  else if columns < 7 ∨ rows < 7 ∨ NRightShift > 7 then .ret false m
  else .ret false m

/-- Filter using ConvolveKernel9x9ShiftRight. -/
def SDL_imageFilterConvolveKernel9x9ShiftRight (m : Mem) (Src Dest : Nat) (rows columns : Int)
    (Kernel NRightShift : Nat) : Outcome :=
  if Src = 0 ∨ Dest = 0 ∨ Kernel = 0 then .ret false m
  else if columns < 9 ∨ rows < 9 ∨ NRightShift > 7 then .ret false m
  else .ret false m

/-- Filter using SobelX. -/
def SDL_imageFilterSobelX (m : Mem) (Src Dest : Nat) (rows columns : Int) : Outcome :=
  if Src = 0 ∨ Dest = 0 then .ret false m
  else if columns < 8 ∨ rows < 3 then .ret false m
  else .ret false m

/-- Filter using SobelXShiftRight. -/
def SDL_imageFilterSobelXShiftRight (m : Mem) (Src Dest : Nat) (rows columns : Int)
    (NRightShift : Nat) : Outcome :=
  if Src = 0 ∨ Dest = 0 then .ret false m
  else if columns < 8 ∨ rows < 3 ∨ NRightShift > 7 then .ret false m
  else .ret false m

/-! ## The filters as one family -/

/-- A call of one of the filters of the file, with its arguments (buffers as addresses). -/
inductive Call where
  | Add (Src1 Src2 Dest length : Nat)
  | Mean (Src1 Src2 Dest length : Nat)
  | Sub (Src1 Src2 Dest length : Nat)
  | AbsDiff (Src1 Src2 Dest length : Nat)
  | Mult (Src1 Src2 Dest length : Nat)
  | MultUnbound (Src1 Src2 Dest length : Nat)
  | MultInv (Src1 Src2 Dest length : Nat)
  | MultDivby2 (Src1 Src2 Dest length : Nat)
  | MultDivby4 (Src1 Src2 Dest length : Nat)
  | BitAnd (Src1 Src2 Dest length : Nat)
  | BitOr (Src1 Src2 Dest length : Nat)
  | Div (Src1 Src2 Dest length : Nat)
  | BitNegation (Src1 Dest length : Nat)
  | AddByte (Src1 Dest length C : Nat)
  | AddUint (Src1 Dest length bpp C : Nat)
  | AddByteToHalf (Src1 Dest length C : Nat)
  | SubByte (Src1 Dest length C : Nat)
  | SubUint (Src1 Dest length bpp C : Nat)
  | ShiftRightUint (Src1 Dest length bpp N : Nat)
  | MultByByte (Src1 Dest length C : Nat)
  | ShiftRightAndMultByByte (Src1 Dest length N C : Nat)
  | ShiftRight (Src1 Dest length N : Nat)
  | ShiftLeftByte (Src1 Dest length N : Nat)
  | ShiftLeftUint (Src1 Dest length bpp N : Nat)
  | ShiftLeft (Src1 Dest length N : Nat)
  | BinarizeUsingThreshold (Src1 Dest length T : Nat)
  | ClipToRange (Src1 Dest length Tmin Tmax : Nat)
  | NormalizeLinear (Src Dest length : Nat) (Cmin Cmax Nmin Nmax : Int)
  | ConvolveKernel3x3Divide (Src Dest : Nat) (rows columns : Int) (Kernel Divisor : Nat)
  | ConvolveKernel5x5Divide (Src Dest : Nat) (rows columns : Int) (Kernel Divisor : Nat)
  | ConvolveKernel7x7Divide (Src Dest : Nat) (rows columns : Int) (Kernel Divisor : Nat)
  | ConvolveKernel9x9Divide (Src Dest : Nat) (rows columns : Int) (Kernel Divisor : Nat)
  | ConvolveKernel3x3ShiftRight (Src Dest : Nat) (rows columns : Int) (Kernel NRightShift : Nat)
  | ConvolveKernel5x5ShiftRight (Src Dest : Nat) (rows columns : Int) (Kernel NRightShift : Nat)
  | ConvolveKernel7x7ShiftRight (Src Dest : Nat) (rows columns : Int) (Kernel NRightShift : Nat)
  | ConvolveKernel9x9ShiftRight (Src Dest : Nat) (rows columns : Int) (Kernel NRightShift : Nat)
  | SobelX (Src Dest : Nat) (rows columns : Int)
  | SobelXShiftRight (Src Dest : Nat) (rows columns : Int) (NRightShift : Nat)

/-- Run a call: the filter it names, on its arguments. -/
def Call.run (fp : FloatOps) (fuel : Nat) (m : Mem) : Call → Outcome
  | .Add s1 s2 d n => SDL_imageFilterAdd m s1 s2 d n
  | .Mean s1 s2 d n => SDL_imageFilterMean fp m s1 s2 d n
  | .Sub s1 s2 d n => SDL_imageFilterSub m s1 s2 d n
  | .AbsDiff s1 s2 d n => SDL_imageFilterAbsDiff m s1 s2 d n
  | .Mult s1 s2 d n => SDL_imageFilterMult fp m s1 s2 d n
  | .MultUnbound s1 s2 d n => SDL_imageFilterMultUnbound m s1 s2 d n
  | .MultInv s1 s2 d n => SDL_imageFilterMultInv fp m s1 s2 d n
  | .MultDivby2 s1 s2 d n => SDL_imageFilterMultDivby2 fp m s1 s2 d n
  | .MultDivby4 s1 s2 d n => SDL_imageFilterMultDivby4 fp m s1 s2 d n
  | .BitAnd s1 s2 d n => SDL_imageFilterBitAnd m s1 s2 d n
  | .BitOr s1 s2 d n => SDL_imageFilterBitOr m s1 s2 d n
  | .Div s1 s2 d n => SDL_imageFilterDiv fp m s1 s2 d n
  | .BitNegation s d n => SDL_imageFilterBitNegation m s d n
  | .AddByte s d n c => SDL_imageFilterAddByte m s d n c
  | .AddUint s d n bpp c => SDL_imageFilterAddUint fuel m s d n bpp c
  | .AddByteToHalf s d n c => SDL_imageFilterAddByteToHalf m s d n c
  | .SubByte s d n c => SDL_imageFilterSubByte m s d n c
  | .SubUint s d n bpp c => SDL_imageFilterSubUint fuel m s d n bpp c
  | .ShiftRightUint s d n bpp k => SDL_imageFilterShiftRightUint fuel m s d n bpp k
  | .MultByByte s d n c => SDL_imageFilterMultByByte fp m s d n c
  | .ShiftRightAndMultByByte s d n k c => SDL_imageFilterShiftRightAndMultByByte fp m s d n k c
  | .ShiftRight s d n k => SDL_imageFilterShiftRight m s d n k
  | .ShiftLeftByte s d n k => SDL_imageFilterShiftLeftByte m s d n k
  | .ShiftLeftUint s d n bpp k => SDL_imageFilterShiftLeftUint fuel m s d n bpp k
  | .ShiftLeft s d n k => SDL_imageFilterShiftLeft m s d n k
  | .BinarizeUsingThreshold s d n t => SDL_imageFilterBinarizeUsingThreshold m s d n t
  | .ClipToRange s d n lo hi => SDL_imageFilterClipToRange m s d n lo hi
  | .NormalizeLinear s d n c0 c1 n0 n1 => SDL_imageFilterNormalizeLinear fp m s d n c0 c1 n0 n1
  | .ConvolveKernel3x3Divide s d r c k v => SDL_imageFilterConvolveKernel3x3Divide m s d r c k v
  | .ConvolveKernel5x5Divide s d r c k v => SDL_imageFilterConvolveKernel5x5Divide m s d r c k v
  | .ConvolveKernel7x7Divide s d r c k v => SDL_imageFilterConvolveKernel7x7Divide m s d r c k v
  | .ConvolveKernel9x9Divide s d r c k v => SDL_imageFilterConvolveKernel9x9Divide m s d r c k v
  | .ConvolveKernel3x3ShiftRight s d r c k v =>
    SDL_imageFilterConvolveKernel3x3ShiftRight m s d r c k v
  | .ConvolveKernel5x5ShiftRight s d r c k v =>
    SDL_imageFilterConvolveKernel5x5ShiftRight m s d r c k v
  | .ConvolveKernel7x7ShiftRight s d r c k v =>
    SDL_imageFilterConvolveKernel7x7ShiftRight m s d r c k v
  | .ConvolveKernel9x9ShiftRight s d r c k v =>
    SDL_imageFilterConvolveKernel9x9ShiftRight m s d r c k v
  | .SobelX s d r c => SDL_imageFilterSobelX m s d r c
  | .SobelXShiftRight s d r c v => SDL_imageFilterSobelXShiftRight m s d r c v


/-- The destination buffer of a call. -/
def Call.dest : Call → Nat
  | .Add _ _ d _ | .Mean _ _ d _ | .Sub _ _ d _ | .AbsDiff _ _ d _ | .Mult _ _ d _
  | .MultUnbound _ _ d _ | .MultInv _ _ d _ | .MultDivby2 _ _ d _ | .MultDivby4 _ _ d _
  | .BitAnd _ _ d _ | .BitOr _ _ d _ | .Div _ _ d _ => d
  | .BitNegation _ d _ | .AddByte _ d _ _ | .AddUint _ d _ _ _ | .AddByteToHalf _ d _ _
  | .SubByte _ d _ _ | .SubUint _ d _ _ _ | .ShiftRightUint _ d _ _ _ | .MultByByte _ d _ _
  | .ShiftRightAndMultByByte _ d _ _ _ | .ShiftRight _ d _ _ | .ShiftLeftByte _ d _ _
  | .ShiftLeftUint _ d _ _ _ | .ShiftLeft _ d _ _ | .BinarizeUsingThreshold _ d _ _
  | .ClipToRange _ d _ _ _ | .NormalizeLinear _ d _ _ _ _ _ => d
  | .ConvolveKernel3x3Divide _ d _ _ _ _ | .ConvolveKernel5x5Divide _ d _ _ _ _
  | .ConvolveKernel7x7Divide _ d _ _ _ _ | .ConvolveKernel9x9Divide _ d _ _ _ _
  | .ConvolveKernel3x3ShiftRight _ d _ _ _ _ | .ConvolveKernel5x5ShiftRight _ d _ _ _ _
  | .ConvolveKernel7x7ShiftRight _ d _ _ _ _ | .ConvolveKernel9x9ShiftRight _ d _ _ _ _
  | .SobelX _ d _ _ | .SobelXShiftRight _ d _ _ _ => d

/-- The number of bytes of the destination buffer of a call: `length`, or `rows * columns` for
the neighborhood filters. -/
def Call.destSize : Call → Nat
  | .Add _ _ _ n | .Mean _ _ _ n | .Sub _ _ _ n | .AbsDiff _ _ _ n | .Mult _ _ _ n
  | .MultUnbound _ _ _ n | .MultInv _ _ _ n | .MultDivby2 _ _ _ n | .MultDivby4 _ _ _ n
  | .BitAnd _ _ _ n | .BitOr _ _ _ n | .Div _ _ _ n => n
  | .BitNegation _ _ n | .AddByte _ _ n _ | .AddUint _ _ n _ _ | .AddByteToHalf _ _ n _
  | .SubByte _ _ n _ | .SubUint _ _ n _ _ | .ShiftRightUint _ _ n _ _ | .MultByByte _ _ n _
  | .ShiftRightAndMultByByte _ _ n _ _ | .ShiftRight _ _ n _ | .ShiftLeftByte _ _ n _
  | .ShiftLeftUint _ _ n _ _ | .ShiftLeft _ _ n _ | .BinarizeUsingThreshold _ _ n _
  | .ClipToRange _ _ n _ _ | .NormalizeLinear _ _ n _ _ _ _ => n
  | .ConvolveKernel3x3Divide _ _ r c _ _ | .ConvolveKernel5x5Divide _ _ r c _ _
  | .ConvolveKernel7x7Divide _ _ r c _ _ | .ConvolveKernel9x9Divide _ _ r c _ _
  | .ConvolveKernel3x3ShiftRight _ _ r c _ _ | .ConvolveKernel5x5ShiftRight _ _ r c _ _
  | .ConvolveKernel7x7ShiftRight _ _ r c _ _ | .ConvolveKernel9x9ShiftRight _ _ r c _ _
  | .SobelX _ _ r c | .SobelXShiftRight _ _ r c _ => (r * c).toNat

/-! ## Specification vocabulary -/

/-- A failing return leaves the bytes selected by `P` as they are in `m`. -/
def FailSafe (m : Mem) (P : Nat → Prop) (o : Outcome) : Prop :=
  o.retval = some false → ∀ a, P a → o.byte a = some (load m a)

/-- The call returns, and it returns `false` exactly when `null` holds. -/
def RejectsExactly (o : Outcome) (null : Prop) : Prop :=
  (o.retval = some false ↔ null) ∧ (o.retval = some true ↔ ¬ null)

/-- A memory with a one-byte source buffer at address 100 holding 1 and a one-byte destination
buffer at address 200 holding 2. -/
def sampleMem : Mem := fun a => if a = 100 then 1 else if a = 200 then 2 else 0

/-- The byte loop reads `Src[i]` before any write can reach it: the destination does not start
strictly inside the source buffer. It holds for non-overlapping buffers and for in-place use
(`Dest = Src`). -/
def ReadBeforeWrite (Src Dest length : Nat) : Prop := Dest ≤ Src ∨ Src + length ≤ Dest

instance (Src Dest length : Nat) : Decidable (ReadBeforeWrite Src Dest length) := by
  unfold ReadBeforeWrite; infer_instance

/-- A memory holding the bytes 3, 4, 3, 12 at addresses 100 to 103, used with two-byte
buffers that overlap: a source at 100, the destination at 101 and another source at 102. -/
def aliasMem : Mem :=
  fun a => if a = 100 then 3 else if a = 101 then 4 else if a = 102 then 3
    else if a = 103 then 12 else 0

/-- A memory with a two-byte second source at address 100 (holding 1, 0) and a two-byte first
source at address 300 (holding 10, 255); the two-byte destination buffer used with it starts
at address 101, inside the second source. -/
def aliasZeroMem : Mem :=
  fun a => if a = 100 then 1 else if a = 101 then 0 else if a = 300 then 10
    else if a = 301 then 255 else 0

/-- A memory with a one-byte source buffer at address 100 holding 250 and a one-byte
destination buffer at address 200 holding 77. -/
def clipMem : Mem := fun a => if a = 100 then 250 else if a = 200 then 77 else 0

/-- Whether the call reached undefined behaviour. -/
def Outcome.hitUndefined : Outcome → Bool
  | .undefined => true
  | _ => false

/-- Whether the loop was still running when the fuel ran out. -/
def Outcome.timedOut : Outcome → Bool
  | .timeout => true
  | _ => false

/-- The call `f`, as a function of the fuel, never returns: it runs out of every fuel. -/
def NeverReturns (f : Nat → Outcome) : Prop := ∀ fuel, f fuel = Outcome.timeout

/-- The indices `k` at which the loop `for (k = bpp; k >= 0; k--) iC[k] = ...` stores into
`iC`, in execution order; the argument is the number of iterations, as in `fillConst`. -/
def fillConstWrites : Nat → List Nat
  | 0 => []
  | k + 1 => k :: fillConstWrites k

/-- Floating point assumption used for the degenerate normalization: the difference of a
quotient `c / 255.0f` with itself compares equal to 0 (true of every finite value). -/
def SubSelfZero (fp : FloatOps) : Prop :=
  ∀ c : Int, fp.eq (fp.sub (fp.div (fp.ofInt c) (fp.ofInt 255))
    (fp.div (fp.ofInt c) (fp.ofInt 255))) (fp.ofInt 0) = true

/-- The value Mult computes from one source byte `s`:
`(unsigned char) ((s / 255.0f) * (s / 255.0f) * 255)`. -/
def multByte (fp : FloatOps) (s : Nat) : Int :=
  fp.toUChar (fp.mul (fp.mul (fp.div (fp.ofInt s) (fp.ofInt 255))
    (fp.div (fp.ofInt s) (fp.ofInt 255))) (fp.ofInt 255))

/-- A memory with a two-byte source buffer at address 100 holding 200, 100; the two-byte
destination buffer used with it starts at address 200 and holds zeros. -/
def shiftMem : Mem := fun a => if a = 100 then 200 else if a = 101 then 100 else 0

/-- A memory holding 255 at address 100 and 0 everywhere else. -/
def brightMem : Mem := fun a => if a = 100 then 255 else 0

/-- The memory holding 0 everywhere. -/
def zeroMem : Mem := fun _ => 0

/-- Floating point assumption used for Div: the comparison of a converted integer `0..255`
with `1.0f` is the comparison of the integers, and the products `1.0f * 255` and `0.0f * 255`
convert to the `unsigned char` values 255 and 0. -/
def SmallIntsExact (fp : FloatOps) : Prop :=
  (∀ q : Nat, q ≤ 255 → (fp.gt (fp.ofInt (q : Int)) (fp.ofInt 1) = true ↔ 1 < q)) ∧
  fp.toUChar (fp.mul (fp.ofInt 1) (fp.ofInt 255)) = 255 ∧
  fp.toUChar (fp.mul (fp.ofInt 0) (fp.ofInt 255)) = 0

/-- The unit index `i` of `for (i = 0; i < length; i += bpp)` never wraps: the first multiple
of `bpp` at or above `length` is below `2^32`. It holds when `length + bpp <= 2^32` and when
`length < 2^32` is a multiple of `bpp`. -/
def NoIndexWrap (length bpp : Nat) : Prop := bpp * ((length + bpp - 1) / bpp) < 2 ^ 32

instance (length bpp : Nat) : Decidable (NoIndexWrap length bpp) := by
  unfold NoIndexWrap; infer_instance

/-! ## Bounds-checked word shifts -/

/-- Result of a step that checks every buffer index against the declared length: a value,
undefined behaviour of a shift, or an access at an index outside `[0, length)`. -/
inductive Checked (α : Type) where
  /-- The step produced a value. -/
  | ok (a : α)
  /-- The step reached a shift by 32 or more. -/
  | undefined
  /-- The step indexed a buffer at `length` or beyond. -/
  | outOfBounds

/-- A step without index checks, seen as a checked step. -/
def Checked.ofOption {α : Type} : Option α → Checked α
  | some a => .ok a
  | none => .undefined

/-- Sequencing of checked steps. -/
def Checked.bind {α β : Type} : Checked α → (α → Checked β) → Checked β
  | .ok a, f => f a
  | .undefined, _ => .undefined
  | .outOfBounds, _ => .outOfBounds

/-- The assembling loop of ShiftRightUint (see `packUnitInt`), where the read of
`cursrc1[i + j]` is checked against `length`. -/
def packUnitIntChecked (m : Mem) (Src1 i length : Nat) : Nat → Int → Checked Int
  | 0, result => .ok result
  | j + 1, result =>
    if (i + j) % 2 ^ 32 ≥ length then .outOfBounds
    else if 4 * j ≥ 32 then .undefined
    else
      let x : Nat := (load m (Src1 + (i + j) % 2 ^ 32) <<< (4 * j)) % 2 ^ 32
      packUnitIntChecked m Src1 i length j (toInt32 (toUInt32 result ||| x))

/-- The assembling loop of ShiftLeftUint (see `packUnitUInt`), where the read of
`cursrc1[i + j]` is checked against `length`. -/
def packUnitUIntChecked (m : Mem) (Src1 i length : Nat) : Nat → Nat → Checked Nat
  | 0, result => .ok result
  | j + 1, result =>
    if (i + j) % 2 ^ 32 ≥ length then .outOfBounds
    else if 4 * j ≥ 32 then .undefined
    else
      let x : Nat := (load m (Src1 + (i + j) % 2 ^ 32) <<< (4 * j)) % 2 ^ 32
      packUnitUIntChecked m Src1 i length j (result ||| x)

/-- The loop `for (j = 0; j < n; j++) body` for a checked body. -/
def forIndexChecked (n : Nat) (body : Nat → Mem → Checked Mem) (m : Mem) : Checked Mem :=
  (List.range n).foldl (fun acc j => acc.bind (body j)) (.ok m)

/-- The loop `for (i = istart; i < length; i += bpp) body` followed by `return true` (see
`forUnits`) for a checked body; `none` when an index outside `[0, length)` is accessed. -/
def forUnitsChecked (length bpp : Nat) (body : Nat → Mem → Checked Mem) :
    Nat → Nat → Mem → Option Outcome
  | 0, i, m => if i < length then some .timeout else some (.ret true m)
  | fuel + 1, i, m =>
    if i < length then
      match body i m with
      | .ok m1 => forUnitsChecked length bpp body fuel ((i + bpp) % 2 ^ 32) m1
      | .undefined => some .undefined
      | .outOfBounds => none
    else some (.ret true m)

/-- ShiftRightUint with every access `cursrc1[i + j]` and `curdest[i + j]` checked against
`length`; `none` when an index outside `[0, length)` is accessed. -/
def SDL_imageFilterShiftRightUintChecked (fuel : Nat) (m : Mem)
    (Src1 Dest length bpp N : Nat) : Option Outcome :=
  if Src1 = 0 ∨ Dest = 0 then some (.ret false m)
  else if length = 0 then some (.ret true m)
  else if N > 8 then some (.ret false m)
  else if N = 0 then
    some (afterMemcpy (memcpy m Src1 Dest length) (fun m => .ret (boolOfInt 0) m))
  else
    forUnitsChecked length bpp (fun i m =>
      if (i + bpp) % 2 ^ 32 < length then
        match packUnitIntChecked m Src1 i length (toInt32 bpp + 1).toNat 0 with
        | .outOfBounds => .outOfBounds
        | .undefined => .undefined
        | .ok result =>
          if N ≥ 32 then .undefined
          else
            let result : Int := result >>> N
            forIndexChecked bpp (fun j m =>
              if (i + j) % 2 ^ 32 ≥ length then .outOfBounds
              else if bpp ≥ 32 then .undefined
              else .ok (store m (Dest + (i + j) % 2 ^ 32) ((result >>> bpp) % 256))) m
      else .ok m) fuel 0 m

/-- ShiftLeftUint with every access `cursrc1[i + j]` and `curdest[i + j]` checked against
`length`; `none` when an index outside `[0, length)` is accessed. -/
def SDL_imageFilterShiftLeftUintChecked (fuel : Nat) (m : Mem)
    (Src1 Dest length bpp N : Nat) : Option Outcome :=
  if Src1 = 0 ∨ Dest = 0 then some (.ret false m)
  else if length = 0 then some (.ret true m)
  else if N > 32 then some (.ret false m)
  else if N = 0 then some (afterMemcpy (memcpy m Src1 Dest length) (fun m => .ret true m))
  else
    forUnitsChecked length bpp (fun i m =>
      if (i + bpp) % 2 ^ 32 < length then
        match packUnitUIntChecked m Src1 i length (toInt32 bpp + 1).toNat 0 with
        | .outOfBounds => .outOfBounds
        | .undefined => .undefined
        | .ok result =>
          if N ≥ 32 then .undefined
          else
            let result : Nat := (result <<< N) % 2 ^ 32
            forIndexChecked bpp (fun j m =>
              if (i + j) % 2 ^ 32 ≥ length then .outOfBounds
              else if bpp ≥ 32 then .undefined
              else .ok (store m (Dest + (i + j) % 2 ^ 32)
                (((result >>> bpp) &&& 0xFF : Nat) : Int))) m
      else .ok m) fuel 0 m

/-! ## Auxiliary lemmas -/

theorem memcpy_outside {m m1 : Mem} {dst src n : Nat} (h : memcpy m dst src n = some m1)
    (a : Nat) (ha : ¬ (dst ≤ a ∧ a < dst + n)) : m1 a = m a := by
  unfold memcpy at h
  split at h
  · simp at h
  · simp only [Option.some.injEq] at h
    subst h
    simp only [ha, if_false]

theorem memcpy_source_region {m m1 : Mem} {dst src n : Nat} (h : memcpy m dst src n = some m1)
    (a : Nat) (h1 : src ≤ a) (h2 : a < src + n) : m1 a = m a := by
  apply memcpy_outside h
  unfold memcpy at h
  split at h
  · simp at h
  · rename_i hov
    unfold overlaps at hov
    omega

theorem forUnits_retval (length bpp : Nat) (body : Nat → Mem → Option Mem) (fuel i : Nat)
    (m : Mem) : (forUnits length bpp body fuel i m).retval ≠ some false := by
  induction fuel generalizing i m with
  | zero => unfold forUnits; split <;> simp [Outcome.retval]
  | succ f ih =>
    unfold forUnits
    split
    · split
      · exact ih _ _
      · simp [Outcome.retval]
    · simp [Outcome.retval]

theorem afterMemcpy_true_retval (r : Option Mem) :
    (afterMemcpy r (fun m => Outcome.ret true m)).retval ≠ some false := by
  cases r <;> simp [afterMemcpy, Outcome.retval]


theorem failSafe_ret_false (m : Mem) (P : Nat → Prop) : FailSafe m P (.ret false m) :=
  fun _ _ _ => rfl

theorem failSafe_ret_true (m m1 : Mem) (P : Nat → Prop) : FailSafe m P (.ret true m1) := by
  intro h; simp [Outcome.retval] at h

theorem failSafe_undefined (m : Mem) (P : Nat → Prop) : FailSafe m P .undefined := by
  intro h; simp [Outcome.retval] at h

theorem failSafe_ite (m : Mem) (P : Nat → Prop) (c : Prop) [Decidable c] (x y : Outcome)
    (hx : FailSafe m P x) (hy : FailSafe m P y) : FailSafe m P (if c then x else y) := by
  split <;> assumption

theorem failSafe_forUnits (m : Mem) (P : Nat → Prop) (length bpp : Nat)
    (body : Nat → Mem → Option Mem) (fuel i : Nat) (m0 : Mem) :
    FailSafe m P (forUnits length bpp body fuel i m0) :=
  fun h => absurd h (forUnits_retval _ _ _ _ _ _)

theorem failSafe_afterMemcpy (m : Mem) (Src1 Dest length : Nat) (b : Bool) :
    FailSafe m (fun a => Dest ≤ a ∧ a < Dest + length)
      (afterMemcpy (memcpy m Src1 Dest length) (fun m1 => Outcome.ret b m1)) := by
  intro h a ha
  cases hm : memcpy m Src1 Dest length with
  | none => simp [hm, afterMemcpy, Outcome.retval] at h
  | some m1 =>
    simp only [afterMemcpy, Outcome.byte, load, memcpy_source_region hm a ha.1 ha.2]

theorem failSafe_fillConst (m : Mem) (P : Nat → Prop) (r : Option ConstArray)
    (k : ConstArray → Outcome) (hk : ∀ iC, FailSafe m P (k iC)) :
    FailSafe m P (match r with
      | none => Outcome.undefined
      | some iC => k iC) := by
  cases r with
  | none => exact failSafe_undefined m P
  | some iC => exact hk iC

theorem rejectsExactly_guard (null c : Prop) [Decidable null] [Decidable c] (m m1 m2 : Mem) :
    RejectsExactly
      (if null then Outcome.ret false m else if c then Outcome.ret true m1
        else Outcome.ret true m2) null := by
  unfold RejectsExactly
  by_cases hn : null
  · simp [hn, Outcome.retval]
  · by_cases hc : c <;> simp [hn, hc, Outcome.retval]

theorem forBytes_succ (n : Nat) (body : Nat → Mem → Mem) (m : Mem) :
    forBytes (n + 1) body m = body n (forBytes n body m) := by
  simp [forBytes, List.range_succ, List.foldl_append]

/-- A loop whose iteration `i` writes only address `Dest + i` leaves every address outside
`[Dest, Dest + n)` untouched. -/
theorem forBytes_frame (body : Nat → Mem → Mem) (Dest : Nat)
    (hW : ∀ i m a, a ≠ Dest + i → body i m a = m a) (n : Nat) (m : Mem) (a : Nat)
    (ha : a < Dest ∨ Dest + n ≤ a) : forBytes n body m a = m a := by
  induction n with
  | zero => simp [forBytes]
  | succ k ih =>
    rw [forBytes_succ, hW k _ a (by omega)]
    exact ih (by omega)

/-- The byte at `Dest + i` after the loop is the one written by iteration `i`. -/
theorem forBytes_at (body : Nat → Mem → Mem) (Dest : Nat)
    (hW : ∀ i m a, a ≠ Dest + i → body i m a = m a) (n : Nat) (m : Mem) (i : Nat)
    (hi : i < n) : forBytes n body m (Dest + i) = body i (forBytes i body m) (Dest + i) := by
  induction n with
  | zero => omega
  | succ k ih =>
    rw [forBytes_succ]
    by_cases hik : i = k
    · subst hik; rfl
    · rw [hW k _ (Dest + i) (by omega)]
      exact ih (by omega)

/-- When iteration `i` reads its source before any write reaches it, the source byte it sees
is the one of the initial memory. -/
theorem forBytes_source (body : Nat → Mem → Mem) (Src Dest : Nat)
    (hW : ∀ i m a, a ≠ Dest + i → body i m a = m a) (n : Nat) (m : Mem) (i : Nat)
    (hi : i < n) (h : ReadBeforeWrite Src Dest n) :
    load (forBytes i body m) (Src + i) = load m (Src + i) := by
  unfold load
  rw [forBytes_frame body Dest hW i m (Src + i) (by unfold ReadBeforeWrite at h; omega)]

theorem store_other (m : Mem) (a : Nat) (v : Int) (x : Nat) (h : x ≠ a) :
    store m a v x = m x := by
  simp [store, h]

theorem store_same (m : Mem) (a : Nat) (v : Int) : store m a v a = (v % 256).toNat := by
  simp [store]

/-- A loop whose iteration `i` stores at `Dest + i` a value `g` of the source bytes at index
`i`: value of the destination byte after the loop. -/
theorem forBytes_pointwise2 (body : Nat → Mem → Mem) (g : Nat → Nat → Int)
    (Src1 Src2 Dest n : Nat)
    (hbody : ∀ i m, body i m
      = store m (Dest + i) (g (load m (Src1 + i)) (load m (Src2 + i))))
    (m : Mem) (h1 : ReadBeforeWrite Src1 Dest n) (h2 : ReadBeforeWrite Src2 Dest n) (i : Nat)
    (hi : i < n) :
    load (forBytes n body m) (Dest + i)
      = (g (load m (Src1 + i)) (load m (Src2 + i)) % 256).toNat := by
  have hW : ∀ i (m : Mem) a, a ≠ Dest + i → body i m a = m a := by
    intro i m a ha
    rw [hbody, store_other m _ _ a ha]
  have key : forBytes n body m (Dest + i)
      = (g (load m (Src1 + i)) (load m (Src2 + i)) % 256).toNat := by
    rw [forBytes_at body Dest hW n m i hi, hbody,
      forBytes_source body Src1 Dest hW n m i hi h1,
      forBytes_source body Src2 Dest hW n m i hi h2, store_same]
  show forBytes n body m (Dest + i) % 256 = _
  rw [key]
  exact Nat.mod_eq_of_lt (by omega)

/-- A loop whose iteration `i` stores only at `Dest + i`: every byte outside the destination
buffer keeps its value. -/
theorem forBytes_pointwise_frame (body : Nat → Mem → Mem) (Dest n : Nat) (v : Nat → Mem → Int)
    (hbody : ∀ i m, body i m = store m (Dest + i) (v i m))
    (m : Mem) (a : Nat) (ha : a < Dest ∨ Dest + n ≤ a) :
    load (forBytes n body m) a = load m a := by
  show forBytes n body m a % 256 = m a % 256
  rw [forBytes_frame body Dest (fun i m a ha => by rw [hbody, store_other m _ _ a ha]) n m a ha]

theorem guarded_loop_eq (null : Prop) [Decidable null] (hn : ¬ null) (length : Nat)
    (body : Nat → Mem → Mem) (m : Mem) :
    (if null then Outcome.ret false m else if length = 0 then Outcome.ret true m
      else Outcome.ret true (forBytes length body m))
      = Outcome.ret true (forBytes length body m) := by
  rw [if_neg hn]
  split
  · next h => subst h; rfl
  · rfl

/-- Specification of a returning byte loop that stores `g Src1[i] Src2[i]` at `Dest[i]`: it
returns `true`, it touches no byte outside the destination buffer, and when each source byte
is read before any write reaches it the destination bytes are the values of `g`. -/
theorem loop_spec (body : Nat → Mem → Mem) (g : Nat → Nat → Int) (Src1 Src2 Dest n : Nat)
    (hbody : ∀ i m, body i m
      = store m (Dest + i) (g (load m (Src1 + i)) (load m (Src2 + i))))
    (m : Mem) :
    (Outcome.ret true (forBytes n body m)).retval = some true ∧
    (ReadBeforeWrite Src1 Dest n → ReadBeforeWrite Src2 Dest n →
      ∀ i, i < n → (Outcome.ret true (forBytes n body m)).byte (Dest + i)
        = some ((g (load m (Src1 + i)) (load m (Src2 + i)) % 256).toNat)) ∧
    (∀ a, a < Dest ∨ Dest + n ≤ a →
      (Outcome.ret true (forBytes n body m)).byte a = some (load m a)) := by
  refine ⟨rfl, fun h1 h2 i hi => ?_, fun a ha => ?_⟩
  · simp only [Outcome.byte]
    rw [forBytes_pointwise2 body g Src1 Src2 Dest n hbody m h1 h2 i hi]
  · simp only [Outcome.byte]
    rw [forBytes_pointwise_frame body Dest n _ hbody m a ha]

theorem load_lt (m : Mem) (a : Nat) : load m a < 256 := Nat.mod_lt _ (by omega)

theorem packUnitUInt_some (m : Mem) (Src1 i : Nat) (n : Nat) (hn : n ≤ 8) (r : Nat) :
    ∃ r1, packUnitUInt m Src1 i n r = some r1 := by
  induction n generalizing r with
  | zero => exact ⟨r, rfl⟩
  | succ j ih =>
    unfold packUnitUInt
    rw [if_neg (by omega)]
    exact ih (by omega) _

theorem packUnitInt_some (m : Mem) (Src1 i : Nat) (n : Nat) (hn : n ≤ 8) (r : Int) :
    ∃ r1, packUnitInt m Src1 i n r = some r1 := by
  induction n generalizing r with
  | zero => exact ⟨r, rfl⟩
  | succ j ih =>
    unfold packUnitInt
    rw [if_neg (by omega)]
    exact ih (by omega) _

theorem forIndex_succ (n : Nat) (body : Nat → Mem → Option Mem) (m : Mem) :
    forIndex (n + 1) body m = (forIndex n body m).bind (body n) := by
  simp [forIndex, List.range_succ, List.foldl_append]

theorem forIndex_some (n : Nat) (body : Nat → Mem → Option Mem)
    (hbody : ∀ j m, ∃ m1, body j m = some m1) (m : Mem) :
    ∃ m1, forIndex n body m = some m1 := by
  induction n with
  | zero => exact ⟨m, rfl⟩
  | succ k ih =>
    obtain ⟨m1, h1⟩ := ih
    rw [forIndex_succ, h1]
    exact hbody k m1

theorem toInt32_small (bpp : Nat) (h : bpp ≤ 4) : (toInt32 bpp + 1).toNat = bpp + 1 := by
  unfold toInt32
  have e : bpp % 2 ^ 32 = bpp := Nat.mod_eq_of_lt (by omega)
  rw [e, if_pos (by omega)]
  omega

/-- The unit loop returns `true` when its body never reaches undefined behaviour, the index
does not wrap and the fuel covers the length. -/
theorem forUnits_returns (length bpp : Nat) (body : Nat → Mem → Option Mem)
    (hbody : ∀ i m, ∃ m1, body i m = some m1) (hb : 1 ≤ bpp) (hlen : length + bpp ≤ 2 ^ 32)
    (fuel i : Nat) (m : Mem) (hf : length ≤ i + fuel) :
    (forUnits length bpp body fuel i m).retval = some true := by
  induction fuel generalizing i m with
  | zero =>
    unfold forUnits
    rw [if_neg (by omega)]
    rfl
  | succ f ih =>
    unfold forUnits
    by_cases hi : i < length
    · rw [if_pos hi]
      obtain ⟨m1, h1⟩ := hbody i m
      rw [h1]
      have e : (i + bpp) % 2 ^ 32 = i + bpp := Nat.mod_eq_of_lt (by omega)
      simp only [e]
      exact ih (i + bpp) m1 (by omega)
    · rw [if_neg hi]
      rfl

/-- A loop whose iteration `i` writes only `Dest + i`, and writes 0 there whenever the byte
`Src2[i]` it reads is 0, leaves 0 at `Dest + i` when `Src2[i]` is 0 in the initial memory and
is read before any write reaches it. -/
theorem forBytes_zero_case (body : Nat → Mem → Mem) (Src2 Dest n : Nat)
    (hW : ∀ i m a, a ≠ Dest + i → body i m a = m a)
    (hZ : ∀ i m, load m (Src2 + i) = 0 → body i m (Dest + i) = 0)
    (m : Mem) (h2 : ReadBeforeWrite Src2 Dest n) (i : Nat) (hi : i < n)
    (hz : load m (Src2 + i) = 0) : load (forBytes n body m) (Dest + i) = 0 := by
  show forBytes n body m (Dest + i) % 256 = 0
  rw [forBytes_at body Dest hW n m i hi,
    hZ i _ (by rw [forBytes_source body Src2 Dest hW n m i hi h2]; exact hz)]

theorem memset_inside (m : Mem) (Dest : Nat) (c : Int) (n : Nat) (i : Nat) (hi : i < n) :
    load (memset m Dest c n) (Dest + i) = (c % 256).toNat := by
  have h : (c % 256).toNat < 256 := by omega
  have hin : Dest ≤ Dest + i ∧ Dest + i < Dest + n := by omega
  simp only [load, memset, hin, and_self, if_true]
  exact Nat.mod_eq_of_lt h

theorem guarded_loop_eq2 (null c : Prop) [Decidable null] [Decidable c] (hn : ¬ null)
    (hc : ¬ c) (x : Outcome) (length : Nat) (body : Nat → Mem → Mem) (m : Mem) :
    (if null then Outcome.ret false m else if length = 0 then Outcome.ret true m
      else if c then x else Outcome.ret true (forBytes length body m))
      = Outcome.ret true (forBytes length body m) := by
  rw [if_neg hn, if_neg hc]
  split
  · next h => subst h; rfl
  · rfl

theorem exactFloat_sub_self (x : Frac) :
    exactFloat.eq (exactFloat.sub x x) (exactFloat.ofInt 0) = true := by
  apply decide_eq_true
  show (x.num * (x.den : Int) - x.num * (x.den : Int)) * ((1 : Nat) : Int)
    = 0 * ((x.den * x.den : Nat) : Int)
  rw [sub_self, zero_mul, zero_mul]

theorem exactFloat_subSelfZero : SubSelfZero exactFloat :=
  fun _ => exactFloat_sub_self _

theorem fillConstWrites_lt (n k : Nat) (h : k ∈ fillConstWrites n) : k < n := by
  induction n with
  | zero => simp [fillConstWrites] at h
  | succ j ih =>
    simp only [fillConstWrites, List.mem_cons] at h
    rcases h with h | h
    · omega
    · have := ih h
      omega

/-- An inner loop whose iterations preserve the bytes selected by `P` preserves them. -/
theorem forIndex_frame (n : Nat) (body : Nat → Mem → Option Mem) (P : Nat → Prop)
    (hbody : ∀ j m m1, j < n → body j m = some m1 → ∀ a, P a → m1 a = m a)
    (m m1 : Mem) (h : forIndex n body m = some m1) : ∀ a, P a → m1 a = m a := by
  induction n generalizing m1 with
  | zero =>
    simp only [forIndex, List.range_zero, List.foldl_nil, Option.some.injEq] at h
    subst h
    exact fun _ _ => rfl
  | succ k ih =>
    rw [forIndex_succ] at h
    cases hk : forIndex k body m with
    | none => rw [hk] at h; simp at h
    | some mk =>
      rw [hk] at h
      intro a ha
      have e1 := ih (fun j m m1 hj => hbody j m m1 (by omega)) mk hk a ha
      have e2 := hbody k mk m1 (by omega) h a ha
      rw [e2, e1]

/-- A unit loop whose iterations preserve the bytes selected by `P`, as long as the index
satisfies the invariant `Inv`, preserves them when it returns. -/
theorem forUnits_frame (length bpp : Nat) (body : Nat → Mem → Option Mem)
    (P Inv : Nat → Prop)
    (hstep : ∀ i, Inv i → i < length → Inv ((i + bpp) % 2 ^ 32))
    (hbody : ∀ i m m1, Inv i → i < length → body i m = some m1 → ∀ a, P a → m1 a = m a)
    (fuel i : Nat) (m : Mem) (hi : Inv i) (b : Bool) (mf : Mem)
    (h : forUnits length bpp body fuel i m = Outcome.ret b mf) : ∀ a, P a → mf a = m a := by
  induction fuel generalizing i m with
  | zero =>
    unfold forUnits at h
    split at h
    · simp at h
    · simp only [Outcome.ret.injEq] at h
      rw [h.2]
      exact fun _ _ => rfl
  | succ f ih =>
    unfold forUnits at h
    by_cases hlt : i < length
    · rw [if_pos hlt] at h
      cases hb : body i m with
      | none => rw [hb] at h; simp at h
      | some m1 =>
        rw [hb] at h
        intro a ha
        rw [ih ((i + bpp) % 2 ^ 32) m1 (hstep i hi hlt) h a ha]
        exact hbody i m m1 hi hlt hb a ha
    · rw [if_neg hlt] at h
      simp only [Outcome.ret.injEq] at h
      rw [h.2]
      exact fun _ _ => rfl

/-- With `bpp >= 1`, no wrap of the index and fuel covering the length, the unit loop does
not run out of fuel. -/
theorem forUnits_no_timeout (length bpp : Nat) (body : Nat → Mem → Option Mem)
    (hb : 1 ≤ bpp) (hlen : length + bpp ≤ 2 ^ 32) (fuel i : Nat) (m : Mem)
    (hf : length ≤ i + fuel) : (forUnits length bpp body fuel i m).timedOut = false := by
  induction fuel generalizing i m with
  | zero =>
    unfold forUnits
    rw [if_neg (by omega)]
    rfl
  | succ f ih =>
    unfold forUnits
    by_cases hi : i < length
    · rw [if_pos hi]
      cases hbd : body i m with
      | none => rfl
      | some m1 =>
        have e : (i + bpp) % 2 ^ 32 = i + bpp := Nat.mod_eq_of_lt (by omega)
        simp only [e]
        exact ih (i + bpp) m1 (by omega)
    · rw [if_neg hi]
      rfl

/-- A unit loop whose index stays below `length` along an invariant, and whose body never
reaches undefined behaviour there, runs out of every fuel. -/
theorem forUnits_never (length bpp : Nat) (body : Nat → Mem → Option Mem) (Inv : Nat → Prop)
    (hinv : ∀ i, Inv i → i < length ∧ Inv ((i + bpp) % 2 ^ 32))
    (hbody : ∀ i m, Inv i → ∃ m1, body i m = some m1) (fuel i : Nat) (m : Mem)
    (hi : Inv i) : forUnits length bpp body fuel i m = Outcome.timeout := by
  induction fuel generalizing i m with
  | zero =>
    unfold forUnits
    rw [if_pos (hinv i hi).1]
  | succ f ih =>
    unfold forUnits
    rw [if_pos (hinv i hi).1]
    obtain ⟨m1, h1⟩ := hbody i m hi
    rw [h1]
    exact ih _ m1 (hinv i hi).2

theorem forIndex_some_lt (n : Nat) (body : Nat → Mem → Option Mem)
    (hbody : ∀ j m, j < n → ∃ m1, body j m = some m1) (m : Mem) :
    ∃ m1, forIndex n body m = some m1 := by
  induction n with
  | zero => exact ⟨m, rfl⟩
  | succ k ih =>
    obtain ⟨m1, h1⟩ := ih (fun j m hj => hbody j m (by omega))
    rw [forIndex_succ, h1]
    exact hbody k m1 (by omega)

theorem toInt32_count (bpp : Nat) (h : bpp < 2 ^ 31) : (toInt32 bpp + 1).toNat = bpp + 1 := by
  unfold toInt32
  have e : bpp % 2 ^ 32 = bpp := Nat.mod_eq_of_lt (by omega)
  rw [e, if_pos h]
  omega

/-- For `bpp <= 3` the loop filling the constant array is defined and stores a value at
every index up to `bpp`. -/
theorem fillConst_some (bpp C : Nat) (hb : bpp ≤ 3) (n : Nat) (hn : n ≤ bpp + 1)
    (iC : ConstArray) :
    ∃ iC1, fillConst bpp C n iC = some iC1 ∧ (∀ k, k < n → (iC1 k).isSome = true) ∧
      (∀ k, n ≤ k → iC1 k = iC k) := by
  induction n generalizing iC with
  | zero => exact ⟨iC, rfl, fun k hk => by omega, fun _ _ => rfl⟩
  | succ j ih =>
    unfold fillConst
    have e : 8 * (bpp - j) % 2 ^ 32 = 8 * (bpp - j) := Nat.mod_eq_of_lt (by omega)
    simp only [e]
    rw [if_neg (by unfold MAX_BYTES_PER_PIXEL; omega), if_neg (by omega)]
    obtain ⟨iC1, h1, h2, h3⟩ := ih (by omega)
      (fun x => if x = j then some (((C >>> (8 * (bpp - j))) &&& 0xff : Nat) : Int) else iC x)
    refine ⟨iC1, h1, fun k hk => ?_, fun k hk => ?_⟩
    · by_cases hkj : k = j
      · subst hkj
        rw [h3 k (Nat.le_refl _)]
        simp
      · exact h2 k (by omega)
    · rw [h3 k (by omega), if_neg (by omega)]

theorem unit_below_trailing (bpp i length : Nat) (hb : 1 ≤ bpp) (hd : bpp ∣ i)
    (h : i + bpp < length) : i + bpp ≤ bpp * (length / bpp) := by
  obtain ⟨u, rfl⟩ := hd
  have h1 : (u + 1) * bpp ≤ length := by
    have : (u + 1) * bpp = bpp * u + bpp := by ring
    omega
  have h2 : u + 1 ≤ length / bpp := (Nat.le_div_iff_mul_le hb).2 h1
  calc bpp * u + bpp = bpp * (u + 1) := by ring
    _ ≤ bpp * (length / bpp) := Nat.mul_le_mul_left bpp h2

/-- The loop storing the `bpp` destination bytes of one unit changes no other byte. -/
theorem storeLoop_frame (e : Prop) [Decidable e] (v : Int) (Dest i bpp : Nat) (m m1 : Mem)
    (a : Nat) (ha : ∀ j, j < bpp → a ≠ Dest + (i + j) % 2 ^ 32)
    (h : forIndex bpp (fun j m =>
      if e then none else some (store m (Dest + (i + j) % 2 ^ 32) v)) m = some m1) :
    m1 a = m a := by
  refine forIndex_frame bpp _ (fun x => x = a) ?_ m m1 h a rfl
  intro j mj mj1 hj hb x hx
  subst hx
  by_cases he : e
  · rw [if_pos he] at hb; simp at hb
  · rw [if_neg he] at hb
    simp only [Option.some.injEq] at hb
    rw [← hb]
    exact store_other mj _ _ x (ha j hj)

theorem byte_of_frame (o : Outcome) (m : Mem) (a : Nat)
    (h : ∀ b mf, o = Outcome.ret b mf → mf a = m a) (hr : o.retval ≠ none) :
    o.byte a = some (load m a) := by
  cases o with
  | ret b mf =>
    simp only [Outcome.byte, load, h b mf rfl]
  | undefined => simp [Outcome.retval] at hr
  | timeout => simp [Outcome.retval] at hr

theorem afterMemcpy_timedOut (r : Option Mem) (b : Bool) :
    (afterMemcpy r (fun m => Outcome.ret b m)).timedOut = false := by
  cases r <;> rfl

theorem afterMemcpy_returns (m : Mem) (dst src n : Nat) (b : Bool)
    (h : ¬ overlaps dst src n) :
    (afterMemcpy (memcpy m dst src n) (fun m => Outcome.ret b m)).retval = some b := by
  unfold memcpy
  rw [if_neg h]
  rfl

theorem readConst_some (iC : ConstArray) (j : Nat) (hj : j < MAX_BYTES_PER_PIXEL)
    (h : (iC j).isSome = true) : ∃ c, readConst iC j = some c := by
  unfold readConst
  rw [if_pos hj]
  exact Option.isSome_iff_exists.1 h

theorem exactFloat_smallIntsExact : SmallIntsExact exactFloat := by
  refine ⟨fun q _ => ?_, by decide, by decide⟩
  show decide ((q : Int) * ((1 : Nat) : Int) > 1 * ((1 : Nat) : Int)) = true ↔ 1 < q
  rw [decide_eq_true_iff]
  omega

/-- The byte Div stores for a non-zero divisor byte `b`: the integer quotient `a / b`,
clamped to 1 and scaled by 255, is 255 when `a >= b` and 0 otherwise. -/
theorem div_value (fp : FloatOps) (hfp : SmallIntsExact fp) (a b : Nat) (ha : a < 256)
    (hb : b ≠ 0) :
    fp.toUChar (fp.mul (if fp.gt (fp.ofInt ((a / b : Nat) : Int)) (fp.ofInt 1) = true
      then fp.ofInt 1 else fp.ofInt ((a / b : Nat) : Int)) (fp.ofInt 255))
      = if a ≥ b then 255 else 0 := by
  obtain ⟨hgt, h1, h0⟩ := hfp
  have hq : a / b ≤ 255 := Nat.le_trans (Nat.div_le_self a b) (by omega)
  have hbpos : 0 < b := Nat.pos_of_ne_zero hb
  by_cases hab : a ≥ b
  · rw [if_pos hab]
    have hq1 : 1 ≤ a / b := (Nat.le_div_iff_mul_le hbpos).2 (by omega)
    by_cases h2 : 1 < a / b
    · rw [if_pos ((hgt _ hq).2 h2)]
      exact h1
    · rw [if_neg (fun h => h2 ((hgt _ hq).1 h))]
      have e : a / b = 1 := by omega
      rw [e]
      exact h1
  · rw [if_neg hab]
    have e : a / b = 0 := Nat.div_eq_of_lt (by omega)
    rw [e, if_neg (fun h => absurd ((hgt 0 (by omega)).1 h) (by omega))]
    exact h0

theorem toInt32_count_le (bpp : Nat) (h : bpp < 2 ^ 32) : (toInt32 bpp + 1).toNat ≤ bpp + 1 := by
  unfold toInt32
  have e : bpp % 2 ^ 32 = bpp := Nat.mod_eq_of_lt h
  rw [e]
  split <;> omega

/-- When the indices `i + j`, `j < n`, are inside the buffer, the checked assembling loop of
ShiftRightUint is the unchecked one. -/
theorem packUnitIntChecked_eq (m : Mem) (Src1 i length n : Nat)
    (h : ∀ j, j < n → (i + j) % 2 ^ 32 < length) (r : Int) :
    packUnitIntChecked m Src1 i length n r = Checked.ofOption (packUnitInt m Src1 i n r) := by
  induction n generalizing r with
  | zero => rfl
  | succ j ih =>
    unfold packUnitIntChecked packUnitInt
    rw [if_neg (by have := h j (by omega); omega)]
    by_cases hs : 4 * j ≥ 32
    · rw [if_pos hs, if_pos hs]; rfl
    · rw [if_neg hs, if_neg hs]
      exact ih (fun j1 hj1 => h j1 (by omega)) _

/-- When the indices `i + j`, `j < n`, are inside the buffer, the checked assembling loop of
ShiftLeftUint is the unchecked one. -/
theorem packUnitUIntChecked_eq (m : Mem) (Src1 i length n : Nat)
    (h : ∀ j, j < n → (i + j) % 2 ^ 32 < length) (r : Nat) :
    packUnitUIntChecked m Src1 i length n r
      = Checked.ofOption (packUnitUInt m Src1 i n r) := by
  induction n generalizing r with
  | zero => rfl
  | succ j ih =>
    unfold packUnitUIntChecked packUnitUInt
    rw [if_neg (by have := h j (by omega); omega)]
    by_cases hs : 4 * j ≥ 32
    · rw [if_pos hs, if_pos hs]; rfl
    · rw [if_neg hs, if_neg hs]
      exact ih (fun j1 hj1 => h j1 (by omega)) _

theorem forIndexChecked_succ (n : Nat) (body : Nat → Mem → Checked Mem) (m : Mem) :
    forIndexChecked (n + 1) body m = (forIndexChecked n body m).bind (body n) := by
  simp [forIndexChecked, List.range_succ, List.foldl_append]

/-- A checked inner loop whose body agrees with an unchecked body on the indices `j < n` is
the unchecked loop. -/
theorem forIndexChecked_eq (n : Nat) (body : Nat → Mem → Option Mem)
    (cbody : Nat → Mem → Checked Mem)
    (h : ∀ j m, j < n → cbody j m = Checked.ofOption (body j m)) (m : Mem) :
    forIndexChecked n cbody m = Checked.ofOption (forIndex n body m) := by
  induction n with
  | zero => rfl
  | succ k ih =>
    rw [forIndexChecked_succ, forIndex_succ, ih (fun j m hj => h j m (by omega))]
    cases forIndex k body m with
    | none => rfl
    | some mk => exact h k mk (by omega)

/-- A checked unit loop whose body agrees with an unchecked body below `length` never reaches
an out-of-bounds access and is the unchecked loop. -/
theorem forUnitsChecked_eq (length bpp : Nat) (body : Nat → Mem → Option Mem)
    (cbody : Nat → Mem → Checked Mem)
    (h : ∀ i m, i < length → cbody i m = Checked.ofOption (body i m)) (fuel i : Nat)
    (m : Mem) :
    forUnitsChecked length bpp cbody fuel i m = some (forUnits length bpp body fuel i m) := by
  induction fuel generalizing i m with
  | zero =>
    unfold forUnitsChecked forUnits
    split <;> rfl
  | succ f ih =>
    unfold forUnitsChecked forUnits
    by_cases hi : i < length
    · rw [if_pos hi, if_pos hi, h i m hi]
      cases body i m with
      | none => rfl
      | some m1 => exact ih _ m1
    · rw [if_neg hi, if_neg hi]

theorem ceil_unit_bounds (length bpp : Nat) (hb : 1 ≤ bpp) :
    length ≤ bpp * ((length + bpp - 1) / bpp) ∧
    bpp * ((length + bpp - 1) / bpp) < length + bpp := by
  have h1 := Nat.div_add_mod (length + bpp - 1) bpp
  have h2 := Nat.mod_lt (length + bpp - 1) (show bpp > 0 by omega)
  omega

theorem noIndexWrap_of_le (length bpp : Nat) (hb : 1 ≤ bpp) (h : length + bpp ≤ 2 ^ 32) :
    NoIndexWrap length bpp := by
  unfold NoIndexWrap
  have := (ceil_unit_bounds length bpp hb).2
  omega

theorem noIndexWrap_of_dvd (length bpp : Nat) (hb : 1 ≤ bpp) (hd : bpp ∣ length)
    (h : length < 2 ^ 32) : NoIndexWrap length bpp := by
  unfold NoIndexWrap
  obtain ⟨c, rfl⟩ := hd
  have e : (bpp * c + bpp - 1) / bpp = c := by
    have e1 : bpp * c + bpp - 1 = bpp * c + (bpp - 1) := by omega
    rw [e1, Nat.mul_add_div (by omega), Nat.div_eq_of_lt (by omega)]
    rfl
  rw [e]
  exact h

/-- The unit after a unit that starts below `length` starts at or below the first multiple of
`bpp` at or above `length`. -/
theorem unit_next_le (length bpp i : Nat) (hb : 1 ≤ bpp) (hd : bpp ∣ i) (hi : i < length) :
    i + bpp ≤ bpp * ((length + bpp - 1) / bpp) := by
  obtain ⟨u, rfl⟩ := hd
  have hle := (ceil_unit_bounds length bpp hb).1
  have hu : u < (length + bpp - 1) / bpp :=
    Nat.lt_of_mul_lt_mul_left (a := bpp) (by omega)
  have := Nat.mul_le_mul_left bpp (Nat.succ_le_of_lt hu)
  rw [Nat.mul_succ] at this
  exact this

theorem unit_start (bpp i j : Nat) (hd : bpp ∣ i) (hj : j < bpp) :
    bpp * ((i + j) / bpp) = i := by
  obtain ⟨u, rfl⟩ := hd
  rw [Nat.mul_add_div (by omega), Nat.div_eq_of_lt hj]
  rfl

theorem forUnits_done (length bpp : Nat) (body : Nat → Mem → Option Mem) (fuel i : Nat)
    (m : Mem) (hi : ¬ i < length) : forUnits length bpp body fuel i m = Outcome.ret true m := by
  cases fuel with
  | zero => unfold forUnits; rw [if_neg hi]
  | succ f => unfold forUnits; rw [if_neg hi]

/-- With a unit index that does not wrap, a defined body and fuel covering the length, the
unit loop returns `true`. -/
theorem forUnits_returns_noWrap (length bpp : Nat) (body : Nat → Mem → Option Mem)
    (hbody : ∀ i m, ∃ m1, body i m = some m1) (hb : 1 ≤ bpp) (hw : NoIndexWrap length bpp)
    (fuel i : Nat) (m : Mem) (hd : bpp ∣ i) (hf : length ≤ i + fuel) :
    (forUnits length bpp body fuel i m).retval = some true := by
  induction fuel generalizing i m with
  | zero =>
    rw [forUnits_done length bpp body 0 i m (by omega)]
    rfl
  | succ f ih =>
    by_cases hi : i < length
    · unfold forUnits
      rw [if_pos hi]
      obtain ⟨m1, h1⟩ := hbody i m
      rw [h1]
      have hnext := unit_next_le length bpp i hb hd hi
      unfold NoIndexWrap at hw
      have e : (i + bpp) % 2 ^ 32 = i + bpp := Nat.mod_eq_of_lt (by omega)
      simp only [e]
      exact ih (i + bpp) m1 (Nat.dvd_add hd (Nat.dvd_refl bpp)) (by omega)
    · rw [forUnits_done length bpp body _ i m hi]
      rfl

/-- Frame of ShiftLeftUint with `N >= 1`: a byte that no processed unit stores to keeps its
value when the call returns. The units are those whose start satisfies `Inv`. -/
theorem shiftLeftUint_frame (fuel : Nat) (m : Mem) (Src1 Dest length bpp N a : Nat)
    (hN : 1 ≤ N) (Inv : Nat → Prop) (h0 : Inv 0)
    (hstep : ∀ i, Inv i → i < length → Inv ((i + bpp) % 2 ^ 32))
    (hne : ∀ i, Inv i → i < length → (i + bpp) % 2 ^ 32 < length →
      ∀ j, j < bpp → a ≠ Dest + (i + j) % 2 ^ 32)
    (hr : (SDL_imageFilterShiftLeftUint fuel m Src1 Dest length bpp N).retval ≠ none) :
    (SDL_imageFilterShiftLeftUint fuel m Src1 Dest length bpp N).byte a
      = some (load m a) := by
  have hN0 : ¬ N = 0 := by omega
  revert hr
  unfold SDL_imageFilterShiftLeftUint
  by_cases hn : Src1 = 0 ∨ Dest = 0
  · rw [if_pos hn]; exact fun _ => rfl
  rw [if_neg hn]
  by_cases hl0 : length = 0
  · rw [if_pos hl0]; exact fun _ => rfl
  rw [if_neg hl0]
  by_cases hr : N > 32
  · rw [if_pos hr]; exact fun _ => rfl
  rw [if_neg hr, if_neg hN0]
  refine byte_of_frame _ m a (fun b mf h => ?_)
  refine forUnits_frame length bpp _ (fun x => x = a) Inv hstep ?_
    fuel 0 m h0 b mf h a rfl
  intro i mi mi1 hi hlt hbody x hx
  subst hx
  simp only [] at hbody
  by_cases hc : (i + bpp) % 2 ^ 32 < length
  · rw [if_pos hc] at hbody
    cases hp : packUnitUInt mi Src1 i (toInt32 bpp + 1).toNat 0 with
    | none => rw [hp] at hbody; simp at hbody
    | some r =>
      rw [hp] at hbody
      simp only [] at hbody
      by_cases h32 : N ≥ 32
      · rw [if_pos h32] at hbody; simp at hbody
      · rw [if_neg h32] at hbody
        exact storeLoop_frame _ _ Dest i bpp mi mi1 _ (hne i hi hlt hc) hbody
  · rw [if_neg hc] at hbody
    simp only [Option.some.injEq] at hbody
    rw [hbody]

/-- Frame of ShiftRightUint with `N >= 1`: a byte that no processed unit stores to keeps its
value when the call returns. The units are those whose start satisfies `Inv`. -/
theorem shiftRightUint_frame (fuel : Nat) (m : Mem) (Src1 Dest length bpp N a : Nat)
    (hN : 1 ≤ N) (Inv : Nat → Prop) (h0 : Inv 0)
    (hstep : ∀ i, Inv i → i < length → Inv ((i + bpp) % 2 ^ 32))
    (hne : ∀ i, Inv i → i < length → (i + bpp) % 2 ^ 32 < length →
      ∀ j, j < bpp → a ≠ Dest + (i + j) % 2 ^ 32)
    (hr : (SDL_imageFilterShiftRightUint fuel m Src1 Dest length bpp N).retval ≠ none) :
    (SDL_imageFilterShiftRightUint fuel m Src1 Dest length bpp N).byte a
      = some (load m a) := by
  have hN0 : ¬ N = 0 := by omega
  revert hr
  unfold SDL_imageFilterShiftRightUint
  by_cases hn : Src1 = 0 ∨ Dest = 0
  · rw [if_pos hn]; exact fun _ => rfl
  rw [if_neg hn]
  by_cases hl0 : length = 0
  · rw [if_pos hl0]; exact fun _ => rfl
  rw [if_neg hl0]
  by_cases hr : N > 8
  · rw [if_pos hr]; exact fun _ => rfl
  rw [if_neg hr, if_neg hN0]
  refine byte_of_frame _ m a (fun b mf h => ?_)
  refine forUnits_frame length bpp _ (fun x => x = a) Inv hstep ?_
    fuel 0 m h0 b mf h a rfl
  intro i mi mi1 hi hlt hbody x hx
  subst hx
  simp only [] at hbody
  by_cases hc : (i + bpp) % 2 ^ 32 < length
  · rw [if_pos hc] at hbody
    cases hp : packUnitInt mi Src1 i (toInt32 bpp + 1).toNat 0 with
    | none => rw [hp] at hbody; simp at hbody
    | some r =>
      rw [hp] at hbody
      simp only [] at hbody
      by_cases h32 : N ≥ 32
      · rw [if_pos h32] at hbody; simp at hbody
      · rw [if_neg h32] at hbody
        exact storeLoop_frame _ _ Dest i bpp mi mi1 _ (hne i hi hlt hc) hbody
  · rw [if_neg hc] at hbody
    simp only [Option.some.injEq] at hbody
    rw [hbody]

/-- A checked unit loop whose body is defined below the unit start `i0 < length` and accesses
an index outside the buffer at `i0` reaches that access once the fuel covers the units up to
`i0`. -/
theorem forUnitsChecked_hits (length bpp : Nat) (cbody : Nat → Mem → Checked Mem) (i0 : Nat)
    (hb : 1 ≤ bpp) (h0 : i0 < length) (hlt : i0 < 2 ^ 32)
    (hoob : ∀ m, cbody i0 m = Checked.outOfBounds)
    (hok : ∀ i m, i < i0 → ∃ m1, cbody i m = Checked.ok m1) (n i : Nat) (m : Mem)
    (fuel : Nat) (hi : i + n * bpp = i0) (hf : n < fuel) :
    forUnitsChecked length bpp cbody fuel i m = none := by
  induction n generalizing i m fuel with
  | zero =>
    obtain ⟨f, rfl⟩ : ∃ f, fuel = f + 1 := ⟨fuel - 1, by omega⟩
    have e : i = i0 := by omega
    subst e
    unfold forUnitsChecked
    rw [if_pos h0, hoob]
  | succ k ih =>
    obtain ⟨f, rfl⟩ : ∃ f, fuel = f + 1 := ⟨fuel - 1, by omega⟩
    rw [Nat.succ_mul] at hi
    have hpos : 0 < k * bpp + bpp := by omega
    unfold forUnitsChecked
    rw [if_pos (by omega)]
    obtain ⟨m1, h1⟩ := hok i m (by omega)
    rw [h1]
    have e : (i + bpp) % 2 ^ 32 = i + bpp := Nat.mod_eq_of_lt (by omega)
    simp only [e]
    exact ih (i + bpp) m1 f (by omega) (by omega)

theorem forIndexChecked_ok (n : Nat) (cbody : Nat → Mem → Checked Mem)
    (h : ∀ j m, j < n → ∃ m1, cbody j m = Checked.ok m1) (m : Mem) :
    ∃ m1, forIndexChecked n cbody m = Checked.ok m1 := by
  induction n with
  | zero => exact ⟨m, rfl⟩
  | succ k ih =>
    obtain ⟨m1, h1⟩ := ih (fun j m hj => h j m (by omega))
    rw [forIndexChecked_succ, h1]
    exact h k m1 (by omega)

/-! ## Claims -/

/-- C1 (the code departs from the claim). Identity-constant shortcut: with a source byte 1 at
address 100 and a destination byte 2 at address 200, AddByte, SubByte, AddUint and SubUint
with `C == 0` and MultByByte with `C == 1` return `true`, but the destination byte is still 2
instead of the source byte 1; the call has overwritten the source byte with 2. -/
theorem identity_shortcut_copies_dest_into_source :
    load sampleMem 100 = 1 ∧ load sampleMem 200 = 2 ∧
    ((SDL_imageFilterAddByte sampleMem 100 200 1 0).retval = some true ∧
      (SDL_imageFilterAddByte sampleMem 100 200 1 0).byte 200 = some 2 ∧
      (SDL_imageFilterAddByte sampleMem 100 200 1 0).byte 100 = some 2) ∧
    ((SDL_imageFilterSubByte sampleMem 100 200 1 0).retval = some true ∧
      (SDL_imageFilterSubByte sampleMem 100 200 1 0).byte 200 = some 2 ∧
      (SDL_imageFilterSubByte sampleMem 100 200 1 0).byte 100 = some 2) ∧
    ((SDL_imageFilterAddUint 1 sampleMem 100 200 1 1 0).retval = some true ∧
      (SDL_imageFilterAddUint 1 sampleMem 100 200 1 1 0).byte 200 = some 2 ∧
      (SDL_imageFilterAddUint 1 sampleMem 100 200 1 1 0).byte 100 = some 2) ∧
    ((SDL_imageFilterSubUint 1 sampleMem 100 200 1 1 0).retval = some true ∧
      (SDL_imageFilterSubUint 1 sampleMem 100 200 1 1 0).byte 200 = some 2 ∧
      (SDL_imageFilterSubUint 1 sampleMem 100 200 1 1 0).byte 100 = some 2) ∧
    ((SDL_imageFilterMultByByte exactFloat sampleMem 100 200 1 1).retval = some true ∧
      (SDL_imageFilterMultByByte exactFloat sampleMem 100 200 1 1).byte 200 = some 2 ∧
      (SDL_imageFilterMultByByte exactFloat sampleMem 100 200 1 1).byte 100 = some 2) := by
  decide

/-- C2 (the code departs from the claim). Source buffers are read-only: with distinct,
non-overlapping one-byte buffers (source byte 1 at address 100, destination byte 2 at address
200), SubByte with `C == 0` and ShiftLeft with `N == 0` return `true` and leave the source
byte equal to 2, not to the 1 it held before the call. -/
theorem shortcut_writes_source_buffer :
    load sampleMem 100 = 1 ∧ ¬ overlaps 100 200 1 ∧
    (SDL_imageFilterSubByte sampleMem 100 200 1 0).retval = some true ∧
    (SDL_imageFilterSubByte sampleMem 100 200 1 0).byte 100 = some 2 ∧
    (SDL_imageFilterShiftLeft sampleMem 100 200 1 0).retval = some true ∧
    (SDL_imageFilterShiftLeft sampleMem 100 200 1 0).byte 100 = some 2 := by
  decide

/-- C3. Failure is atomic with respect to the destination: for every filter of the file and
every input, when the call returns `false` every byte of the destination buffer holds the value
it held before the call. -/
theorem failure_leaves_dest (fp : FloatOps) (fuel : Nat) (m : Mem) (c : Call)
    (h : (c.run fp fuel m).retval = some false) (a : Nat)
    (h1 : c.dest ≤ a) (h2 : a < c.dest + c.destSize) :
    (c.run fp fuel m).byte a = some (load m a) := by
  have key : FailSafe m (fun a => c.dest ≤ a ∧ a < c.dest + c.destSize) (c.run fp fuel m) := by
    cases c <;> simp only [Call.run, Call.dest, Call.destSize]
    all_goals
      simp only [SDL_imageFilterAdd, SDL_imageFilterMean, SDL_imageFilterSub,
        SDL_imageFilterAbsDiff, SDL_imageFilterMult, SDL_imageFilterMultUnbound,
        SDL_imageFilterMultInv, SDL_imageFilterMultDivby2, SDL_imageFilterMultDivby4,
        SDL_imageFilterBitAnd, SDL_imageFilterBitOr, SDL_imageFilterDiv,
        SDL_imageFilterBitNegation, SDL_imageFilterAddByte, SDL_imageFilterAddByteToHalf,
        SDL_imageFilterSubByte, SDL_imageFilterMultByByte,
        SDL_imageFilterShiftRightAndMultByByte, SDL_imageFilterShiftRight,
        SDL_imageFilterShiftLeftByte, SDL_imageFilterShiftLeft,
        SDL_imageFilterBinarizeUsingThreshold, SDL_imageFilterClipToRange,
        SDL_imageFilterNormalizeLinear, SDL_imageFilterConvolveKernel3x3Divide,
        SDL_imageFilterConvolveKernel5x5Divide, SDL_imageFilterConvolveKernel7x7Divide,
        SDL_imageFilterConvolveKernel9x9Divide, SDL_imageFilterConvolveKernel3x3ShiftRight,
        SDL_imageFilterConvolveKernel5x5ShiftRight, SDL_imageFilterConvolveKernel7x7ShiftRight,
        SDL_imageFilterConvolveKernel9x9ShiftRight, SDL_imageFilterSobelX,
        SDL_imageFilterSobelXShiftRight, SDL_imageFilterAddUint, SDL_imageFilterSubUint,
        SDL_imageFilterShiftRightUint, SDL_imageFilterShiftLeftUint]
      repeat first
        | apply failSafe_ite
        | exact failSafe_ret_false _ _
        | exact failSafe_ret_true _ _ _
        | exact failSafe_afterMemcpy _ _ _ _ _
        | exact failSafe_forUnits _ _ _ _ _ _ _ _
        | apply failSafe_fillConst
        | intro _
  exact key h a ⟨h1, h2⟩

/-- Instance of the preceding theorem: ShiftRight with `N = 0` returns `false` and the
destination byte is unchanged. -/
theorem failure_leaves_dest_witness :
    (Call.run exactFloat 0 sampleMem (.ShiftRight 100 200 1 0)).retval = some false ∧
    (Call.run exactFloat 0 sampleMem (.ShiftRight 100 200 1 0)).byte 200
      = some (load sampleMem 200) :=
  ⟨by decide, failure_leaves_dest exactFloat 0 sampleMem (.ShiftRight 100 200 1 0)
    (by decide) 200 (by decide) (by decide)⟩

/-- C4 (the code departs from the claim). Empty input succeeds: NormalizeLinear called with
non-null buffers and `length == 0` returns `false` (its empty-length check is `return(0)`),
whatever the normalization constants are in the two calls evaluated here. -/
theorem normalizeLinear_empty_returns_false :
    (SDL_imageFilterNormalizeLinear exactFloat sampleMem 100 200 0 0 255 0 255).retval
      = some false ∧
    (SDL_imageFilterNormalizeLinear exactFloat sampleMem 100 200 0 10 10 0 0).retval
      = some false := by
  decide

/-- C5. For each of the twelve dual-source filters (Add, Mean, Sub, AbsDiff, Mult,
MultUnbound, MultInv, MultDivby2, MultDivby4, BitAnd, BitOr, Div), every memory and every
length, the call returns, and it returns `false` if and only if at least one of `Src1`,
`Src2`, `Dest` is null. -/
theorem dual_source_rejects_exactly_null (fp : FloatOps) (m : Mem)
    (Src1 Src2 Dest length : Nat) :
    RejectsExactly (SDL_imageFilterAdd m Src1 Src2 Dest length)
      (Src1 = 0 ∨ Src2 = 0 ∨ Dest = 0) ∧
    RejectsExactly (SDL_imageFilterMean fp m Src1 Src2 Dest length)
      (Src1 = 0 ∨ Src2 = 0 ∨ Dest = 0) ∧
    RejectsExactly (SDL_imageFilterSub m Src1 Src2 Dest length)
      (Src1 = 0 ∨ Src2 = 0 ∨ Dest = 0) ∧
    RejectsExactly (SDL_imageFilterAbsDiff m Src1 Src2 Dest length)
      (Src1 = 0 ∨ Src2 = 0 ∨ Dest = 0) ∧
    RejectsExactly (SDL_imageFilterMult fp m Src1 Src2 Dest length)
      (Src1 = 0 ∨ Src2 = 0 ∨ Dest = 0) ∧
    RejectsExactly (SDL_imageFilterMultUnbound m Src1 Src2 Dest length)
      (Src1 = 0 ∨ Src2 = 0 ∨ Dest = 0) ∧
    RejectsExactly (SDL_imageFilterMultInv fp m Src1 Src2 Dest length)
      (Src1 = 0 ∨ Src2 = 0 ∨ Dest = 0) ∧
    RejectsExactly (SDL_imageFilterMultDivby2 fp m Src1 Src2 Dest length)
      (Src1 = 0 ∨ Src2 = 0 ∨ Dest = 0) ∧
    RejectsExactly (SDL_imageFilterMultDivby4 fp m Src1 Src2 Dest length)
      (Src1 = 0 ∨ Src2 = 0 ∨ Dest = 0) ∧
    RejectsExactly (SDL_imageFilterBitAnd m Src1 Src2 Dest length)
      (Src1 = 0 ∨ Src2 = 0 ∨ Dest = 0) ∧
    RejectsExactly (SDL_imageFilterBitOr m Src1 Src2 Dest length)
      (Src1 = 0 ∨ Src2 = 0 ∨ Dest = 0) ∧
    RejectsExactly (SDL_imageFilterDiv fp m Src1 Src2 Dest length)
      (Src1 = 0 ∨ Src2 = 0 ∨ Dest = 0) := by
  refine ⟨?_, ?_, ?_, ?_, ?_, ?_, ?_, ?_, ?_, ?_, ?_, ?_⟩ <;>
    exact rejectsExactly_guard _ _ _ _ _

/-- C6 (the code departs from the claim). Null buffers are rejected: NormalizeLinear called
with a null `Src`, a null `Dest`, or both, returns `true` (its null check is `return(-1)`). -/
theorem normalizeLinear_null_returns_true :
    (SDL_imageFilterNormalizeLinear exactFloat sampleMem 0 200 1 0 255 0 255).retval
      = some true ∧
    (SDL_imageFilterNormalizeLinear exactFloat sampleMem 100 0 1 0 255 0 255).retval
      = some true ∧
    (SDL_imageFilterNormalizeLinear exactFloat sampleMem 0 0 1 0 255 0 255).retval
      = some true := by
  decide

/-- C7 (the code departs from the claim). Byte-wide shifts accept `0 <= N <= 8`: ShiftRight
called with non-null, non-overlapping one-byte buffers and `N == 0` returns `false` (its
special case ends in `return (0)`). -/
theorem shiftRight_zero_returns_false :
    ¬ overlaps 100 200 1 ∧
    (SDL_imageFilterShiftRight sampleMem 100 200 1 0).retval = some false := by
  decide

/-- C8 (the code departs from the claim). Zero-shift is a copy: with a source byte 1 at
address 100 and a destination byte 2 at address 200, after ShiftLeft, ShiftRight, ShiftLeftUint
and ShiftRightUint with `N == 0` and ShiftRightAndMultByByte with `N == 0`, `C == 1`, the
destination byte is still 2, not the source byte 1. -/
theorem zero_shift_leaves_dest :
    load sampleMem 100 = 1 ∧
    (SDL_imageFilterShiftLeft sampleMem 100 200 1 0).byte 200 = some 2 ∧
    (SDL_imageFilterShiftRight sampleMem 100 200 1 0).byte 200 = some 2 ∧
    (SDL_imageFilterShiftLeftUint 1 sampleMem 100 200 1 1 0).byte 200 = some 2 ∧
    (SDL_imageFilterShiftRightUint 1 sampleMem 100 200 1 1 0).byte 200 = some 2 ∧
    (SDL_imageFilterShiftRightAndMultByByte exactFloat sampleMem 100 200 1 0 1).byte 200
      = some 2 := by
  decide

/-- C9. Shift range rejection: for non-null buffers and every length of at least 1, ShiftLeft
and ShiftRight return `false` for every `N > 8`, and ShiftLeftUint returns `false` for every
`N > 32` and every `bpp`. -/
theorem shift_out_of_range_rejected (fuel : Nat) (m : Mem) (Src1 Dest length bpp N : Nat)
    (hs : Src1 ≠ 0) (hd : Dest ≠ 0) (hl : 1 ≤ length) :
    (8 < N → (SDL_imageFilterShiftLeft m Src1 Dest length N).retval = some false ∧
      (SDL_imageFilterShiftRight m Src1 Dest length N).retval = some false) ∧
    (32 < N → (SDL_imageFilterShiftLeftUint fuel m Src1 Dest length bpp N).retval
      = some false) := by
  have hn : ¬ (Src1 = 0 ∨ Dest = 0) := by omega
  have hl0 : ¬ length = 0 := by omega
  refine ⟨fun h8 => ⟨?_, ?_⟩, fun h32 => ?_⟩
  · simp only [SDL_imageFilterShiftLeft, if_neg hn, if_neg hl0, gt_iff_lt, if_pos h8,
      Outcome.retval]
  · simp only [SDL_imageFilterShiftRight, if_neg hn, if_neg hl0, gt_iff_lt, if_pos h8,
      Outcome.retval]
  · simp only [SDL_imageFilterShiftLeftUint, if_neg hn, if_neg hl0, gt_iff_lt, if_pos h32,
      Outcome.retval]

/-- Instance of the preceding theorem at `N = 9` for the byte-wide shifts and at `N = 33` for
ShiftLeftUint. -/
theorem shift_out_of_range_rejected_witness :
    ((SDL_imageFilterShiftLeft sampleMem 100 200 1 9).retval = some false ∧
      (SDL_imageFilterShiftRight sampleMem 100 200 1 9).retval = some false) ∧
    (SDL_imageFilterShiftLeftUint 0 sampleMem 100 200 1 4 33).retval = some false :=
  ⟨(shift_out_of_range_rejected 0 sampleMem 100 200 1 4 9 (by decide) (by decide)
      (by decide)).1 (by decide),
    (shift_out_of_range_rejected 0 sampleMem 100 200 1 4 33 (by decide) (by decide)
      (by decide)).2 (by decide)⟩

/-- C10 (the code departs from the claim). Out-of-range shift is a failure: ShiftLeftByte
called with non-null buffers, length 1 and `N = 9` or `N = 255` returns `true` (its range
check is `return (-1)`), while ShiftRightAndMultByByte returns `false` there. -/
theorem shiftLeftByte_out_of_range_returns_true :
    (SDL_imageFilterShiftLeftByte sampleMem 100 200 1 9).retval = some true ∧
    (SDL_imageFilterShiftLeftByte sampleMem 100 200 1 255).retval = some true ∧
    (SDL_imageFilterShiftRightAndMultByByte exactFloat sampleMem 100 200 1 9 1).retval
      = some false := by
  decide


/-- C11 (amended). Word-wide shift filters and their accepted shift counts: for non-null
buffers, every length of at least 1 with `length + bpp <= 2^32`, every `bpp` in 1..4 and fuel
of at least `length`, ShiftLeftUint never returns `false` for `N <= 32` and returns `true` for
every `N` with `1 <= N <= 31` and, on non-overlapping buffers, for `N = 0`; ShiftRightUint
returns `true` for every `N` with `1 <= N <= 8` and returns `false` for every `N > 8`. -/
theorem word_shift_accepted_counts (fuel : Nat) (m : Mem) (Src1 Dest length bpp N : Nat)
    (hs : Src1 ≠ 0) (hd : Dest ≠ 0) (hl : 1 ≤ length) (hb1 : 1 ≤ bpp) (hb4 : bpp ≤ 4)
    (hlen : length + bpp ≤ 2 ^ 32) (hf : length ≤ fuel) :
    (N ≤ 32 →
      (SDL_imageFilterShiftLeftUint fuel m Src1 Dest length bpp N).retval ≠ some false) ∧
    (1 ≤ N → N ≤ 31 →
      (SDL_imageFilterShiftLeftUint fuel m Src1 Dest length bpp N).retval = some true) ∧
    (N = 0 → ¬ overlaps Src1 Dest length →
      (SDL_imageFilterShiftLeftUint fuel m Src1 Dest length bpp N).retval = some true) ∧
    (1 ≤ N → N ≤ 8 →
      (SDL_imageFilterShiftRightUint fuel m Src1 Dest length bpp N).retval = some true) ∧
    (8 < N →
      (SDL_imageFilterShiftRightUint fuel m Src1 Dest length bpp N).retval = some false) := by
  have hn : ¬ (Src1 = 0 ∨ Dest = 0) := by omega
  have hl0 : ¬ length = 0 := by omega
  have hcnt := toInt32_small bpp hb4
  refine ⟨fun h32 => ?_, fun h1 h31 => ?_, fun h0 hov => ?_, fun h1 h8 => ?_, fun h8 => ?_⟩
  · unfold SDL_imageFilterShiftLeftUint
    rw [if_neg hn, if_neg hl0, if_neg (by omega)]
    split
    · exact afterMemcpy_true_retval _
    · exact forUnits_retval _ _ _ _ _ _
  · unfold SDL_imageFilterShiftLeftUint
    rw [if_neg hn, if_neg hl0, if_neg (by omega), if_neg (by omega)]
    apply forUnits_returns length bpp _ _ hb1 hlen fuel 0 m (by omega)
    intro i mi
    simp only []
    split
    · obtain ⟨r, hr⟩ := packUnitUInt_some mi Src1 i (toInt32 bpp + 1).toNat (by omega) 0
      rw [hr]
      simp only []
      rw [if_neg (by omega)]
      exact forIndex_some bpp _ (fun j mj => by rw [if_neg (by omega)]; exact ⟨_, rfl⟩) mi
    · exact ⟨mi, rfl⟩
  · subst h0
    unfold SDL_imageFilterShiftLeftUint
    rw [if_neg hn, if_neg hl0, if_neg (by omega), if_pos rfl]
    unfold memcpy
    rw [if_neg hov]
    rfl
  · unfold SDL_imageFilterShiftRightUint
    rw [if_neg hn, if_neg hl0, if_neg (by omega), if_neg (by omega)]
    apply forUnits_returns length bpp _ _ hb1 hlen fuel 0 m (by omega)
    intro i mi
    simp only []
    split
    · obtain ⟨r, hr⟩ := packUnitInt_some mi Src1 i (toInt32 bpp + 1).toNat (by omega) 0
      rw [hr]
      simp only []
      rw [if_neg (by omega)]
      exact forIndex_some bpp _ (fun j mj => by rw [if_neg (by omega)]; exact ⟨_, rfl⟩) mi
    · exact ⟨mi, rfl⟩
  · unfold SDL_imageFilterShiftRightUint
    rw [if_neg hn, if_neg hl0, if_pos (by omega)]
    rfl

/-- Instance of the preceding theorem on one-byte buffers with `bpp = 1`: `N = 5` for the
accepted counts, `N = 0` for the copy path of ShiftLeftUint and `N = 9` for the rejection. -/
theorem word_shift_accepted_counts_witness :
    (SDL_imageFilterShiftLeftUint 1 sampleMem 100 200 1 1 32).retval ≠ some false ∧
    (SDL_imageFilterShiftLeftUint 1 sampleMem 100 200 1 1 5).retval = some true ∧
    (SDL_imageFilterShiftLeftUint 1 sampleMem 100 200 1 1 0).retval = some true ∧
    (SDL_imageFilterShiftRightUint 1 sampleMem 100 200 1 1 5).retval = some true ∧
    (SDL_imageFilterShiftRightUint 1 sampleMem 100 200 1 1 9).retval = some false :=
  ⟨(word_shift_accepted_counts 1 sampleMem 100 200 1 1 32 (by decide) (by decide) (by decide)
      (by decide) (by decide) (by decide) (by decide)).1 (by decide),
    (word_shift_accepted_counts 1 sampleMem 100 200 1 1 5 (by decide) (by decide) (by decide)
      (by decide) (by decide) (by decide) (by decide)).2.1 (by decide) (by decide),
    (word_shift_accepted_counts 1 sampleMem 100 200 1 1 0 (by decide) (by decide) (by decide)
      (by decide) (by decide) (by decide) (by decide)).2.2.1 rfl (by decide),
    (word_shift_accepted_counts 1 sampleMem 100 200 1 1 5 (by decide) (by decide) (by decide)
      (by decide) (by decide) (by decide) (by decide)).2.2.2.1 (by decide) (by decide),
    (word_shift_accepted_counts 1 sampleMem 100 200 1 1 9 (by decide) (by decide) (by decide)
      (by decide) (by decide) (by decide) (by decide)).2.2.2.2 (by decide)⟩

/-- C11 (as stated, refuted). ShiftRightUint called with non-null one-byte buffers, `bpp = 1`
and a shift count inside 0..32 but above 8 (`N = 9`, `N = 32`) returns `false`; so it does
with `bpp = 4` on eight-byte buffers. -/
theorem shiftRightUint_rejects_above_8 :
    (SDL_imageFilterShiftRightUint 1 sampleMem 100 200 1 1 9).retval = some false ∧
    (SDL_imageFilterShiftRightUint 1 sampleMem 100 200 1 1 9).retval ≠ some true ∧
    (SDL_imageFilterShiftRightUint 1 sampleMem 100 200 1 1 32).retval = some false ∧
    (SDL_imageFilterShiftRightUint 8 sampleMem 100 200 8 4 9).retval = some false := by
  decide

/-- C12. The neighborhood filters always fail: for every memory and every argument (null or
non-null buffers and kernel, any rows, columns, divisor or shift count), each of the ten
filters returns `false` and leaves the whole memory, hence the destination, unchanged. -/
theorem neighborhood_filters_always_fail (m : Mem) (Src Dest : Nat) (rows columns : Int)
    (Kernel Divisor NRightShift : Nat) :
    SDL_imageFilterConvolveKernel3x3Divide m Src Dest rows columns Kernel Divisor
      = Outcome.ret false m ∧
    SDL_imageFilterConvolveKernel5x5Divide m Src Dest rows columns Kernel Divisor
      = Outcome.ret false m ∧
    SDL_imageFilterConvolveKernel7x7Divide m Src Dest rows columns Kernel Divisor
      = Outcome.ret false m ∧
    SDL_imageFilterConvolveKernel9x9Divide m Src Dest rows columns Kernel Divisor
      = Outcome.ret false m ∧
    SDL_imageFilterConvolveKernel3x3ShiftRight m Src Dest rows columns Kernel NRightShift
      = Outcome.ret false m ∧
    SDL_imageFilterConvolveKernel5x5ShiftRight m Src Dest rows columns Kernel NRightShift
      = Outcome.ret false m ∧
    SDL_imageFilterConvolveKernel7x7ShiftRight m Src Dest rows columns Kernel NRightShift
      = Outcome.ret false m ∧
    SDL_imageFilterConvolveKernel9x9ShiftRight m Src Dest rows columns Kernel NRightShift
      = Outcome.ret false m ∧
    SDL_imageFilterSobelX m Src Dest rows columns = Outcome.ret false m ∧
    SDL_imageFilterSobelXShiftRight m Src Dest rows columns NRightShift
      = Outcome.ret false m := by
  refine ⟨?_, ?_, ?_, ?_, ?_, ?_, ?_, ?_, ?_, ?_⟩
  all_goals
    simp only [SDL_imageFilterConvolveKernel3x3Divide, SDL_imageFilterConvolveKernel5x5Divide,
      SDL_imageFilterConvolveKernel7x7Divide, SDL_imageFilterConvolveKernel9x9Divide,
      SDL_imageFilterConvolveKernel3x3ShiftRight, SDL_imageFilterConvolveKernel5x5ShiftRight,
      SDL_imageFilterConvolveKernel7x7ShiftRight, SDL_imageFilterConvolveKernel9x9ShiftRight,
      SDL_imageFilterSobelX, SDL_imageFilterSobelXShiftRight, ite_self]


/-- C13 (amended). Add is saturating addition: for non-null buffers and every length, Add
returns `true` and every byte outside the destination buffer keeps its value; when the
destination does not start strictly inside a source buffer, every destination byte is
`min(255, Src1[i] + Src2[i])` of the source bytes held before the call. -/
theorem add_saturates (m : Mem) (Src1 Src2 Dest length : Nat)
    (hs1 : Src1 ≠ 0) (hs2 : Src2 ≠ 0) (hd : Dest ≠ 0) :
    (SDL_imageFilterAdd m Src1 Src2 Dest length).retval = some true ∧
    (ReadBeforeWrite Src1 Dest length → ReadBeforeWrite Src2 Dest length →
      ∀ i, i < length → (SDL_imageFilterAdd m Src1 Src2 Dest length).byte (Dest + i)
        = some (min 255 (load m (Src1 + i) + load m (Src2 + i)))) ∧
    (∀ a, a < Dest ∨ Dest + length ≤ a →
      (SDL_imageFilterAdd m Src1 Src2 Dest length).byte a = some (load m a)) := by
  have hn : ¬ (Src1 = 0 ∨ Src2 = 0 ∨ Dest = 0) := by omega
  unfold SDL_imageFilterAdd
  rw [guarded_loop_eq _ hn]
  obtain ⟨r, b, f⟩ := loop_spec _ (fun a b => if (a : Int) + (b : Int) > 255 then 255
    else (a : Int) + (b : Int)) Src1 Src2 Dest length (fun _ _ => rfl) m
  refine ⟨r, fun h1 h2 i hi => ?_, f⟩
  rw [b h1 h2 i hi]
  congr 1
  have := load_lt m (Src1 + i)
  have := load_lt m (Src2 + i)
  split <;> omega

/-- Instance of the preceding theorem on disjoint one-byte buffers. -/
theorem add_saturates_witness :
    (SDL_imageFilterAdd sampleMem 100 200 300 1).retval = some true ∧
    (SDL_imageFilterAdd sampleMem 100 200 300 1).byte (300 + 0)
      = some (min 255 (load sampleMem (100 + 0) + load sampleMem (200 + 0))) ∧
    (SDL_imageFilterAdd sampleMem 100 200 300 1).byte 301 = some (load sampleMem 301) :=
  ⟨(add_saturates sampleMem 100 200 300 1 (by decide) (by decide) (by decide)).1,
    (add_saturates sampleMem 100 200 300 1 (by decide) (by decide) (by decide)).2.1
      (by decide) (by decide) 0 (by decide),
    (add_saturates sampleMem 100 200 300 1 (by decide) (by decide) (by decide)).2.2 301
      (by decide)⟩

/-- C13 (as stated, refuted). On the overlapping two-byte buffers `Src1 = 100`, `Dest = 101`,
`Src2 = 102` of a memory holding 3, 4, 3, 12, Add returns `true`; `Dest[1]` is 18, not
`min(255, Src1[1] + Src2[1]) = 16` of the bytes held before the call, and `Dest[0]` is 6, not
`min(255, 3 + 18)` of the bytes `Src1[0] = 3`, `Src2[0] = 18` held after the call. -/
theorem add_overlapping_counterexample :
    (SDL_imageFilterAdd aliasMem 100 102 101 2).retval = some true ∧
    (SDL_imageFilterAdd aliasMem 100 102 101 2).byte (101 + 1) = some 18 ∧
    min 255 (load aliasMem (100 + 1) + load aliasMem (102 + 1)) = 16 ∧
    (SDL_imageFilterAdd aliasMem 100 102 101 2).byte (101 + 1)
      ≠ some (min 255 (load aliasMem (100 + 1) + load aliasMem (102 + 1))) ∧
    (SDL_imageFilterAdd aliasMem 100 102 101 2).byte (101 + 0) = some 6 ∧
    (SDL_imageFilterAdd aliasMem 100 102 101 2).byte (100 + 0) = some 3 ∧
    (SDL_imageFilterAdd aliasMem 100 102 101 2).byte (102 + 0) = some 18 := by
  decide

/-- C14 (amended). Sub is saturating subtraction: for non-null buffers and every length, Sub
returns `true`; when the destination does not start strictly inside a source buffer, every
destination byte is `max(0, Src1[i] - Src2[i])` of the source bytes held before the call. -/
theorem sub_saturates (m : Mem) (Src1 Src2 Dest length : Nat)
    (hs1 : Src1 ≠ 0) (hs2 : Src2 ≠ 0) (hd : Dest ≠ 0) :
    (SDL_imageFilterSub m Src1 Src2 Dest length).retval = some true ∧
    (ReadBeforeWrite Src1 Dest length → ReadBeforeWrite Src2 Dest length →
      ∀ i, i < length → (SDL_imageFilterSub m Src1 Src2 Dest length).byte (Dest + i)
        = some (max 0 ((load m (Src1 + i) : Int) - (load m (Src2 + i) : Int))).toNat) := by
  have hn : ¬ (Src1 = 0 ∨ Src2 = 0 ∨ Dest = 0) := by omega
  unfold SDL_imageFilterSub
  rw [guarded_loop_eq _ hn]
  obtain ⟨r, b, _⟩ := loop_spec _ (fun a b => if (a : Int) - (b : Int) < 0 then 0
    else (a : Int) - (b : Int)) Src1 Src2 Dest length (fun _ _ => rfl) m
  refine ⟨r, fun h1 h2 i hi => ?_⟩
  rw [b h1 h2 i hi]
  congr 1
  have := load_lt m (Src1 + i)
  have := load_lt m (Src2 + i)
  split <;> omega

/-- Instance of the preceding theorem on disjoint one-byte buffers. -/
theorem sub_saturates_witness :
    (SDL_imageFilterSub sampleMem 100 200 300 1).retval = some true ∧
    (SDL_imageFilterSub sampleMem 100 200 300 1).byte (300 + 0)
      = some (max 0 ((load sampleMem (100 + 0) : Int) - (load sampleMem (200 + 0) : Int))).toNat :=
  ⟨(sub_saturates sampleMem 100 200 300 1 (by decide) (by decide) (by decide)).1,
    (sub_saturates sampleMem 100 200 300 1 (by decide) (by decide) (by decide)).2
      (by decide) (by decide) 0 (by decide)⟩

/-- C14 (as stated, refuted). On the overlapping two-byte buffers `Src1 = 102`, `Dest = 101`,
`Src2 = 100` of a memory holding 3, 4, 3, 12, Sub returns `true`; `Dest[1]` is 12, not
`max(0, Src1[1] - Src2[1]) = 8` of the bytes held before the call, and `Dest[0]` is 0, not
`max(0, 12 - 3)` of the bytes `Src1[0] = 12`, `Src2[0] = 3` held after the call. -/
theorem sub_overlapping_counterexample :
    (SDL_imageFilterSub aliasMem 102 100 101 2).retval = some true ∧
    (SDL_imageFilterSub aliasMem 102 100 101 2).byte (101 + 1) = some 12 ∧
    (max 0 ((load aliasMem (102 + 1) : Int) - (load aliasMem (100 + 1) : Int))).toNat = 8 ∧
    (SDL_imageFilterSub aliasMem 102 100 101 2).byte (101 + 1)
      ≠ some (max 0 ((load aliasMem (102 + 1) : Int) - (load aliasMem (100 + 1) : Int))).toNat ∧
    (SDL_imageFilterSub aliasMem 102 100 101 2).byte (101 + 0) = some 0 ∧
    (SDL_imageFilterSub aliasMem 102 100 101 2).byte (102 + 0) = some 12 ∧
    (SDL_imageFilterSub aliasMem 102 100 101 2).byte (100 + 0) = some 3 := by
  decide

/-- C15 (amended). AbsDiff is the absolute difference: for non-null buffers whose destination
does not start strictly inside a source buffer, and every `i < length`, the destination byte
is `|Src1[i] - Src2[i]|` of the source bytes held before the call; that value is below 256,
and the byte is the same when `Src1` and `Src2` are swapped. -/
theorem absDiff_spec (m : Mem) (Src1 Src2 Dest length : Nat)
    (hs1 : Src1 ≠ 0) (hs2 : Src2 ≠ 0) (hd : Dest ≠ 0)
    (h1 : ReadBeforeWrite Src1 Dest length) (h2 : ReadBeforeWrite Src2 Dest length)
    (i : Nat) (hi : i < length) :
    (SDL_imageFilterAbsDiff m Src1 Src2 Dest length).byte (Dest + i)
      = some ((load m (Src1 + i) : Int) - (load m (Src2 + i) : Int)).natAbs ∧
    ((load m (Src1 + i) : Int) - (load m (Src2 + i) : Int)).natAbs < 256 ∧
    (SDL_imageFilterAbsDiff m Src2 Src1 Dest length).byte (Dest + i)
      = (SDL_imageFilterAbsDiff m Src1 Src2 Dest length).byte (Dest + i) := by
  have hn : ¬ (Src1 = 0 ∨ Src2 = 0 ∨ Dest = 0) := by omega
  have hn2 : ¬ (Src2 = 0 ∨ Src1 = 0 ∨ Dest = 0) := by omega
  unfold SDL_imageFilterAbsDiff
  rw [guarded_loop_eq _ hn, guarded_loop_eq _ hn2]
  obtain ⟨_, b, _⟩ := loop_spec _ (fun a b => ((((a : Int) - (b : Int)).natAbs : Nat) : Int))
    Src1 Src2 Dest length (fun _ _ => rfl) m
  obtain ⟨_, c, _⟩ := loop_spec _ (fun a b => ((((a : Int) - (b : Int)).natAbs : Nat) : Int))
    Src2 Src1 Dest length (fun _ _ => rfl) m
  have := load_lt m (Src1 + i)
  have := load_lt m (Src2 + i)
  rw [b h1 h2 i hi, c h2 h1 i hi]
  refine ⟨?_, by omega, ?_⟩ <;> (congr 1; omega)

/-- Instance of the preceding theorem on disjoint one-byte buffers. -/
theorem absDiff_spec_witness :
    (SDL_imageFilterAbsDiff sampleMem 100 200 300 1).byte (300 + 0)
      = some ((load sampleMem (100 + 0) : Int) - (load sampleMem (200 + 0) : Int)).natAbs ∧
    ((load sampleMem (100 + 0) : Int) - (load sampleMem (200 + 0) : Int)).natAbs < 256 ∧
    (SDL_imageFilterAbsDiff sampleMem 200 100 300 1).byte (300 + 0)
      = (SDL_imageFilterAbsDiff sampleMem 100 200 300 1).byte (300 + 0) :=
  absDiff_spec sampleMem 100 200 300 1 (by decide) (by decide) (by decide) (by decide)
    (by decide) 0 (by decide)

/-- C15 (as stated, refuted). On the overlapping two-byte buffers `Src1 = 100`, `Dest = 101`,
`Src2 = 102` of a memory holding 3, 4, 3, 12, `Dest[1]` after AbsDiff is 12, not
`|Src1[1] - Src2[1]| = 8` of the bytes held before the call, and `Dest[0]` is 0, not
`|3 - 12|` of the bytes `Src1[0] = 3`, `Src2[0] = 12` held after the call. -/
theorem absDiff_overlapping_counterexample :
    (SDL_imageFilterAbsDiff aliasMem 100 102 101 2).byte (101 + 1) = some 12 ∧
    ((load aliasMem (100 + 1) : Int) - (load aliasMem (102 + 1) : Int)).natAbs = 8 ∧
    (SDL_imageFilterAbsDiff aliasMem 100 102 101 2).byte (101 + 1)
      ≠ some ((load aliasMem (100 + 1) : Int) - (load aliasMem (102 + 1) : Int)).natAbs ∧
    (SDL_imageFilterAbsDiff aliasMem 100 102 101 2).byte (101 + 0) = some 0 ∧
    (SDL_imageFilterAbsDiff aliasMem 100 102 101 2).byte (100 + 0) = some 3 ∧
    (SDL_imageFilterAbsDiff aliasMem 100 102 101 2).byte (102 + 0) = some 12 := by
  decide

/-- C16 (amended). MultUnbound wraps instead of saturating: for non-null buffers whose
destination does not start strictly inside a source buffer, and every `i < length`, the
destination byte is `(Src1[i] * Src2[i]) mod 256` of the source bytes held before the call. -/
theorem multUnbound_wraps (m : Mem) (Src1 Src2 Dest length : Nat)
    (hs1 : Src1 ≠ 0) (hs2 : Src2 ≠ 0) (hd : Dest ≠ 0)
    (h1 : ReadBeforeWrite Src1 Dest length) (h2 : ReadBeforeWrite Src2 Dest length)
    (i : Nat) (hi : i < length) :
    (SDL_imageFilterMultUnbound m Src1 Src2 Dest length).byte (Dest + i)
      = some ((load m (Src1 + i) * load m (Src2 + i)) % 256) := by
  have hn : ¬ (Src1 = 0 ∨ Src2 = 0 ∨ Dest = 0) := by omega
  unfold SDL_imageFilterMultUnbound
  rw [guarded_loop_eq _ hn]
  obtain ⟨_, b, _⟩ := loop_spec _ (fun a b => ((a * b : Nat) : Int))
    Src1 Src2 Dest length (fun _ _ => rfl) m
  rw [b h1 h2 i hi]
  exact congrArg some (by omega)

/-- Instance of the preceding theorem on disjoint one-byte buffers. -/
theorem multUnbound_wraps_witness :
    (SDL_imageFilterMultUnbound sampleMem 100 200 300 1).byte (300 + 0)
      = some ((load sampleMem (100 + 0) * load sampleMem (200 + 0)) % 256) :=
  multUnbound_wraps sampleMem 100 200 300 1 (by decide) (by decide) (by decide) (by decide)
    (by decide) 0 (by decide)

/-- C16 (as stated, refuted). On the overlapping two-byte buffers `Src1 = 100`, `Dest = 101`,
`Src2 = 102` of a memory holding 3, 4, 3, 12, `Dest[1]` after MultUnbound is 108, not
`(Src1[1] * Src2[1]) mod 256 = 48` of the bytes held before the call, and `Dest[0]` is 9, not
`(3 * 108) mod 256 = 68` of the bytes `Src1[0] = 3`, `Src2[0] = 108` held after the call. -/
theorem multUnbound_overlapping_counterexample :
    (SDL_imageFilterMultUnbound aliasMem 100 102 101 2).byte (101 + 1) = some 108 ∧
    (load aliasMem (100 + 1) * load aliasMem (102 + 1)) % 256 = 48 ∧
    (SDL_imageFilterMultUnbound aliasMem 100 102 101 2).byte (101 + 1)
      ≠ some ((load aliasMem (100 + 1) * load aliasMem (102 + 1)) % 256) ∧
    (SDL_imageFilterMultUnbound aliasMem 100 102 101 2).byte (101 + 0) = some 9 ∧
    (SDL_imageFilterMultUnbound aliasMem 100 102 101 2).byte (100 + 0) = some 3 ∧
    (SDL_imageFilterMultUnbound aliasMem 100 102 101 2).byte (102 + 0) = some 108 := by
  decide

/-- C17 (amended). BitAnd and BitOr are the bytewise logical operations: for non-null buffers
both return `true`; when the destination does not start strictly inside a source buffer, for
every `i < length`, BitAnd leaves `Src1[i] AND Src2[i]` and BitOr leaves `Src1[i] OR Src2[i]`
(of the source bytes held before the call) in the destination byte. -/
theorem bitAnd_bitOr_spec (m : Mem) (Src1 Src2 Dest length : Nat)
    (hs1 : Src1 ≠ 0) (hs2 : Src2 ≠ 0) (hd : Dest ≠ 0) :
    (SDL_imageFilterBitAnd m Src1 Src2 Dest length).retval = some true ∧
    (SDL_imageFilterBitOr m Src1 Src2 Dest length).retval = some true ∧
    (ReadBeforeWrite Src1 Dest length → ReadBeforeWrite Src2 Dest length →
      ∀ i, i < length →
        (SDL_imageFilterBitAnd m Src1 Src2 Dest length).byte (Dest + i)
          = some (load m (Src1 + i) &&& load m (Src2 + i)) ∧
        (SDL_imageFilterBitOr m Src1 Src2 Dest length).byte (Dest + i)
          = some (load m (Src1 + i) ||| load m (Src2 + i))) := by
  have hn : ¬ (Src1 = 0 ∨ Src2 = 0 ∨ Dest = 0) := by omega
  unfold SDL_imageFilterBitAnd SDL_imageFilterBitOr
  rw [guarded_loop_eq _ hn, guarded_loop_eq _ hn]
  obtain ⟨ra, ba, _⟩ := loop_spec _ (fun a b => ((a &&& b : Nat) : Int))
    Src1 Src2 Dest length (fun _ _ => rfl) m
  obtain ⟨ro, bo, _⟩ := loop_spec _ (fun a b => ((a ||| b : Nat) : Int))
    Src1 Src2 Dest length (fun _ _ => rfl) m
  refine ⟨ra, ro, fun h1 h2 i hi => ?_⟩
  have l1 := load_lt m (Src1 + i)
  have l2 := load_lt m (Src2 + i)
  have hand : load m (Src1 + i) &&& load m (Src2 + i) < 256 :=
    Nat.lt_of_le_of_lt Nat.and_le_left l1
  have hor : load m (Src1 + i) ||| load m (Src2 + i) < 256 :=
    Nat.or_lt_two_pow (n := 8) l1 l2
  rw [ba h1 h2 i hi, bo h1 h2 i hi]
  exact ⟨congrArg some (by omega), congrArg some (by omega)⟩

/-- Instance of the preceding theorem on disjoint one-byte buffers. -/
theorem bitAnd_bitOr_spec_witness :
    (SDL_imageFilterBitAnd sampleMem 100 200 300 1).retval = some true ∧
    (SDL_imageFilterBitOr sampleMem 100 200 300 1).retval = some true ∧
    (SDL_imageFilterBitAnd sampleMem 100 200 300 1).byte (300 + 0)
      = some (load sampleMem (100 + 0) &&& load sampleMem (200 + 0)) ∧
    (SDL_imageFilterBitOr sampleMem 100 200 300 1).byte (300 + 0)
      = some (load sampleMem (100 + 0) ||| load sampleMem (200 + 0)) :=
  ⟨(bitAnd_bitOr_spec sampleMem 100 200 300 1 (by decide) (by decide) (by decide)).1,
    (bitAnd_bitOr_spec sampleMem 100 200 300 1 (by decide) (by decide) (by decide)).2.1,
    (bitAnd_bitOr_spec sampleMem 100 200 300 1 (by decide) (by decide) (by decide)).2.2
      (by decide) (by decide) 0 (by decide)⟩

/-- C17 (as stated, refuted). On the overlapping two-byte buffers `Src1 = 100`, `Dest = 101`,
`Src2 = 102` of a memory holding 3, 4, 3, 12: after BitAnd `Dest[1]` is 0, not
`Src1[1] AND Src2[1] = 4` of the bytes held before the call, and `Dest[0]` is 3, not `3 AND 0`
of the bytes held after it; after BitOr `Dest[1]` is 15, not `Src1[1] OR Src2[1] = 12`, and
`Dest[0]` is 3, not `3 OR 15`. -/
theorem bitAnd_bitOr_overlapping_counterexample :
    (SDL_imageFilterBitAnd aliasMem 100 102 101 2).byte (101 + 1) = some 0 ∧
    load aliasMem (100 + 1) &&& load aliasMem (102 + 1) = 4 ∧
    (SDL_imageFilterBitAnd aliasMem 100 102 101 2).byte (101 + 1)
      ≠ some (load aliasMem (100 + 1) &&& load aliasMem (102 + 1)) ∧
    (SDL_imageFilterBitAnd aliasMem 100 102 101 2).byte (101 + 0) = some 3 ∧
    (SDL_imageFilterBitAnd aliasMem 100 102 101 2).byte (100 + 0) = some 3 ∧
    (SDL_imageFilterBitAnd aliasMem 100 102 101 2).byte (102 + 0) = some 0 ∧
    (SDL_imageFilterBitOr aliasMem 100 102 101 2).byte (101 + 1) = some 15 ∧
    load aliasMem (100 + 1) ||| load aliasMem (102 + 1) = 12 ∧
    (SDL_imageFilterBitOr aliasMem 100 102 101 2).byte (101 + 1)
      ≠ some (load aliasMem (100 + 1) ||| load aliasMem (102 + 1)) ∧
    (SDL_imageFilterBitOr aliasMem 100 102 101 2).byte (101 + 0) = some 3 ∧
    (SDL_imageFilterBitOr aliasMem 100 102 101 2).byte (100 + 0) = some 3 ∧
    (SDL_imageFilterBitOr aliasMem 100 102 101 2).byte (102 + 0) = some 15 := by
  decide


/-- C18 (amended). Division by zero yields zero: for non-null buffers Div returns `true`;
when the destination does not start strictly inside `Src2`, for every `i < length` with
`Src2[i] == 0` before the call, Div leaves 0 in `Dest[i]`, whatever `Src1[i]` is. -/
theorem div_by_zero_yields_zero (fp : FloatOps) (m : Mem) (Src1 Src2 Dest length : Nat)
    (hs1 : Src1 ≠ 0) (hs2 : Src2 ≠ 0) (hd : Dest ≠ 0) :
    (SDL_imageFilterDiv fp m Src1 Src2 Dest length).retval = some true ∧
    (ReadBeforeWrite Src2 Dest length → ∀ i, i < length → load m (Src2 + i) = 0 →
      (SDL_imageFilterDiv fp m Src1 Src2 Dest length).byte (Dest + i) = some 0) := by
  have hn : ¬ (Src1 = 0 ∨ Src2 = 0 ∨ Dest = 0) := by omega
  unfold SDL_imageFilterDiv
  rw [guarded_loop_eq _ hn]
  refine ⟨rfl, fun h2 i hi hz => ?_⟩
  simp only [Outcome.byte]
  rw [forBytes_zero_case _ Src2 Dest length ?_ ?_ m h2 i hi hz]
  · intro j mj a ha
    show (if load mj (Src2 + j) = 0 then store mj (Dest + j) 0 else _) a = mj a
    split <;> exact store_other mj _ _ a ha
  · intro j mj hj
    show (if load mj (Src2 + j) = 0 then store mj (Dest + j) 0 else _) (Dest + j) = 0
    rw [if_pos hj]
    exact store_same mj _ 0

/-- Instance of the preceding theorem on disjoint one-byte buffers whose divisor byte is 0. -/
theorem div_by_zero_yields_zero_witness :
    load sampleMem (300 + 0) = 0 ∧
    (SDL_imageFilterDiv exactFloat sampleMem 100 300 200 1).retval = some true ∧
    (SDL_imageFilterDiv exactFloat sampleMem 100 300 200 1).byte (200 + 0) = some 0 :=
  ⟨by decide,
    (div_by_zero_yields_zero exactFloat sampleMem 100 300 200 1 (by decide) (by decide)
      (by decide)).1,
    (div_by_zero_yields_zero exactFloat sampleMem 100 300 200 1 (by decide) (by decide)
      (by decide)).2 (by decide) 0 (by decide) (by decide)⟩

/-- C18 (as stated, refuted). In a memory with `Src1 = 300` holding 10, 255 and `Src2 = 100`
holding 1, 0, for length 2: with `Dest = 101` (inside `Src2`), `Src2[1]` is 0 before the call
and `Dest[1]` is 255 after it, because the write of `Dest[0]` replaced the divisor byte before
it was read; with `Dest = 99` (just before `Src2`), `Src2[0]` is 0 after the call and
`Dest[0]` is 255. Div returns `true` in both calls. -/
theorem div_overlapping_counterexample :
    load aliasZeroMem (100 + 1) = 0 ∧
    (SDL_imageFilterDiv exactFloat aliasZeroMem 300 100 101 2).retval = some true ∧
    (SDL_imageFilterDiv exactFloat aliasZeroMem 300 100 101 2).byte (101 + 1) = some 255 ∧
    (SDL_imageFilterDiv exactFloat aliasZeroMem 300 100 101 2).byte (101 + 1) ≠ some 0 ∧
    (SDL_imageFilterDiv exactFloat aliasZeroMem 300 100 99 2).retval = some true ∧
    (SDL_imageFilterDiv exactFloat aliasZeroMem 300 100 99 2).byte (100 + 0) = some 0 ∧
    (SDL_imageFilterDiv exactFloat aliasZeroMem 300 100 99 2).byte (99 + 0) = some 255 := by
  decide

/-- C19 (amended). BinarizeUsingThreshold is an inclusive threshold: for non-null buffers,
every `T` and every `i < length`, provided `T == 0` or the destination does not start strictly
inside the source buffer, the call returns `true` and the destination byte is 255 if
`Src[i] >= T` (source byte held before the call) and 0 otherwise; with `T == 0` every output
byte is 255 for any buffers. -/
theorem binarize_inclusive_threshold (m : Mem) (Src1 Dest length T : Nat)
    (hs : Src1 ≠ 0) (hd : Dest ≠ 0) (h : T = 0 ∨ ReadBeforeWrite Src1 Dest length)
    (i : Nat) (hi : i < length) :
    (SDL_imageFilterBinarizeUsingThreshold m Src1 Dest length T).retval = some true ∧
    (SDL_imageFilterBinarizeUsingThreshold m Src1 Dest length T).byte (Dest + i)
      = some (if load m (Src1 + i) ≥ T then 255 else 0) ∧
    (T = 0 →
      (SDL_imageFilterBinarizeUsingThreshold m Src1 Dest length T).byte (Dest + i)
        = some 255) := by
  have hn : ¬ (Src1 = 0 ∨ Dest = 0) := by omega
  have hl0 : ¬ length = 0 := by omega
  unfold SDL_imageFilterBinarizeUsingThreshold
  rw [if_neg hn, if_neg hl0]
  by_cases hT : T = 0
  · subst hT
    rw [if_pos rfl]
    simp only [Outcome.retval, Outcome.byte, memset_inside m Dest 255 length i hi]
    simp
  · rw [if_neg hT]
    have hr : ReadBeforeWrite Src1 Dest length := h.resolve_left hT
    obtain ⟨r, b, _⟩ := loop_spec _ (fun a _ => if a ≥ T then (255 : Int) else 0)
      Src1 Src1 Dest length (fun _ _ => rfl) m
    refine ⟨r, ?_, fun h0 => absurd h0 hT⟩
    rw [b hr hr i hi]
    split <;> rfl

/-- Instance of the preceding theorem on disjoint one-byte buffers with `T = 1`. -/
theorem binarize_inclusive_threshold_witness :
    (SDL_imageFilterBinarizeUsingThreshold sampleMem 100 200 1 1).retval = some true ∧
    (SDL_imageFilterBinarizeUsingThreshold sampleMem 100 200 1 1).byte (200 + 0)
      = some (if load sampleMem (100 + 0) ≥ 1 then 255 else 0) :=
  ⟨(binarize_inclusive_threshold sampleMem 100 200 1 1 (by decide) (by decide) (by decide) 0
      (by decide)).1,
    (binarize_inclusive_threshold sampleMem 100 200 1 1 (by decide) (by decide) (by decide) 0
      (by decide)).2.1⟩

/-- C19 (as stated, refuted). In a memory holding 3, 4, 3, 12 at addresses 100 to 103, with
`T = 4` and length 2: for `Src = 100`, `Dest = 101`, `Src[1] = 4 >= T` before the call and
`Dest[1]` is 0 after it, not 255; for `Src = 101`, `Dest = 100`, `Src[0]` is 0 after the call
and `Dest[0]` is 255, not 0. Both calls return `true`. -/
theorem binarize_overlapping_counterexample :
    load aliasMem (100 + 1) = 4 ∧
    (SDL_imageFilterBinarizeUsingThreshold aliasMem 100 101 2 4).retval = some true ∧
    (SDL_imageFilterBinarizeUsingThreshold aliasMem 100 101 2 4).byte (101 + 1) = some 0 ∧
    (SDL_imageFilterBinarizeUsingThreshold aliasMem 100 101 2 4).byte (101 + 1)
      ≠ some (if load aliasMem (100 + 1) ≥ 4 then 255 else 0) ∧
    (SDL_imageFilterBinarizeUsingThreshold aliasMem 101 100 2 4).retval = some true ∧
    (SDL_imageFilterBinarizeUsingThreshold aliasMem 101 100 2 4).byte (101 + 0) = some 0 ∧
    (SDL_imageFilterBinarizeUsingThreshold aliasMem 101 100 2 4).byte (100 + 0) = some 255 := by
  decide

/-- C20 (the code departs from the claim). ClipToRange clamps into the range: on
non-overlapping one-byte buffers (source byte 250 at address 100, destination byte 77 at
address 200) with `Tmin = 0`, `Tmax = 25`, the call returns `true` and the destination byte
is still 77, which is neither `min(max(250, 0), 25) = 25` nor at most `Tmax`; the source byte
has been overwritten with 77. -/
theorem clipToRange_0_25_does_not_clamp :
    ¬ overlaps 100 200 1 ∧ load clipMem 100 = 250 ∧ min (max 250 0) 25 = 25 ∧
    (SDL_imageFilterClipToRange clipMem 100 200 1 0 25).retval = some true ∧
    (SDL_imageFilterClipToRange clipMem 100 200 1 0 25).byte 200 = some 77 ∧
    (SDL_imageFilterClipToRange clipMem 100 200 1 0 25).byte 100 = some 77 := by
  decide

/-- Outside the special case `Tmin == 0 && Tmax == 25`, ClipToRange clamps: for non-null
buffers whose destination does not start strictly inside the source buffer and
`Tmin <= Tmax <= 255`, the call returns `true` and every destination byte is
`min(max(Src[i], Tmin), Tmax)` of the source byte held before the call. -/
theorem clipToRange_clamps_outside_special_case (m : Mem) (Src1 Dest length Tmin Tmax : Nat)
    (hs : Src1 ≠ 0) (hd : Dest ≠ 0) (hsp : ¬ (Tmin = 0 ∧ Tmax = 25))
    (hle : Tmin ≤ Tmax) (hmax : Tmax ≤ 255) (hr : ReadBeforeWrite Src1 Dest length)
    (i : Nat) (hi : i < length) :
    (SDL_imageFilterClipToRange m Src1 Dest length Tmin Tmax).retval = some true ∧
    (SDL_imageFilterClipToRange m Src1 Dest length Tmin Tmax).byte (Dest + i)
      = some (min (max (load m (Src1 + i)) Tmin) Tmax) := by
  have hn : ¬ (Src1 = 0 ∨ Dest = 0) := by omega
  have hl0 : ¬ length = 0 := by omega
  unfold SDL_imageFilterClipToRange
  rw [if_neg hn, if_neg hl0, if_neg hsp]
  obtain ⟨r, b, _⟩ := loop_spec _ (fun a _ => if a < Tmin then (Tmin : Int)
    else if a > Tmax then (Tmax : Int) else (a : Int)) Src1 Src1 Dest length
    (fun j mj => by
      show (if load mj (Src1 + j) < Tmin then store mj (Dest + j) (Tmin : Int)
        else if load mj (Src1 + j) > Tmax then store mj (Dest + j) (Tmax : Int)
        else store mj (Dest + j) (load mj (Src1 + j) : Int)) = _
      by_cases c1 : load mj (Src1 + j) < Tmin
      · simp only [c1, if_true]
      · by_cases c2 : load mj (Src1 + j) > Tmax <;> simp only [c1, c2, if_true, if_false]) m
  refine ⟨r, ?_⟩
  rw [b hr hr i hi]
  have := load_lt m (Src1 + i)
  congr 1
  split
  · omega
  · split <;> omega


/-- C21 (amended). BitNegation is the bytewise complement: for non-null buffers whose
destination does not start strictly inside the source buffer, and every `i < length`, the
destination byte is `255 - Src[i]` of the source byte held before the call (so 0x00 gives 0xFF
and 0xFF gives 0x00), and negating the result in place restores the original source byte. -/
theorem bitNegation_complements (m : Mem) (Src1 Dest length : Nat)
    (hs : Src1 ≠ 0) (hd : Dest ≠ 0) (hr : ReadBeforeWrite Src1 Dest length)
    (i : Nat) (hi : i < length) :
    (SDL_imageFilterBitNegation m Src1 Dest length).byte (Dest + i)
      = some (255 - load m (Src1 + i)) ∧
    (∀ m1, (SDL_imageFilterBitNegation m Src1 Dest length).mem = some m1 →
      (SDL_imageFilterBitNegation m1 Dest Dest length).byte (Dest + i)
        = some (load m (Src1 + i))) := by
  have hn : ¬ (Src1 = 0 ∨ Dest = 0) := by omega
  have hn2 : ¬ (Dest = 0 ∨ Dest = 0) := by omega
  have key : ∀ (m0 : Mem) (S : Nat), ReadBeforeWrite S Dest length →
      load (forBytes length (fun i m => store m (Dest + i) (-(load m (S + i) : Int) - 1)) m0)
        (Dest + i) = 255 - load m0 (S + i) := by
    intro m0 S hS
    rw [forBytes_pointwise2 _ (fun a _ => -(a : Int) - 1) S S Dest length (fun _ _ => rfl)
      m0 hS hS i hi]
    have := load_lt m0 (S + i)
    omega
  unfold SDL_imageFilterBitNegation
  rw [guarded_loop_eq _ hn]
  refine ⟨?_, fun m1 h1 => ?_⟩
  · simp only [Outcome.byte, key m Src1 hr]
  · simp only [Outcome.mem, Option.some.injEq] at h1
    rw [guarded_loop_eq _ hn2]
    simp only [Outcome.byte]
    rw [key m1 Dest (Or.inl (Nat.le_refl _)), ← h1, key m Src1 hr]
    have := load_lt m (Src1 + i)
    exact congrArg some (by omega)

/-- Instance of the preceding theorem on disjoint one-byte buffers. -/
theorem bitNegation_complements_witness :
    (SDL_imageFilterBitNegation sampleMem 100 200 1).byte (200 + 0)
      = some (255 - load sampleMem (100 + 0)) :=
  (bitNegation_complements sampleMem 100 200 1 (by decide) (by decide) (by decide) 0
    (by decide)).1

/-- C21 (as stated, refuted). In a memory holding 3, 4, 3, 12 at addresses 100 to 103, for
length 2: with `Src = 100`, `Dest = 101`, `Dest[1]` after BitNegation is 3, not
`255 - Src[1] = 251` of the byte held before the call; with `Src = 101`, `Dest = 100`,
`Dest[0]` is 251 while `Src[0]` is 252 after the call. -/
theorem bitNegation_overlapping_counterexample :
    (SDL_imageFilterBitNegation aliasMem 100 101 2).byte (101 + 1) = some 3 ∧
    255 - load aliasMem (100 + 1) = 251 ∧
    (SDL_imageFilterBitNegation aliasMem 100 101 2).byte (101 + 1)
      ≠ some (255 - load aliasMem (100 + 1)) ∧
    (SDL_imageFilterBitNegation aliasMem 101 100 2).byte (100 + 0) = some 251 ∧
    (SDL_imageFilterBitNegation aliasMem 101 100 2).byte (101 + 0) = some 252 := by
  decide

/-- C22 (amended). Constant add/subtract filters compute their saturating formulas: for
non-null buffers whose destination does not start strictly inside the source buffer, and
every `i < length`, AddByte with `C >= 1` leaves `min(255, Src[i] + C)`, SubByte with `C >= 1`
leaves `max(0, Src[i] - C)`, and AddByteToHalf with any `C` leaves
`min(255, floor(Src[i] / 2) + C)` in the destination byte (source byte held before the
call). -/
theorem constant_add_sub_saturate (m : Mem) (Src1 Dest length C : Nat)
    (hs : Src1 ≠ 0) (hd : Dest ≠ 0) (hr : ReadBeforeWrite Src1 Dest length)
    (i : Nat) (hi : i < length) :
    (1 ≤ C → (SDL_imageFilterAddByte m Src1 Dest length C).byte (Dest + i)
      = some (min 255 (load m (Src1 + i) + C))) ∧
    (1 ≤ C → (SDL_imageFilterSubByte m Src1 Dest length C).byte (Dest + i)
      = some (max 0 ((load m (Src1 + i) : Int) - (C : Int))).toNat) ∧
    (SDL_imageFilterAddByteToHalf m Src1 Dest length C).byte (Dest + i)
      = some (min 255 (load m (Src1 + i) / 2 + C)) := by
  have hn : ¬ (Src1 = 0 ∨ Dest = 0) := by omega
  have hl := load_lt m (Src1 + i)
  refine ⟨fun hC => ?_, fun hC => ?_, ?_⟩
  · unfold SDL_imageFilterAddByte
    rw [guarded_loop_eq2 _ _ hn (by omega)]
    simp only [Outcome.byte]
    rw [forBytes_pointwise2 _ (fun a _ => if (a : Int) + (C : Int) > 255 then 255
      else (a : Int) + (C : Int)) Src1 Src1 Dest length (fun _ _ => rfl) m hr hr i hi]
    congr 1
    split <;> omega
  · unfold SDL_imageFilterSubByte
    rw [guarded_loop_eq2 _ _ hn (by omega)]
    simp only [Outcome.byte]
    rw [forBytes_pointwise2 _ (fun a _ => if (a : Int) - (C : Int) < 0 then 0
      else (a : Int) - (C : Int)) Src1 Src1 Dest length (fun _ _ => rfl) m hr hr i hi]
    congr 1
    split <;> omega
  · unfold SDL_imageFilterAddByteToHalf
    rw [guarded_loop_eq _ hn]
    simp only [Outcome.byte]
    rw [forBytes_pointwise2 _ (fun a _ => if ((a / 2 : Nat) : Int) + (C : Int) > 255 then 255
      else ((a / 2 : Nat) : Int) + (C : Int)) Src1 Src1 Dest length (fun _ _ => rfl) m hr hr
      i hi]
    congr 1
    split <;> omega

/-- Instance of the preceding theorem on disjoint one-byte buffers with `C = 10`. -/
theorem constant_add_sub_saturate_witness :
    (SDL_imageFilterAddByte sampleMem 100 200 1 10).byte (200 + 0)
      = some (min 255 (load sampleMem (100 + 0) + 10)) ∧
    (SDL_imageFilterSubByte sampleMem 100 200 1 10).byte (200 + 0)
      = some (max 0 ((load sampleMem (100 + 0) : Int) - ((10 : Nat) : Int))).toNat ∧
    (SDL_imageFilterAddByteToHalf sampleMem 100 200 1 10).byte (200 + 0)
      = some (min 255 (load sampleMem (100 + 0) / 2 + 10)) :=
  ⟨(constant_add_sub_saturate sampleMem 100 200 1 10 (by decide) (by decide) (by decide) 0
      (by decide)).1 (by decide),
    (constant_add_sub_saturate sampleMem 100 200 1 10 (by decide) (by decide) (by decide) 0
      (by decide)).2.1 (by decide),
    (constant_add_sub_saturate sampleMem 100 200 1 10 (by decide) (by decide) (by decide) 0
      (by decide)).2.2⟩

/-- C22 (as stated, refuted). In a memory holding 3, 4, 3, 12 at addresses 100 to 103, for
length 2 and `Src = 100`, `Dest = 101`: `Dest[1]` is 23 after AddByte with `C = 10` (not
`min(255, Src[1] + 10) = 14`), 1 after SubByte with `C = 1` (not `max(0, Src[1] - 1) = 3`) and
15 after AddByteToHalf with `C = 10` (not `min(255, Src[1] / 2 + 10) = 12`), `Src[1] = 4` being
the byte held before the call. With `Src = 101`, `Dest = 100`, AddByte with `C = 10` leaves
`Dest[0] = 14` while `Src[0]` is 13 after the call. -/
theorem constant_add_sub_overlapping_counterexample :
    load aliasMem (100 + 1) = 4 ∧
    (SDL_imageFilterAddByte aliasMem 100 101 2 10).byte (101 + 1) = some 23 ∧
    (SDL_imageFilterAddByte aliasMem 100 101 2 10).byte (101 + 1)
      ≠ some (min 255 (load aliasMem (100 + 1) + 10)) ∧
    (SDL_imageFilterSubByte aliasMem 100 101 2 1).byte (101 + 1) = some 1 ∧
    (SDL_imageFilterSubByte aliasMem 100 101 2 1).byte (101 + 1)
      ≠ some (max 0 ((load aliasMem (100 + 1) : Int) - ((1 : Nat) : Int))).toNat ∧
    (SDL_imageFilterAddByteToHalf aliasMem 100 101 2 10).byte (101 + 1) = some 15 ∧
    (SDL_imageFilterAddByteToHalf aliasMem 100 101 2 10).byte (101 + 1)
      ≠ some (min 255 (load aliasMem (100 + 1) / 2 + 10)) ∧
    (SDL_imageFilterAddByte aliasMem 101 100 2 10).byte (100 + 0) = some 14 ∧
    (SDL_imageFilterAddByte aliasMem 101 100 2 10).byte (101 + 0) = some 13 := by
  decide

/-- C23 (amended). Byte-wide shifts for every `N` in 1..8: for non-null buffers whose
destination does not start strictly inside the source buffer, and every `i < length`,
ShiftRight leaves `floor(Src[i] / 2^N)`, ShiftLeft leaves `min(255, Src[i] * 2^N)` and
ShiftLeftByte leaves `(Src[i] * 2^N) mod 256` in the destination byte (source byte held
before the call). -/
theorem byte_shift_values (m : Mem) (Src1 Dest length N : Nat)
    (hs : Src1 ≠ 0) (hd : Dest ≠ 0) (hN1 : 1 ≤ N) (hN8 : N ≤ 8)
    (hr : ReadBeforeWrite Src1 Dest length) (i : Nat) (hi : i < length) :
    (SDL_imageFilterShiftRight m Src1 Dest length N).byte (Dest + i)
      = some (load m (Src1 + i) / 2 ^ N) ∧
    (SDL_imageFilterShiftLeft m Src1 Dest length N).byte (Dest + i)
      = some (min 255 (load m (Src1 + i) * 2 ^ N)) ∧
    (SDL_imageFilterShiftLeftByte m Src1 Dest length N).byte (Dest + i)
      = some ((load m (Src1 + i) * 2 ^ N) % 256) := by
  have hn : ¬ (Src1 = 0 ∨ Dest = 0) := by omega
  have hl0 : ¬ length = 0 := by omega
  have hl := load_lt m (Src1 + i)
  refine ⟨?_, ?_, ?_⟩
  · unfold SDL_imageFilterShiftRight
    rw [if_neg hn, if_neg hl0, if_neg (by omega), if_neg (by omega)]
    simp only [Outcome.byte]
    rw [forBytes_pointwise2 _ (fun a _ => if ((a >>> N : Nat) : Int) < 0 then 0
      else ((a >>> N : Nat) : Int)) Src1 Src1 Dest length (fun _ _ => rfl) m hr hr i hi]
    congr 1
    rw [Nat.shiftRight_eq_div_pow]
    have hle : load m (Src1 + i) / 2 ^ N ≤ load m (Src1 + i) := Nat.div_le_self _ _
    generalize load m (Src1 + i) / 2 ^ N = q at hle ⊢
    split <;> omega
  · unfold SDL_imageFilterShiftLeft
    rw [if_neg hn, if_neg hl0, if_neg (by omega), if_neg (by omega)]
    simp only [Outcome.byte]
    rw [forBytes_pointwise2 _ (fun a _ => if ((a <<< N : Nat) : Int) > 255 then 255
      else ((a <<< N : Nat) : Int)) Src1 Src1 Dest length (fun _ _ => rfl) m hr hr i hi]
    congr 1
    rw [Nat.shiftLeft_eq]
    generalize load m (Src1 + i) * 2 ^ N = q
    split <;> omega
  · unfold SDL_imageFilterShiftLeftByte
    rw [if_neg hn, if_neg hl0, if_neg (by omega), if_neg (by omega)]
    simp only [Outcome.byte]
    rw [forBytes_pointwise2 _ (fun a _ => (((a <<< N) &&& 0xff : Nat) : Int))
      Src1 Src1 Dest length (fun _ _ => rfl) m hr hr i hi]
    congr 1
    rw [Nat.shiftLeft_eq]
    have e : (0xff : Nat) = 2 ^ 8 - 1 := by norm_num
    rw [e, Nat.and_pow_two_sub_one_eq_mod]
    generalize load m (Src1 + i) * 2 ^ N = q
    omega

/-- Instance of the preceding theorem on disjoint one-byte buffers with `N = 3`. -/
theorem byte_shift_values_witness :
    (SDL_imageFilterShiftRight sampleMem 100 200 1 3).byte (200 + 0)
      = some (load sampleMem (100 + 0) / 2 ^ 3) ∧
    (SDL_imageFilterShiftLeft sampleMem 100 200 1 3).byte (200 + 0)
      = some (min 255 (load sampleMem (100 + 0) * 2 ^ 3)) ∧
    (SDL_imageFilterShiftLeftByte sampleMem 100 200 1 3).byte (200 + 0)
      = some ((load sampleMem (100 + 0) * 2 ^ 3) % 256) :=
  byte_shift_values sampleMem 100 200 1 3 (by decide) (by decide) (by decide) (by decide)
    (by decide) 0 (by decide)

/-- C23 (as stated, refuted). In a memory holding 3, 4, 3, 12 at addresses 100 to 103, for
length 2, `N = 1` and `Src = 100`, `Dest = 101`: `Dest[1]` is 0 after ShiftRight (not
`floor(Src[1] / 2) = 2`), 12 after ShiftLeft (not `min(255, Src[1] * 2) = 8`) and 12 after
ShiftLeftByte (not `(Src[1] * 2) mod 256 = 8`), `Src[1] = 4` being the byte held before the
call. With `Src = 101`, `Dest = 100`, ShiftLeft leaves `Dest[0] = 8` while `Src[0]` is 6 after
the call. -/
theorem byte_shift_overlapping_counterexample :
    load aliasMem (100 + 1) = 4 ∧
    (SDL_imageFilterShiftRight aliasMem 100 101 2 1).byte (101 + 1) = some 0 ∧
    (SDL_imageFilterShiftRight aliasMem 100 101 2 1).byte (101 + 1)
      ≠ some (load aliasMem (100 + 1) / 2 ^ 1) ∧
    (SDL_imageFilterShiftLeft aliasMem 100 101 2 1).byte (101 + 1) = some 12 ∧
    (SDL_imageFilterShiftLeft aliasMem 100 101 2 1).byte (101 + 1)
      ≠ some (min 255 (load aliasMem (100 + 1) * 2 ^ 1)) ∧
    (SDL_imageFilterShiftLeftByte aliasMem 100 101 2 1).byte (101 + 1) = some 12 ∧
    (SDL_imageFilterShiftLeftByte aliasMem 100 101 2 1).byte (101 + 1)
      ≠ some ((load aliasMem (100 + 1) * 2 ^ 1) % 256) ∧
    (SDL_imageFilterShiftLeft aliasMem 101 100 2 1).byte (100 + 0) = some 8 ∧
    (SDL_imageFilterShiftLeft aliasMem 101 100 2 1).byte (101 + 0) = some 6 := by
  decide


/-- C24 (the code departs from the claim). AddUint/SubUint distribute the constant big-endian
over each unit: with `bpp = 1`, `C = 5`, a source byte 1 and length 1, the constant byte used
by the code is `iC[0] = (C >> 8) & 0xff = 0`, not `c_0 = C & 0xFF = 5`; AddUint leaves 1 in the
destination byte (not `min(255, 1 + 5) = 6`) and SubUint leaves 1 (not `max(0, 1 - 5) = 0`).
With `bpp = 2`, `C = 0x0102` and source bytes 3, 4, AddUint leaves 3, 5, not
`3 + 1 = 4`, `4 + 2 = 6`. -/
theorem addUint_subUint_constant_shifted_by_one_byte :
    ((fillConst 1 5 (toInt32 1 + 1).toNat (fun _ => none)).bind
      (fun iC => readConst iC 0)) = some 0 ∧
    (5 >>> (8 * (1 - 1 - 0))) &&& 0xFF = 5 ∧
    (SDL_imageFilterAddUint 1 sampleMem 100 200 1 1 5).retval = some true ∧
    (SDL_imageFilterAddUint 1 sampleMem 100 200 1 1 5).byte (200 + 0) = some 1 ∧
    min 255 (load sampleMem (100 + 0) + 5) = 6 ∧
    (SDL_imageFilterSubUint 1 sampleMem 100 200 1 1 5).retval = some true ∧
    (SDL_imageFilterSubUint 1 sampleMem 100 200 1 1 5).byte (200 + 0) = some 1 ∧
    (max 0 ((load sampleMem (100 + 0) : Int) - 5)).toNat = 0 ∧
    (SDL_imageFilterAddUint 2 aliasMem 100 200 2 2 0x0102).retval = some true ∧
    (SDL_imageFilterAddUint 2 aliasMem 100 200 2 2 0x0102).byte (200 + 0) = some 3 ∧
    (SDL_imageFilterAddUint 2 aliasMem 100 200 2 2 0x0102).byte (200 + 1) = some 5 ∧
    load aliasMem (100 + 0) = 3 ∧ load aliasMem (100 + 1) = 4 := by
  decide

/-- C25 (the code departs from the claim). Word-wide shifts act on the reassembled unit: with
`bpp = 1`, `N = 1`, source bytes 200, 100 and a zeroed destination of length 2,
ShiftRightUint returns `true` and leaves 178 in `Dest[0]` (not `200 >> 1 = 100`) and does not
write `Dest[1]` (still 0, not `100 >> 1 = 50`); ShiftLeftUint leaves 200 in `Dest[0]` (not
`(200 << 1) mod 256 = 144`) and does not write `Dest[1]` (still 0, not 200). -/
theorem word_shift_does_not_shift_unit :
    load shiftMem (100 + 0) = 200 ∧ load shiftMem (100 + 1) = 100 ∧
    (SDL_imageFilterShiftRightUint 2 shiftMem 100 200 2 1 1).retval = some true ∧
    (SDL_imageFilterShiftRightUint 2 shiftMem 100 200 2 1 1).byte (200 + 0) = some 178 ∧
    (SDL_imageFilterShiftRightUint 2 shiftMem 100 200 2 1 1).byte (200 + 1) = some 0 ∧
    (SDL_imageFilterShiftLeftUint 2 shiftMem 100 200 2 1 1).retval = some true ∧
    (SDL_imageFilterShiftLeftUint 2 shiftMem 100 200 2 1 1).byte (200 + 0) = some 200 ∧
    (SDL_imageFilterShiftLeftUint 2 shiftMem 100 200 2 1 1).byte (200 + 1) = some 0 ∧
    200 >>> 1 = 100 ∧ (200 <<< 1) % 256 = 144 := by
  decide

/-- C26 (amended). A trailing partial unit is left unmodified by the word-wide shifts: for
ShiftLeftUint and ShiftRightUint, every `bpp >= 1`, every `N >= 1` and every length with
`length + bpp <= 2^32`, whenever the call returns, every destination byte from index
`bpp * floor(length / bpp)` on (the last `length mod bpp` bytes) equals its content before the
call; and for non-null buffers, `bpp <= 7`, in-range `N` and fuel of at least `length` the
call does return `true`. -/
theorem shift_leaves_trailing_partial_unit (fuel : Nat) (m : Mem)
    (Src1 Dest length bpp N k : Nat) (hb : 1 ≤ bpp) (hN : 1 ≤ N)
    (hlen : length + bpp ≤ 2 ^ 32) (hk : bpp * (length / bpp) ≤ k) :
    ((SDL_imageFilterShiftLeftUint fuel m Src1 Dest length bpp N).retval ≠ none →
      (SDL_imageFilterShiftLeftUint fuel m Src1 Dest length bpp N).byte (Dest + k)
        = some (load m (Dest + k))) ∧
    ((SDL_imageFilterShiftRightUint fuel m Src1 Dest length bpp N).retval ≠ none →
      (SDL_imageFilterShiftRightUint fuel m Src1 Dest length bpp N).byte (Dest + k)
        = some (load m (Dest + k))) ∧
    (Src1 ≠ 0 → Dest ≠ 0 → bpp ≤ 7 → length ≤ fuel →
      (N ≤ 31 →
        (SDL_imageFilterShiftLeftUint fuel m Src1 Dest length bpp N).retval = some true) ∧
      (N ≤ 8 →
        (SDL_imageFilterShiftRightUint fuel m Src1 Dest length bpp N).retval = some true)) := by
  have hstep : ∀ i, bpp ∣ i → i < length → bpp ∣ (i + bpp) % 2 ^ 32 := by
    intro i hi hlt
    rw [Nat.mod_eq_of_lt (by omega)]
    exact Nat.dvd_add hi (Nat.dvd_refl bpp)
  have hne : ∀ i, bpp ∣ i → i < length → (i + bpp) % 2 ^ 32 < length →
      ∀ j, j < bpp → Dest + k ≠ Dest + (i + j) % 2 ^ 32 := by
    intro i hi hlt hc j hj
    rw [Nat.mod_eq_of_lt (by omega)] at hc
    rw [Nat.mod_eq_of_lt (by omega)]
    have := unit_below_trailing bpp i length hb hi hc
    omega
  have hN0 : ¬ N = 0 := by omega
  refine ⟨?_, ?_, fun hs hd hb7 hf => ⟨fun h31 => ?_, fun h8 => ?_⟩⟩
  · unfold SDL_imageFilterShiftLeftUint
    by_cases hn : Src1 = 0 ∨ Dest = 0
    · rw [if_pos hn]; exact fun _ => rfl
    rw [if_neg hn]
    by_cases hl0 : length = 0
    · rw [if_pos hl0]; exact fun _ => rfl
    rw [if_neg hl0]
    by_cases hr : N > 32
    · rw [if_pos hr]; exact fun _ => rfl
    rw [if_neg hr, if_neg hN0]
    refine byte_of_frame _ m (Dest + k) (fun b mf h => ?_)
    refine forUnits_frame length bpp _ (fun x => x = Dest + k) (fun i => bpp ∣ i) hstep ?_
      fuel 0 m (Nat.dvd_zero bpp) b mf h (Dest + k) rfl
    intro i mi mi1 hi hlt hbody x hx
    subst hx
    simp only [] at hbody
    by_cases hc : (i + bpp) % 2 ^ 32 < length
    · rw [if_pos hc] at hbody
      cases hp : packUnitUInt mi Src1 i (toInt32 bpp + 1).toNat 0 with
      | none => rw [hp] at hbody; simp at hbody
      | some r =>
        rw [hp] at hbody
        simp only [] at hbody
        by_cases h32 : N ≥ 32
        · rw [if_pos h32] at hbody; simp at hbody
        · rw [if_neg h32] at hbody
          exact storeLoop_frame _ _ Dest i bpp mi mi1 _ (hne i hi hlt hc) hbody
    · rw [if_neg hc] at hbody
      simp only [Option.some.injEq] at hbody
      rw [hbody]
  · unfold SDL_imageFilterShiftRightUint
    by_cases hn : Src1 = 0 ∨ Dest = 0
    · rw [if_pos hn]; exact fun _ => rfl
    rw [if_neg hn]
    by_cases hl0 : length = 0
    · rw [if_pos hl0]; exact fun _ => rfl
    rw [if_neg hl0]
    by_cases hr : N > 8
    · rw [if_pos hr]; exact fun _ => rfl
    rw [if_neg hr, if_neg hN0]
    refine byte_of_frame _ m (Dest + k) (fun b mf h => ?_)
    refine forUnits_frame length bpp _ (fun x => x = Dest + k) (fun i => bpp ∣ i) hstep ?_
      fuel 0 m (Nat.dvd_zero bpp) b mf h (Dest + k) rfl
    intro i mi mi1 hi hlt hbody x hx
    subst hx
    simp only [] at hbody
    by_cases hc : (i + bpp) % 2 ^ 32 < length
    · rw [if_pos hc] at hbody
      cases hp : packUnitInt mi Src1 i (toInt32 bpp + 1).toNat 0 with
      | none => rw [hp] at hbody; simp at hbody
      | some r =>
        rw [hp] at hbody
        simp only [] at hbody
        by_cases h32 : N ≥ 32
        · rw [if_pos h32] at hbody; simp at hbody
        · rw [if_neg h32] at hbody
          exact storeLoop_frame _ _ Dest i bpp mi mi1 _ (hne i hi hlt hc) hbody
    · rw [if_neg hc] at hbody
      simp only [Option.some.injEq] at hbody
      rw [hbody]
  · have hn : ¬ (Src1 = 0 ∨ Dest = 0) := by omega
    have hcnt := toInt32_count bpp (by omega)
    unfold SDL_imageFilterShiftLeftUint
    rw [if_neg hn]
    by_cases hl0 : length = 0
    · rw [if_pos hl0]; rfl
    rw [if_neg hl0, if_neg (by omega), if_neg hN0]
    apply forUnits_returns length bpp _ _ hb hlen fuel 0 m (by omega)
    intro i mi
    simp only []
    split
    · obtain ⟨r, hr⟩ := packUnitUInt_some mi Src1 i (toInt32 bpp + 1).toNat (by omega) 0
      rw [hr]
      simp only []
      rw [if_neg (by omega)]
      exact forIndex_some bpp _ (fun j mj => by rw [if_neg (by omega)]; exact ⟨_, rfl⟩) mi
    · exact ⟨mi, rfl⟩
  · have hn : ¬ (Src1 = 0 ∨ Dest = 0) := by omega
    have hcnt := toInt32_count bpp (by omega)
    unfold SDL_imageFilterShiftRightUint
    rw [if_neg hn]
    by_cases hl0 : length = 0
    · rw [if_pos hl0]; rfl
    rw [if_neg hl0, if_neg (by omega), if_neg hN0]
    apply forUnits_returns length bpp _ _ hb hlen fuel 0 m (by omega)
    intro i mi
    simp only []
    split
    · obtain ⟨r, hr⟩ := packUnitInt_some mi Src1 i (toInt32 bpp + 1).toNat (by omega) 0
      rw [hr]
      simp only []
      rw [if_neg (by omega)]
      exact forIndex_some bpp _ (fun j mj => by rw [if_neg (by omega)]; exact ⟨_, rfl⟩) mi
    · exact ⟨mi, rfl⟩

/-- Instance of the preceding theorem: length 3 with `bpp = 2`, `N = 1`; the trailing byte is
at index 2. -/
theorem shift_leaves_trailing_partial_unit_witness :
    (SDL_imageFilterShiftLeftUint 3 shiftMem 100 200 3 2 1).retval = some true ∧
    (SDL_imageFilterShiftLeftUint 3 shiftMem 100 200 3 2 1).byte (200 + 2)
      = some (load shiftMem (200 + 2)) ∧
    (SDL_imageFilterShiftRightUint 3 shiftMem 100 200 3 2 1).retval = some true ∧
    (SDL_imageFilterShiftRightUint 3 shiftMem 100 200 3 2 1).byte (200 + 2)
      = some (load shiftMem (200 + 2)) :=
  ⟨((shift_leaves_trailing_partial_unit 3 shiftMem 100 200 3 2 1 2 (by decide) (by decide)
      (by decide) (by decide)).2.2 (by decide) (by decide) (by decide) (by decide)).1
      (by decide),
    (shift_leaves_trailing_partial_unit 3 shiftMem 100 200 3 2 1 2 (by decide) (by decide)
      (by decide) (by decide)).1 (by decide),
    ((shift_leaves_trailing_partial_unit 3 shiftMem 100 200 3 2 1 2 (by decide) (by decide)
      (by decide) (by decide)).2.2 (by decide) (by decide) (by decide) (by decide)).2
      (by decide),
    (shift_leaves_trailing_partial_unit 3 shiftMem 100 200 3 2 1 2 (by decide) (by decide)
      (by decide) (by decide)).2.1 (by decide)⟩

/-- C26 (as stated, refuted). AddUint and SubUint process a trailing partial unit: with
`bpp = 2` and length 1 (one partial unit), a source byte 1 and a destination byte 2, AddUint
with `C = 0x50000` leaves 6 and SubUint with `C = 5` leaves 1 in the destination byte; with
length 3, source bytes 3, 4, 3 and a zeroed destination, AddUint with `C = 0x50000` leaves 8
in the trailing byte `Dest[2]`. -/
theorem addUint_subUint_process_partial_unit :
    1 % 2 ≠ 0 ∧ load sampleMem (200 + 0) = 2 ∧
    (SDL_imageFilterAddUint 1 sampleMem 100 200 1 2 0x50000).retval = some true ∧
    (SDL_imageFilterAddUint 1 sampleMem 100 200 1 2 0x50000).byte (200 + 0) = some 6 ∧
    (SDL_imageFilterSubUint 1 sampleMem 100 200 1 2 5).retval = some true ∧
    (SDL_imageFilterSubUint 1 sampleMem 100 200 1 2 5).byte (200 + 0) = some 1 ∧
    3 % 2 ≠ 0 ∧ load aliasMem (200 + 2) = 0 ∧
    (SDL_imageFilterAddUint 3 aliasMem 100 200 3 2 0x50000).retval = some true ∧
    (SDL_imageFilterAddUint 3 aliasMem 100 200 3 2 0x50000).byte (200 + 2) = some 8 := by
  decide

/-- C27. Degenerate normalization is a no-op success: for non-null buffers, every length of
at least 1 and every `Cmin`, `Cmax`, `Nmin`, `Nmax` with `Cmax == Cmin`, NormalizeLinear
returns `true` and leaves the memory, hence every byte of the destination, as it was. The
floating point assumption is that `x - x == 0` holds for the quotient `x = Cmin / 255.0f`. -/
theorem normalizeLinear_degenerate_is_noop (fp : FloatOps) (hfp : SubSelfZero fp) (m : Mem)
    (Src Dest length : Nat) (Cmin Cmax Nmin Nmax : Int)
    (hs : Src ≠ 0) (hd : Dest ≠ 0) (hl : 1 ≤ length) (hc : Cmax = Cmin) :
    SDL_imageFilterNormalizeLinear fp m Src Dest length Cmin Cmax Nmin Nmax
      = Outcome.ret true m := by
  have hn : ¬ (Src = 0 ∨ Dest = 0) := by omega
  have hl0 : ¬ length = 0 := by omega
  subst hc
  unfold SDL_imageFilterNormalizeLinear
  rw [if_neg hn, if_neg hl0]
  simp only []
  rw [if_pos (hfp Cmax)]

/-- Instance of the preceding theorem with exact arithmetic and `Cmin = Cmax = 10`: the call
returns `true` and the destination byte is unchanged. -/
theorem normalizeLinear_degenerate_is_noop_witness :
    (SDL_imageFilterNormalizeLinear exactFloat sampleMem 100 200 1 10 10 0 255).retval
      = some true ∧
    (SDL_imageFilterNormalizeLinear exactFloat sampleMem 100 200 1 10 10 0 255).byte 200
      = some (load sampleMem 200) :=
  ⟨congrArg Outcome.retval (normalizeLinear_degenerate_is_noop exactFloat
      exactFloat_subSelfZero sampleMem 100 200 1 10 10 0 255 (by decide) (by decide)
      (by decide) rfl),
    congrArg (fun o => Outcome.byte o 200) (normalizeLinear_degenerate_is_noop exactFloat
      exactFloat_subSelfZero sampleMem 100 200 1 10 10 0 255 (by decide) (by decide)
      (by decide) rfl)⟩

/-- C28 (amended). Every call to a BPP-aware filter finishes its unit loop when `bpp >= 1`
and `length + bpp <= 2^32`: for every memory, buffers, length, constant or shift count `x` and
fuel of at least `length`, none of AddUint, SubUint, ShiftLeftUint, ShiftRightUint runs out of
fuel (at most `length` iterations). Moreover the call returns: for AddUint and SubUint when
`bpp <= 3` and `C != 0`; for ShiftLeftUint when `bpp <= 7` and `1 <= N <= 31`; for
ShiftRightUint when `bpp <= 7` and `N >= 1`; and for all four when `x == 0` on
non-overlapping buffers. -/
theorem bpp_filters_finish (fuel : Nat) (m : Mem) (Src1 Dest length bpp x : Nat)
    (hb : 1 ≤ bpp) (hlen : length + bpp ≤ 2 ^ 32) (hf : length ≤ fuel) :
    ((SDL_imageFilterAddUint fuel m Src1 Dest length bpp x).timedOut = false ∧
      (SDL_imageFilterSubUint fuel m Src1 Dest length bpp x).timedOut = false ∧
      (SDL_imageFilterShiftLeftUint fuel m Src1 Dest length bpp x).timedOut = false ∧
      (SDL_imageFilterShiftRightUint fuel m Src1 Dest length bpp x).timedOut = false) ∧
    (bpp ≤ 3 → x ≠ 0 →
      (SDL_imageFilterAddUint fuel m Src1 Dest length bpp x).retval ≠ none ∧
      (SDL_imageFilterSubUint fuel m Src1 Dest length bpp x).retval ≠ none) ∧
    (bpp ≤ 7 → 1 ≤ x → x ≤ 31 →
      (SDL_imageFilterShiftLeftUint fuel m Src1 Dest length bpp x).retval ≠ none) ∧
    (bpp ≤ 7 → 1 ≤ x →
      (SDL_imageFilterShiftRightUint fuel m Src1 Dest length bpp x).retval ≠ none) ∧
    (x = 0 → ¬ overlaps Src1 Dest length →
      (SDL_imageFilterAddUint fuel m Src1 Dest length bpp x).retval ≠ none ∧
      (SDL_imageFilterSubUint fuel m Src1 Dest length bpp x).retval ≠ none ∧
      (SDL_imageFilterShiftLeftUint fuel m Src1 Dest length bpp x).retval ≠ none ∧
      (SDL_imageFilterShiftRightUint fuel m Src1 Dest length bpp x).retval ≠ none) := by
  have hsome : ∀ b : Bool, (some b : Option Bool) ≠ none := fun b => by simp
  refine ⟨⟨?_, ?_, ?_, ?_⟩, fun hb3 hx => ⟨?_, ?_⟩, fun hb7 h1 h31 => ?_, fun hb7 h1 => ?_,
    fun hx hov => ⟨?_, ?_, ?_, ?_⟩⟩
  -- no timeout: AddUint
  · unfold SDL_imageFilterAddUint
    by_cases hn : Src1 = 0 ∨ Dest = 0
    · rw [if_pos hn]; rfl
    rw [if_neg hn]
    by_cases hl0 : length = 0
    · rw [if_pos hl0]; rfl
    rw [if_neg hl0]
    by_cases hx : x = 0
    · rw [if_pos hx]; exact afterMemcpy_timedOut _ _
    rw [if_neg hx]
    cases fillConst bpp x (toInt32 bpp + 1).toNat (fun _ => none) with
    | none => rfl
    | some iC => exact forUnits_no_timeout length bpp _ hb hlen fuel 0 m (by omega)
  -- no timeout: SubUint
  · unfold SDL_imageFilterSubUint
    by_cases hn : Src1 = 0 ∨ Dest = 0
    · rw [if_pos hn]; rfl
    rw [if_neg hn]
    by_cases hl0 : length = 0
    · rw [if_pos hl0]; rfl
    rw [if_neg hl0]
    by_cases hx : x = 0
    · rw [if_pos hx]; exact afterMemcpy_timedOut _ _
    rw [if_neg hx]
    cases fillConst bpp x (toInt32 bpp + 1).toNat (fun _ => none) with
    | none => rfl
    | some iC => exact forUnits_no_timeout length bpp _ hb hlen fuel 0 m (by omega)
  -- no timeout: ShiftLeftUint
  · unfold SDL_imageFilterShiftLeftUint
    by_cases hn : Src1 = 0 ∨ Dest = 0
    · rw [if_pos hn]; rfl
    rw [if_neg hn]
    by_cases hl0 : length = 0
    · rw [if_pos hl0]; rfl
    rw [if_neg hl0]
    by_cases hr : x > 32
    · rw [if_pos hr]; rfl
    rw [if_neg hr]
    by_cases hx : x = 0
    · rw [if_pos hx]; exact afterMemcpy_timedOut _ _
    rw [if_neg hx]
    exact forUnits_no_timeout length bpp _ hb hlen fuel 0 m (by omega)
  -- no timeout: ShiftRightUint
  · unfold SDL_imageFilterShiftRightUint
    by_cases hn : Src1 = 0 ∨ Dest = 0
    · rw [if_pos hn]; rfl
    rw [if_neg hn]
    by_cases hl0 : length = 0
    · rw [if_pos hl0]; rfl
    rw [if_neg hl0]
    by_cases hr : x > 8
    · rw [if_pos hr]; rfl
    rw [if_neg hr]
    by_cases hx : x = 0
    · rw [if_pos hx]; exact afterMemcpy_timedOut _ _
    rw [if_neg hx]
    exact forUnits_no_timeout length bpp _ hb hlen fuel 0 m (by omega)
  -- returns: AddUint with bpp <= 3
  · unfold SDL_imageFilterAddUint
    by_cases hn : Src1 = 0 ∨ Dest = 0
    · rw [if_pos hn]; exact hsome _
    rw [if_neg hn]
    by_cases hl0 : length = 0
    · rw [if_pos hl0]; exact hsome _
    rw [if_neg hl0, if_neg hx, toInt32_count bpp (by omega)]
    obtain ⟨iC, h1, h2, _⟩ := fillConst_some bpp x hb3 (bpp + 1) (Nat.le_refl _) (fun _ => none)
    rw [h1]
    simp only []
    rw [forUnits_returns length bpp _ ?_ hb hlen fuel 0 m (by omega)]
    · exact hsome _
    · intro i mi
      refine forIndex_some_lt bpp _ (fun j mj hj => ?_) mi
      by_cases hc : (i + j) % 2 ^ 32 < length
      · rw [if_pos hc]
        obtain ⟨c, hcst⟩ := readConst_some iC j (by unfold MAX_BYTES_PER_PIXEL; omega)
          (h2 j (by omega))
        rw [hcst]
        exact ⟨_, rfl⟩
      · rw [if_neg hc]
        exact ⟨_, rfl⟩
  -- returns: SubUint with bpp <= 3
  · unfold SDL_imageFilterSubUint
    by_cases hn : Src1 = 0 ∨ Dest = 0
    · rw [if_pos hn]; exact hsome _
    rw [if_neg hn]
    by_cases hl0 : length = 0
    · rw [if_pos hl0]; exact hsome _
    rw [if_neg hl0, if_neg hx, toInt32_count bpp (by omega)]
    obtain ⟨iC, h1, h2, _⟩ := fillConst_some bpp x hb3 (bpp + 1) (Nat.le_refl _) (fun _ => none)
    rw [h1]
    simp only []
    rw [forUnits_returns length bpp _ ?_ hb hlen fuel 0 m (by omega)]
    · exact hsome _
    · intro i mi
      refine forIndex_some_lt bpp _ (fun j mj hj => ?_) mi
      by_cases hc : (i + j) % 2 ^ 32 < length
      · rw [if_pos hc]
        obtain ⟨c, hcst⟩ := readConst_some iC j (by unfold MAX_BYTES_PER_PIXEL; omega)
          (h2 j (by omega))
        rw [hcst]
        exact ⟨_, rfl⟩
      · rw [if_neg hc]
        exact ⟨_, rfl⟩
  -- returns: ShiftLeftUint with bpp <= 7
  · unfold SDL_imageFilterShiftLeftUint
    by_cases hn : Src1 = 0 ∨ Dest = 0
    · rw [if_pos hn]; exact hsome _
    rw [if_neg hn]
    by_cases hl0 : length = 0
    · rw [if_pos hl0]; exact hsome _
    have hcnt := toInt32_count bpp (by omega)
    rw [if_neg hl0, if_neg (by omega), if_neg (by omega),
      forUnits_returns length bpp _ ?_ hb hlen fuel 0 m (by omega)]
    · exact hsome _
    · intro i mi
      simp only []
      by_cases hc : (i + bpp) % 2 ^ 32 < length
      · rw [if_pos hc]
        obtain ⟨r, hr⟩ := packUnitUInt_some mi Src1 i (toInt32 bpp + 1).toNat (by omega) 0
        rw [hr]
        simp only []
        rw [if_neg (by omega)]
        exact forIndex_some bpp _ (fun j mj => by rw [if_neg (by omega)]; exact ⟨_, rfl⟩) mi
      · rw [if_neg hc]
        exact ⟨mi, rfl⟩
  -- returns: ShiftRightUint with bpp <= 7
  · unfold SDL_imageFilterShiftRightUint
    by_cases hn : Src1 = 0 ∨ Dest = 0
    · rw [if_pos hn]; exact hsome _
    rw [if_neg hn]
    by_cases hl0 : length = 0
    · rw [if_pos hl0]; exact hsome _
    rw [if_neg hl0]
    by_cases hr8 : x > 8
    · rw [if_pos hr8]; exact hsome _
    have hcnt := toInt32_count bpp (by omega)
    rw [if_neg hr8, if_neg (by omega),
      forUnits_returns length bpp _ ?_ hb hlen fuel 0 m (by omega)]
    · exact hsome _
    · intro i mi
      simp only []
      by_cases hc : (i + bpp) % 2 ^ 32 < length
      · rw [if_pos hc]
        obtain ⟨r, hr⟩ := packUnitInt_some mi Src1 i (toInt32 bpp + 1).toNat (by omega) 0
        rw [hr]
        simp only []
        rw [if_neg (by omega)]
        exact forIndex_some bpp _ (fun j mj => by rw [if_neg (by omega)]; exact ⟨_, rfl⟩) mi
      · rw [if_neg hc]
        exact ⟨mi, rfl⟩
  -- returns: copy paths
  · unfold SDL_imageFilterAddUint
    by_cases hn : Src1 = 0 ∨ Dest = 0
    · rw [if_pos hn]; exact hsome _
    rw [if_neg hn]
    by_cases hl0 : length = 0
    · rw [if_pos hl0]; exact hsome _
    rw [if_neg hl0, if_pos hx, afterMemcpy_returns m Src1 Dest length true hov]
    exact hsome _
  · unfold SDL_imageFilterSubUint
    by_cases hn : Src1 = 0 ∨ Dest = 0
    · rw [if_pos hn]; exact hsome _
    rw [if_neg hn]
    by_cases hl0 : length = 0
    · rw [if_pos hl0]; exact hsome _
    rw [if_neg hl0, if_pos hx, afterMemcpy_returns m Src1 Dest length true hov]
    exact hsome _
  · unfold SDL_imageFilterShiftLeftUint
    by_cases hn : Src1 = 0 ∨ Dest = 0
    · rw [if_pos hn]; exact hsome _
    rw [if_neg hn]
    by_cases hl0 : length = 0
    · rw [if_pos hl0]; exact hsome _
    rw [if_neg hl0, if_neg (by omega), if_pos hx,
      afterMemcpy_returns m Src1 Dest length true hov]
    exact hsome _
  · unfold SDL_imageFilterShiftRightUint
    by_cases hn : Src1 = 0 ∨ Dest = 0
    · rw [if_pos hn]; exact hsome _
    rw [if_neg hn]
    by_cases hl0 : length = 0
    · rw [if_pos hl0]; exact hsome _
    rw [if_neg hl0, if_neg (by omega), if_pos hx,
      afterMemcpy_returns m Src1 Dest length _ hov]
    exact hsome _

/-- Witness of the preceding theorem: four bytes in two units of two, constant or shift
count 1, on the sample memory. -/
theorem bpp_filters_finish_witness :
    (1 ≤ 2 ∧ 4 + 2 ≤ 2 ^ 32 ∧ 4 ≤ 4) ∧
    (SDL_imageFilterAddUint 4 sampleMem 100 200 4 2 1).timedOut = false ∧
    (SDL_imageFilterAddUint 4 sampleMem 100 200 4 2 1).retval ≠ none ∧
    (SDL_imageFilterSubUint 4 sampleMem 100 200 4 2 1).retval ≠ none ∧
    (SDL_imageFilterShiftLeftUint 4 sampleMem 100 200 4 2 1).retval ≠ none ∧
    (SDL_imageFilterShiftRightUint 4 sampleMem 100 200 4 2 1).retval ≠ none :=
  ⟨by decide,
    (bpp_filters_finish 4 sampleMem 100 200 4 2 1 (by decide) (by decide) (by decide)).1.1,
    ((bpp_filters_finish 4 sampleMem 100 200 4 2 1 (by decide) (by decide) (by decide)).2.1
      (by decide) (by decide)).1,
    ((bpp_filters_finish 4 sampleMem 100 200 4 2 1 (by decide) (by decide) (by decide)).2.1
      (by decide) (by decide)).2,
    (bpp_filters_finish 4 sampleMem 100 200 4 2 1 (by decide) (by decide) (by decide)).2.2.1
      (by decide) (by decide) (by decide),
    (bpp_filters_finish 4 sampleMem 100 200 4 2 1 (by decide) (by decide) (by decide)).2.2.2.1
      (by decide) (by decide)⟩

/-- C28 (counterexample). With `bpp = 0` the unit loop never advances: on non-null buffers of
length 1 none of AddUint, SubUint (`C = 5`), ShiftLeftUint, ShiftRightUint (`N = 1`) returns,
whatever the number of iterations allowed. With `bpp = 2` and `length = 2^32 - 1` the index of
AddUint wraps from `2^32 - 2` to 0, every access staying inside the buffers, and the loop
never ends either. -/
theorem bpp_zero_never_returns :
    NeverReturns (fun fuel => SDL_imageFilterAddUint fuel sampleMem 100 200 1 0 5) ∧
    NeverReturns (fun fuel => SDL_imageFilterSubUint fuel sampleMem 100 200 1 0 5) ∧
    NeverReturns (fun fuel => SDL_imageFilterShiftLeftUint fuel sampleMem 100 200 1 0 1) ∧
    NeverReturns (fun fuel => SDL_imageFilterShiftRightUint fuel sampleMem 100 200 1 0 1) ∧
    NeverReturns
      (fun fuel => SDL_imageFilterAddUint fuel sampleMem 100 (2 ^ 33) (2 ^ 32 - 1) 2 5) ∧
    (SDL_imageFilterAddUint 1000 sampleMem 100 200 1 0 5).timedOut = true ∧
    (SDL_imageFilterAddUint 1000 sampleMem 100 200 1 0 5).retval = none := by
  have hstay : ∀ i : Nat, i = 0 → i < 1 ∧ (i + 0) % 2 ^ 32 = 0 := fun i hi => by
    subst hi; exact ⟨by decide, by decide⟩
  have hnever : ∀ o : Outcome, o = Outcome.timeout → o.timedOut = true ∧ o.retval = none :=
    fun o ho => by subst ho; exact ⟨rfl, rfl⟩
  have hadd : NeverReturns (fun fuel => SDL_imageFilterAddUint fuel sampleMem 100 200 1 0 5) := by
    intro fuel
    show SDL_imageFilterAddUint fuel sampleMem 100 200 1 0 5 = Outcome.timeout
    unfold SDL_imageFilterAddUint
    rw [if_neg (by decide), if_neg (by decide), if_neg (by decide)]
    obtain ⟨iC, h⟩ : ∃ iC, fillConst 0 5 (toInt32 0 + 1).toNat (fun _ => none) = some iC :=
      ⟨_, rfl⟩
    rw [h]
    exact forUnits_never 1 0 _ (fun i => i = 0) hstay (fun i m _ => ⟨m, rfl⟩) fuel 0
      sampleMem rfl
  refine ⟨hadd, ?_, ?_, ?_, ?_, (hnever _ (hadd 1000)).1, (hnever _ (hadd 1000)).2⟩
  · intro fuel
    show SDL_imageFilterSubUint fuel sampleMem 100 200 1 0 5 = Outcome.timeout
    unfold SDL_imageFilterSubUint
    rw [if_neg (by decide), if_neg (by decide), if_neg (by decide)]
    obtain ⟨iC, h⟩ : ∃ iC, fillConst 0 5 (toInt32 0 + 1).toNat (fun _ => none) = some iC :=
      ⟨_, rfl⟩
    rw [h]
    exact forUnits_never 1 0 _ (fun i => i = 0) hstay (fun i m _ => ⟨m, rfl⟩) fuel 0
      sampleMem rfl
  · intro fuel
    show SDL_imageFilterShiftLeftUint fuel sampleMem 100 200 1 0 1 = Outcome.timeout
    unfold SDL_imageFilterShiftLeftUint
    rw [if_neg (by decide), if_neg (by decide), if_neg (by decide), if_neg (by decide)]
    refine forUnits_never 1 0 _ (fun i => i = 0) hstay (fun i m hi => ?_) fuel 0 sampleMem rfl
    subst hi
    exact ⟨_, rfl⟩
  · intro fuel
    show SDL_imageFilterShiftRightUint fuel sampleMem 100 200 1 0 1 = Outcome.timeout
    unfold SDL_imageFilterShiftRightUint
    rw [if_neg (by decide), if_neg (by decide), if_neg (by decide), if_neg (by decide)]
    refine forUnits_never 1 0 _ (fun i => i = 0) hstay (fun i m hi => ?_) fuel 0 sampleMem rfl
    subst hi
    exact ⟨_, rfl⟩
  · intro fuel
    show SDL_imageFilterAddUint fuel sampleMem 100 (2 ^ 33) (2 ^ 32 - 1) 2 5 = Outcome.timeout
    unfold SDL_imageFilterAddUint
    rw [if_neg (by decide), if_neg (by decide), if_neg (by decide),
      toInt32_count 2 (by decide)]
    obtain ⟨iC, h1, h2, _⟩ := fillConst_some 2 5 (by decide) (2 + 1) (Nat.le_refl _)
      (fun _ => none)
    rw [h1]
    refine forUnits_never (2 ^ 32 - 1) 2 _ (fun i => i % 2 = 0 ∧ i < 2 ^ 32)
      (fun i hi => ⟨by omega, by omega, by omega⟩) (fun i m _ => ?_) fuel 0 sampleMem
      ⟨by decide, by decide⟩
    refine forIndex_some_lt 2 _ (fun j mj hj => ?_) m
    by_cases hc : (i + j) % 2 ^ 32 < 2 ^ 32 - 1
    · rw [if_pos hc]
      obtain ⟨c, hcst⟩ := readConst_some iC j (by unfold MAX_BYTES_PER_PIXEL; omega)
        (h2 j (by omega))
      rw [hcst]
      exact ⟨_, rfl⟩
    · rw [if_neg hc]
      exact ⟨_, rfl⟩

/-- C29 (the code departs from the claim). The constant-byte array stays within its capacity:
with `bpp = 16` the loop `for (k = bpp; k >= 0; k--) iC[k] = ...` runs 17 times and its first
store is at index 16, outside `iC[0..15]`; the bounds-checked AddUint and SubUint reach
undefined behaviour there. -/
theorem constArray_written_at_index_16 :
    (toInt32 16 + 1).toNat = 17 ∧
    (fillConstWrites (toInt32 16 + 1).toNat).head? = some 16 ∧
    ¬ (∀ k ∈ fillConstWrites (toInt32 16 + 1).toNat, k < MAX_BYTES_PER_PIXEL) ∧
    (fillConst 16 1 (toInt32 16 + 1).toNat (fun _ => none)).isNone = true ∧
    (SDL_imageFilterAddUint 1 sampleMem 100 200 1 16 1).hitUndefined = true ∧
    (SDL_imageFilterSubUint 1 sampleMem 100 200 1 16 1).hitUndefined = true := by
  decide

/-- For `bpp` of at most 15 every index at which the constant array is written (`k <= bpp`)
or read (`j < bpp`) is below its capacity 16. -/
theorem constArray_indices_below_capacity (bpp : Nat) (hb : bpp ≤ 15) :
    (∀ k ∈ fillConstWrites (toInt32 bpp + 1).toNat, k < MAX_BYTES_PER_PIXEL) ∧
    (∀ j, j < bpp → j < MAX_BYTES_PER_PIXEL) := by
  have e : (toInt32 bpp + 1).toNat = bpp + 1 := by
    unfold toInt32
    have e1 : bpp % 2 ^ 32 = bpp := Nat.mod_eq_of_lt (by omega)
    rw [e1, if_pos (by omega)]
    omega
  refine ⟨fun k hk => ?_, fun j hj => ?_⟩
  · rw [e] at hk
    have := fillConstWrites_lt _ _ hk
    unfold MAX_BYTES_PER_PIXEL
    omega
  · unfold MAX_BYTES_PER_PIXEL
    omega

/-- C30 (amended). Mult ignores its second source: for every `Src1`, `Dest`, length and
memory, and every pair of non-null second buffers `Src2`, `Src2'`, the two calls have the same
outcome (same return value, same memory); when the buffers are non-null and the destination
does not start strictly inside `Src1`, each destination byte is the value `multByte` of the
byte `Src1[i]` held before the call, so that two calls whose memories agree on the bytes of
`Src1` leave the same destination bytes whatever the rest of memory holds. -/
theorem mult_ignores_second_source (fp : FloatOps) (m : Mem)
    (Src1 Src2 Src2' Dest length : Nat) (h2 : Src2 ≠ 0) (h2' : Src2' ≠ 0) :
    SDL_imageFilterMult fp m Src1 Src2 Dest length
      = SDL_imageFilterMult fp m Src1 Src2' Dest length ∧
    (Src1 ≠ 0 → Dest ≠ 0 → ReadBeforeWrite Src1 Dest length → ∀ i, i < length →
      (SDL_imageFilterMult fp m Src1 Src2 Dest length).byte (Dest + i)
        = some ((multByte fp (load m (Src1 + i)) % 256).toNat)) ∧
    (Src1 ≠ 0 → Dest ≠ 0 → ReadBeforeWrite Src1 Dest length → ∀ m' : Mem,
      (∀ i, i < length → load m' (Src1 + i) = load m (Src1 + i)) → ∀ i, i < length →
      (SDL_imageFilterMult fp m' Src1 Src2' Dest length).byte (Dest + i)
        = (SDL_imageFilterMult fp m Src1 Src2 Dest length).byte (Dest + i)) := by
  have key : ∀ (mm : Mem) (S2 : Nat), S2 ≠ 0 → Src1 ≠ 0 → Dest ≠ 0 →
      ReadBeforeWrite Src1 Dest length → ∀ i, i < length →
      (SDL_imageFilterMult fp mm Src1 S2 Dest length).byte (Dest + i)
        = some ((multByte fp (load mm (Src1 + i)) % 256).toNat) := by
    intro mm S2 hs h1 hd hr i hi
    have hn : ¬ (Src1 = 0 ∨ S2 = 0 ∨ Dest = 0) := by omega
    unfold SDL_imageFilterMult
    rw [guarded_loop_eq _ hn]
    simp only [Outcome.byte]
    exact congrArg some (forBytes_pointwise2 _ (fun a _ => multByte fp a) Src1 Src1 Dest
      length (fun _ _ => rfl) mm hr hr i hi)
  refine ⟨?_, key m Src2 h2, fun h1 hd hr m' hm i hi => ?_⟩
  · unfold SDL_imageFilterMult
    simp only [h2, h2', false_or]
  · rw [key m' Src2' h2' h1 hd hr i hi, key m Src2 h2 h1 hd hr i hi, hm i hi]

/-- Instance of the preceding theorem on disjoint one-byte buffers, with second sources at
addresses 200 and 250. -/
theorem mult_ignores_second_source_witness :
    SDL_imageFilterMult exactFloat sampleMem 100 200 300 1
      = SDL_imageFilterMult exactFloat sampleMem 100 250 300 1 ∧
    (SDL_imageFilterMult exactFloat sampleMem 100 200 300 1).byte (300 + 0)
      = some ((multByte exactFloat (load sampleMem (100 + 0)) % 256).toNat) :=
  ⟨(mult_ignores_second_source exactFloat sampleMem 100 200 250 300 1 (by decide)
      (by decide)).1,
    (mult_ignores_second_source exactFloat sampleMem 100 200 250 300 1 (by decide)
      (by decide)).2.1 (by decide) (by decide) (by decide) 0 (by decide)⟩

/-- C30 (as stated, refuted). Each output byte is not a function of `Src1[i]` alone. With
`Src1 = 100`, `Dest = 101`, length 2, the memory holding 255, 0 and the memory holding 0, 0
have the same byte `Src1[1] = 0` before the call, yet Mult leaves `Dest[1] = 255` in the first
and `Dest[1] = 0` in the second. With `Src1 = 100`, `Dest = 99`, `Src1[0]` is 0 after the call
in both memories, yet `Dest[0]` is 255 in the first and 0 in the second. -/
theorem mult_overlapping_counterexample :
    load brightMem (100 + 1) = load zeroMem (100 + 1) ∧
    (SDL_imageFilterMult exactFloat brightMem 100 300 101 2).byte (101 + 1) = some 255 ∧
    (SDL_imageFilterMult exactFloat zeroMem 100 300 101 2).byte (101 + 1) = some 0 ∧
    (SDL_imageFilterMult exactFloat brightMem 100 300 101 2).byte (101 + 1)
      ≠ (SDL_imageFilterMult exactFloat zeroMem 100 300 101 2).byte (101 + 1) ∧
    (SDL_imageFilterMult exactFloat brightMem 100 300 99 2).byte (100 + 0) = some 0 ∧
    (SDL_imageFilterMult exactFloat zeroMem 100 300 99 2).byte (100 + 0) = some 0 ∧
    (SDL_imageFilterMult exactFloat brightMem 100 300 99 2).byte (99 + 0) = some 255 ∧
    (SDL_imageFilterMult exactFloat zeroMem 100 300 99 2).byte (99 + 0) = some 0 := by
  decide


/-- C31 (amended). Div is a two-valued comparison: for non-null buffers every destination
byte is 0 or 255 after the call; and when the destination does not start strictly inside
`Src1` or `Src2`, for every `i < length` with `Src2[i] != 0` the destination byte is 255 if
`Src1[i] >= Src2[i]` and 0 if `Src1[i] < Src2[i]` (source bytes held before the call). -/
theorem div_two_valued (fp : FloatOps) (hfp : SmallIntsExact fp) (m : Mem)
    (Src1 Src2 Dest length : Nat) (hs1 : Src1 ≠ 0) (hs2 : Src2 ≠ 0) (hd : Dest ≠ 0)
    (i : Nat) (hi : i < length) :
    ((SDL_imageFilterDiv fp m Src1 Src2 Dest length).byte (Dest + i) = some 0 ∨
      (SDL_imageFilterDiv fp m Src1 Src2 Dest length).byte (Dest + i) = some 255) ∧
    (ReadBeforeWrite Src1 Dest length → ReadBeforeWrite Src2 Dest length →
      load m (Src2 + i) ≠ 0 →
      (SDL_imageFilterDiv fp m Src1 Src2 Dest length).byte (Dest + i)
        = some (if load m (Src1 + i) ≥ load m (Src2 + i) then 255 else 0)) := by
  have hn : ¬ (Src1 = 0 ∨ Src2 = 0 ∨ Dest = 0) := by omega
  have hbody : ∀ (j : Nat) (mj : Mem),
      (if load mj (Src2 + j) = 0 then store mj (Dest + j) 0
        else store mj (Dest + j) (fp.toUChar (fp.mul
          (if fp.gt (fp.ofInt ((load mj (Src1 + j) / load mj (Src2 + j) : Nat) : Int))
            (fp.ofInt 1) = true then fp.ofInt 1
            else fp.ofInt ((load mj (Src1 + j) / load mj (Src2 + j) : Nat) : Int))
          (fp.ofInt 255))))
      = store mj (Dest + j) (if load mj (Src1 + j) ≥ load mj (Src2 + j)
          ∧ load mj (Src2 + j) ≠ 0 then 255 else 0) := by
    intro j mj
    by_cases hz : load mj (Src2 + j) = 0
    · rw [if_pos hz, if_neg (fun h => h.2 hz)]
    · rw [if_neg hz, div_value fp hfp _ _ (load_lt mj _) hz]
      by_cases hge : load mj (Src1 + j) ≥ load mj (Src2 + j)
      · rw [if_pos hge, if_pos ⟨hge, hz⟩]
      · rw [if_neg hge, if_neg (fun h => hge h.1)]
  have hW : ∀ (j : Nat) (mj : Mem) (a : Nat), a ≠ Dest + j →
      (if load mj (Src2 + j) = 0 then store mj (Dest + j) 0
        else store mj (Dest + j) (fp.toUChar (fp.mul
          (if fp.gt (fp.ofInt ((load mj (Src1 + j) / load mj (Src2 + j) : Nat) : Int))
            (fp.ofInt 1) = true then fp.ofInt 1
            else fp.ofInt ((load mj (Src1 + j) / load mj (Src2 + j) : Nat) : Int))
          (fp.ofInt 255)))) a = mj a := by
    intro j mj a ha
    rw [hbody, store_other mj _ _ a ha]
  unfold SDL_imageFilterDiv
  rw [guarded_loop_eq _ hn]
  simp only [Outcome.byte]
  refine ⟨?_, fun h1 h2 hz => ?_⟩
  · have key := forBytes_at _ Dest hW length m i hi
    rw [hbody, store_same] at key
    show some (forBytes length _ m (Dest + i) % 256) = some 0 ∨
      some (forBytes length _ m (Dest + i) % 256) = some 255
    rw [key]
    split
    · right; rfl
    · left; rfl
  · rw [forBytes_pointwise2 _ (fun a b => if a ≥ b ∧ b ≠ 0 then 255 else 0) Src1 Src2 Dest
      length hbody m h1 h2 i hi]
    by_cases hge : load m (Src1 + i) ≥ load m (Src2 + i)
    · rw [if_pos ⟨hge, hz⟩, if_pos hge]; rfl
    · rw [if_neg (fun h => hge h.1), if_neg hge]; rfl

/-- Instance of the preceding theorem with exact arithmetic on disjoint one-byte buffers:
`Src1[0] = 2`, `Src2[0] = 1`, so the destination byte is 255. -/
theorem div_two_valued_witness :
    load sampleMem (100 + 0) ≠ 0 ∧
    ((SDL_imageFilterDiv exactFloat sampleMem 200 100 300 1).byte (300 + 0) = some 0 ∨
      (SDL_imageFilterDiv exactFloat sampleMem 200 100 300 1).byte (300 + 0) = some 255) ∧
    (SDL_imageFilterDiv exactFloat sampleMem 200 100 300 1).byte (300 + 0)
      = some (if load sampleMem (200 + 0) ≥ load sampleMem (100 + 0) then 255 else 0) :=
  ⟨by decide,
    (div_two_valued exactFloat exactFloat_smallIntsExact sampleMem 200 100 300 1 (by decide)
      (by decide) (by decide) 0 (by decide)).1,
    (div_two_valued exactFloat exactFloat_smallIntsExact sampleMem 200 100 300 1 (by decide)
      (by decide) (by decide) 0 (by decide)).2 (by decide) (by decide) (by decide)⟩

/-- C31 (as stated, refuted). In a memory holding 3, 4, 3, 12 at addresses 100 to 103, for
length 2, `Src1 = 100` and `Src2 = 102`: with `Dest = 101`, `Src1[1] = 4 < Src2[1] = 12`
before the call and the divisor is non-zero, yet `Dest[1]` is 255 after Div, because the write
of `Dest[0]` replaced `Src1[1]` before it was read; with `Dest = 99`, `Src1[0]` is 0 and
`Src2[0]` is 3 after the call, yet `Dest[0]` is 255. -/
theorem div_comparison_overlapping_counterexample :
    load aliasMem (100 + 1) = 4 ∧ load aliasMem (102 + 1) = 12 ∧
    (SDL_imageFilterDiv exactFloat aliasMem 100 102 101 2).byte (101 + 1) = some 255 ∧
    (SDL_imageFilterDiv exactFloat aliasMem 100 102 101 2).byte (101 + 1)
      ≠ some (if load aliasMem (100 + 1) ≥ load aliasMem (102 + 1) then 255 else 0) ∧
    (SDL_imageFilterDiv exactFloat aliasMem 100 102 99 2).byte (99 + 0) = some 255 ∧
    (SDL_imageFilterDiv exactFloat aliasMem 100 102 99 2).byte (100 + 0) = some 0 ∧
    (SDL_imageFilterDiv exactFloat aliasMem 100 102 99 2).byte (102 + 0) = some 3 := by
  decide


/-- C32 (amended). Word-wide shifts never write the final unit: for ShiftLeftUint and
ShiftRightUint with `bpp >= 1`, `N >= 1` and a unit index that does not wrap, whenever the
call returns, a destination byte at index `k` whose unit start `i = bpp * floor(k / bpp)` does
not satisfy `i + bpp < length` keeps its prior content, in particular the last `bpp` bytes
when `length` is a multiple of `bpp`; for non-null buffers and in-range `N`, when
`length <= bpp` the call returns `true` and writes no byte at all, and when `bpp <= 7` (and
`N <= 31` for ShiftLeftUint) the call returns `true`. -/
theorem word_shift_skips_final_unit (fuel : Nat) (m : Mem) (Src1 Dest length bpp N : Nat)
    (hb : 1 ≤ bpp) (hN : 1 ≤ N) (hw : NoIndexWrap length bpp) :
    (∀ k, ¬ (bpp * (k / bpp) + bpp < length) →
      ((SDL_imageFilterShiftLeftUint fuel m Src1 Dest length bpp N).retval ≠ none →
        (SDL_imageFilterShiftLeftUint fuel m Src1 Dest length bpp N).byte (Dest + k)
          = some (load m (Dest + k))) ∧
      ((SDL_imageFilterShiftRightUint fuel m Src1 Dest length bpp N).retval ≠ none →
        (SDL_imageFilterShiftRightUint fuel m Src1 Dest length bpp N).byte (Dest + k)
          = some (load m (Dest + k)))) ∧
    (bpp ∣ length → ∀ k, length ≤ k + bpp →
      ((SDL_imageFilterShiftLeftUint fuel m Src1 Dest length bpp N).retval ≠ none →
        (SDL_imageFilterShiftLeftUint fuel m Src1 Dest length bpp N).byte (Dest + k)
          = some (load m (Dest + k))) ∧
      ((SDL_imageFilterShiftRightUint fuel m Src1 Dest length bpp N).retval ≠ none →
        (SDL_imageFilterShiftRightUint fuel m Src1 Dest length bpp N).byte (Dest + k)
          = some (load m (Dest + k)))) ∧
    (Src1 ≠ 0 → Dest ≠ 0 → length ≤ bpp → 1 ≤ fuel →
      (N ≤ 32 →
        SDL_imageFilterShiftLeftUint fuel m Src1 Dest length bpp N = Outcome.ret true m) ∧
      (N ≤ 8 →
        SDL_imageFilterShiftRightUint fuel m Src1 Dest length bpp N = Outcome.ret true m)) ∧
    (Src1 ≠ 0 → Dest ≠ 0 → bpp ≤ 7 → length ≤ fuel →
      (N ≤ 31 →
        (SDL_imageFilterShiftLeftUint fuel m Src1 Dest length bpp N).retval = some true) ∧
      (N ≤ 8 →
        (SDL_imageFilterShiftRightUint fuel m Src1 Dest length bpp N).retval = some true)) := by
  have hN0 : ¬ N = 0 := by omega
  have hw2 : bpp * ((length + bpp - 1) / bpp) < 2 ^ 32 := hw
  have hstep : ∀ i, bpp ∣ i → i < length → bpp ∣ (i + bpp) % 2 ^ 32 := by
    intro i hi hlt
    have := unit_next_le length bpp i hb hi hlt
    rw [Nat.mod_eq_of_lt (by omega)]
    exact Nat.dvd_add hi (Nat.dvd_refl bpp)
  have hne : ∀ k, ¬ (bpp * (k / bpp) + bpp < length) →
      ∀ i, bpp ∣ i → i < length → (i + bpp) % 2 ^ 32 < length →
      ∀ j, j < bpp → Dest + k ≠ Dest + (i + j) % 2 ^ 32 := by
    intro k hk i hi hlt hc j hj hEq
    have hnext := unit_next_le length bpp i hb hi hlt
    rw [Nat.mod_eq_of_lt (by omega)] at hc
    rw [Nat.mod_eq_of_lt (by omega)] at hEq
    have e : k = i + j := by omega
    rw [e, unit_start bpp i j hi hj] at hk
    exact hk hc
  have hframe : ∀ k, ¬ (bpp * (k / bpp) + bpp < length) →
      ((SDL_imageFilterShiftLeftUint fuel m Src1 Dest length bpp N).retval ≠ none →
        (SDL_imageFilterShiftLeftUint fuel m Src1 Dest length bpp N).byte (Dest + k)
          = some (load m (Dest + k))) ∧
      ((SDL_imageFilterShiftRightUint fuel m Src1 Dest length bpp N).retval ≠ none →
        (SDL_imageFilterShiftRightUint fuel m Src1 Dest length bpp N).byte (Dest + k)
          = some (load m (Dest + k))) :=
    fun k hk =>
      ⟨shiftLeftUint_frame fuel m Src1 Dest length bpp N (Dest + k) hN (fun i => bpp ∣ i)
          (Nat.dvd_zero bpp) hstep (hne k hk),
        shiftRightUint_frame fuel m Src1 Dest length bpp N (Dest + k) hN (fun i => bpp ∣ i)
          (Nat.dvd_zero bpp) hstep (hne k hk)⟩
  refine ⟨hframe, fun hdvd k hk => hframe k ?_, fun hs hd hle hf => ?_,
    fun hs hd hb7 hf => ⟨fun h31 => ?_, fun h8 => ?_⟩⟩
  · obtain ⟨c, rfl⟩ := hdvd
    intro hlt
    have h1 : bpp * (k / bpp + 1) < bpp * c := by rw [Nat.mul_succ]; exact hlt
    have h2 : k / bpp + 1 < c := Nat.lt_of_mul_lt_mul_left h1
    have h3 : k < bpp * (k / bpp + 1) := Nat.lt_mul_div_succ k (by omega)
    have h4 : bpp * (k / bpp + 1 + 1) ≤ bpp * c := Nat.mul_le_mul_left bpp h2
    rw [Nat.mul_succ] at h4
    omega
  · have hn : ¬ (Src1 = 0 ∨ Dest = 0) := by omega
    have hbody : ∀ (body : Nat → Mem → Option Mem),
        (∀ mi, body 0 mi = some mi) →
        forUnits length bpp body fuel 0 m = Outcome.ret true m := by
      intro body h0
      by_cases hl0 : length = 0
      · exact forUnits_done length bpp body fuel 0 m (by omega)
      · obtain ⟨f, rfl⟩ : ∃ f, fuel = f + 1 := ⟨fuel - 1, by omega⟩
        have hle1 := (ceil_unit_bounds length bpp hb).1
        have hb32 : bpp < 2 ^ 32 := by
          have h5 : 1 ≤ (length + bpp - 1) / bpp :=
            (Nat.le_div_iff_mul_le (by omega)).2 (by omega)
          have h6 := Nat.mul_le_mul_left bpp h5
          omega
        unfold forUnits
        rw [if_pos (by omega), h0 m]
        exact forUnits_done length bpp body f _ m
          (by rw [Nat.zero_add, Nat.mod_eq_of_lt hb32]; omega)
    have hguard : ¬ (0 + bpp) % 2 ^ 32 < length ∨ length = 0 := by
      by_cases hl0 : length = 0
      · exact Or.inr hl0
      · left
        have h5 : 1 ≤ (length + bpp - 1) / bpp :=
          (Nat.le_div_iff_mul_le (by omega)).2 (by omega)
        have h6 := Nat.mul_le_mul_left bpp h5
        rw [Nat.zero_add, Nat.mod_eq_of_lt (by omega)]
        omega
    refine ⟨fun h32 => ?_, fun h8 => ?_⟩
    · unfold SDL_imageFilterShiftLeftUint
      rw [if_neg hn]
      by_cases hl0 : length = 0
      · rw [if_pos hl0]
      rw [if_neg hl0, if_neg (by omega), if_neg hN0]
      exact hbody _ (fun mi => by
        simp only []
        rw [if_neg (hguard.resolve_right hl0)])
    · unfold SDL_imageFilterShiftRightUint
      rw [if_neg hn]
      by_cases hl0 : length = 0
      · rw [if_pos hl0]
      rw [if_neg hl0, if_neg (by omega), if_neg hN0]
      exact hbody _ (fun mi => by
        simp only []
        rw [if_neg (hguard.resolve_right hl0)])
  · have hn : ¬ (Src1 = 0 ∨ Dest = 0) := by omega
    have hcnt := toInt32_count bpp (by omega)
    unfold SDL_imageFilterShiftLeftUint
    rw [if_neg hn]
    by_cases hl0 : length = 0
    · rw [if_pos hl0]; rfl
    rw [if_neg hl0, if_neg (by omega), if_neg hN0]
    refine forUnits_returns_noWrap length bpp _ (fun i mi => ?_) hb hw fuel 0 m
      (Nat.dvd_zero bpp) (by omega)
    simp only []
    by_cases hc : (i + bpp) % 2 ^ 32 < length
    · rw [if_pos hc]
      obtain ⟨r, hr⟩ := packUnitUInt_some mi Src1 i (toInt32 bpp + 1).toNat (by omega) 0
      rw [hr]
      simp only []
      rw [if_neg (by omega)]
      exact forIndex_some bpp _ (fun j mj => by rw [if_neg (by omega)]; exact ⟨_, rfl⟩) mi
    · rw [if_neg hc]
      exact ⟨mi, rfl⟩
  · have hn : ¬ (Src1 = 0 ∨ Dest = 0) := by omega
    have hcnt := toInt32_count bpp (by omega)
    unfold SDL_imageFilterShiftRightUint
    rw [if_neg hn]
    by_cases hl0 : length = 0
    · rw [if_pos hl0]; rfl
    rw [if_neg hl0, if_neg (by omega), if_neg hN0]
    refine forUnits_returns_noWrap length bpp _ (fun i mi => ?_) hb hw fuel 0 m
      (Nat.dvd_zero bpp) (by omega)
    simp only []
    by_cases hc : (i + bpp) % 2 ^ 32 < length
    · rw [if_pos hc]
      obtain ⟨r, hr⟩ := packUnitInt_some mi Src1 i (toInt32 bpp + 1).toNat (by omega) 0
      rw [hr]
      simp only []
      rw [if_neg (by omega)]
      exact forIndex_some bpp _ (fun j mj => by rw [if_neg (by omega)]; exact ⟨_, rfl⟩) mi
    · rw [if_neg hc]
      exact ⟨mi, rfl⟩

/-- Instance of the preceding theorem: length 4 in units of 2 bytes, `N = 1`, a destination
holding 3, 4, 3, 12; both calls return `true` and the last unit keeps 3, 12. With length 2
(one unit) the call returns `true` on the unchanged memory. -/
theorem word_shift_skips_final_unit_witness :
    NoIndexWrap 4 2 ∧ load aliasMem (100 + 2) = 3 ∧ load aliasMem (100 + 3) = 12 ∧
    (SDL_imageFilterShiftLeftUint 4 aliasMem 300 100 4 2 1).retval = some true ∧
    (SDL_imageFilterShiftLeftUint 4 aliasMem 300 100 4 2 1).byte (100 + 2)
      = some (load aliasMem (100 + 2)) ∧
    (SDL_imageFilterShiftRightUint 4 aliasMem 300 100 4 2 1).retval = some true ∧
    (SDL_imageFilterShiftRightUint 4 aliasMem 300 100 4 2 1).byte (100 + 3)
      = some (load aliasMem (100 + 3)) ∧
    SDL_imageFilterShiftLeftUint 1 aliasMem 300 100 2 2 1 = Outcome.ret true aliasMem :=
  ⟨by decide, by decide, by decide,
    ((word_shift_skips_final_unit 4 aliasMem 300 100 4 2 1 (by decide) (by decide)
      (by decide)).2.2.2 (by decide) (by decide) (by decide) (by decide)).1 (by decide),
    ((word_shift_skips_final_unit 4 aliasMem 300 100 4 2 1 (by decide) (by decide)
      (by decide)).1 2 (by decide)).1 (by decide),
    ((word_shift_skips_final_unit 4 aliasMem 300 100 4 2 1 (by decide) (by decide)
      (by decide)).2.2.2 (by decide) (by decide) (by decide) (by decide)).2 (by decide),
    ((word_shift_skips_final_unit 4 aliasMem 300 100 4 2 1 (by decide) (by decide)
      (by decide)).2.1 (by decide) 3 (by decide)).2 (by decide),
    ((word_shift_skips_final_unit 1 aliasMem 300 100 2 2 1 (by decide) (by decide)
      (by decide)).2.2.1 (by decide) (by decide) (by decide) (by decide)).1 (by decide)⟩

/-- C32 (as stated, refuted). The call does not return `true` for every `bpp >= 1` and
in-range `N >= 1`: with `bpp = 8` and length 16 (a multiple of `bpp`) the assembling loop
shifts the promoted byte by `4 * 8 = 32` bits, and with `N = 32` ShiftLeftUint shifts the
32-bit unit by 32; both are undefined. With `bpp = 2` and length `2^32 - 1` the unit index
reaches `2^32 - 2`, the test `(i + bpp) < length` wraps to `0 < length`, and the unit reads
`cursrc1[2^32 - 1]`, outside the buffer. -/
theorem word_shift_call_may_not_return :
    (SDL_imageFilterShiftLeftUint 16 zeroMem 100 200 16 8 1).hitUndefined = true ∧
    (SDL_imageFilterShiftLeftUint 16 zeroMem 100 200 16 8 1).retval = none ∧
    (SDL_imageFilterShiftRightUint 16 zeroMem 100 200 16 8 1).hitUndefined = true ∧
    (SDL_imageFilterShiftRightUint 16 zeroMem 100 200 16 8 1).retval = none ∧
    (SDL_imageFilterShiftLeftUint 2 zeroMem 100 200 2 1 32).hitUndefined = true ∧
    ¬ NoIndexWrap (2 ^ 32 - 1) 2 ∧
    SDL_imageFilterShiftLeftUintChecked (2 ^ 31) zeroMem 100 (2 ^ 33) (2 ^ 32 - 1) 2 1
      = none ∧
    SDL_imageFilterShiftRightUintChecked (2 ^ 31) zeroMem 100 (2 ^ 33) (2 ^ 32 - 1) 2 1
      = none := by
  refine ⟨by decide, by decide, by decide, by decide, by decide, by decide, ?_, ?_⟩
  · unfold SDL_imageFilterShiftLeftUintChecked
    rw [if_neg (by decide), if_neg (by decide), if_neg (by decide), if_neg (by decide)]
    refine forUnitsChecked_hits (2 ^ 32 - 1) 2 _ (2 ^ 32 - 2) (by decide) (by decide)
      (by decide) (fun mi => ?_) (fun i mi hi => ?_) (2 ^ 31 - 1) 0 zeroMem (2 ^ 31)
      (by decide) (by decide)
    · rfl
    · simp only []
      by_cases hc : (i + 2) % 2 ^ 32 < 2 ^ 32 - 1
      · rw [if_pos hc]
        have hc2 : i + 2 < 2 ^ 32 - 1 := by
          rw [Nat.mod_eq_of_lt (by omega)] at hc; exact hc
        rw [packUnitUIntChecked_eq mi 100 i (2 ^ 32 - 1) (toInt32 2 + 1).toNat
          (fun j hj => by
            have : (toInt32 2 + 1).toNat = 3 := by decide
            rw [Nat.mod_eq_of_lt (by omega)]; omega) 0]
        obtain ⟨r, hr⟩ := packUnitUInt_some mi 100 i (toInt32 2 + 1).toNat (by decide) 0
        rw [hr]
        simp only [Checked.ofOption]
        rw [if_neg (by decide)]
        exact forIndexChecked_ok 2 _ (fun j mj hj => by
          rw [if_neg (by rw [Nat.mod_eq_of_lt (by omega)]; omega), if_neg (by decide)]
          exact ⟨_, rfl⟩) mi
      · rw [if_neg hc]
        exact ⟨mi, rfl⟩
  · unfold SDL_imageFilterShiftRightUintChecked
    rw [if_neg (by decide), if_neg (by decide), if_neg (by decide), if_neg (by decide)]
    refine forUnitsChecked_hits (2 ^ 32 - 1) 2 _ (2 ^ 32 - 2) (by decide) (by decide)
      (by decide) (fun mi => ?_) (fun i mi hi => ?_) (2 ^ 31 - 1) 0 zeroMem (2 ^ 31)
      (by decide) (by decide)
    · rfl
    · simp only []
      by_cases hc : (i + 2) % 2 ^ 32 < 2 ^ 32 - 1
      · rw [if_pos hc]
        have hc2 : i + 2 < 2 ^ 32 - 1 := by
          rw [Nat.mod_eq_of_lt (by omega)] at hc; exact hc
        rw [packUnitIntChecked_eq mi 100 i (2 ^ 32 - 1) (toInt32 2 + 1).toNat
          (fun j hj => by
            have : (toInt32 2 + 1).toNat = 3 := by decide
            rw [Nat.mod_eq_of_lt (by omega)]; omega) 0]
        obtain ⟨r, hr⟩ := packUnitInt_some mi 100 i (toInt32 2 + 1).toNat (by decide) 0
        rw [hr]
        simp only [Checked.ofOption]
        rw [if_neg (by decide)]
        exact forIndexChecked_ok 2 _ (fun j mj hj => by
          rw [if_neg (by rw [Nat.mod_eq_of_lt (by omega)]; omega), if_neg (by decide)]
          exact ⟨_, rfl⟩) mi
      · rw [if_neg hc]
        exact ⟨mi, rfl⟩

/-- C33. Word-wide shifts index only inside the buffers: for ShiftLeftUint and ShiftRightUint
with `length + bpp < 2^32` (every `bpp`, in particular `bpp >= 1`), the run that checks every source index read and
every destination index written against `length` never reaches an out-of-bounds access and
is the unchecked run, for every memory, buffers, shift count and fuel. -/
theorem word_shift_indices_in_bounds (fuel : Nat) (m : Mem) (Src1 Dest length bpp N : Nat)
    (hlen : length + bpp < 2 ^ 32) :
    SDL_imageFilterShiftLeftUintChecked fuel m Src1 Dest length bpp N
      = some (SDL_imageFilterShiftLeftUint fuel m Src1 Dest length bpp N) ∧
    SDL_imageFilterShiftRightUintChecked fuel m Src1 Dest length bpp N
      = some (SDL_imageFilterShiftRightUint fuel m Src1 Dest length bpp N) := by
  have hcnt := toInt32_count_le bpp (by omega)
  have hidx : ∀ i, i < length → (i + bpp) % 2 ^ 32 < length →
      ∀ j, j ≤ bpp → (i + j) % 2 ^ 32 < length := by
    intro i hi hc j hj
    rw [Nat.mod_eq_of_lt (by omega)] at hc
    rw [Nat.mod_eq_of_lt (by omega)]
    omega
  refine ⟨?_, ?_⟩
  · unfold SDL_imageFilterShiftLeftUintChecked SDL_imageFilterShiftLeftUint
    by_cases hn : Src1 = 0 ∨ Dest = 0
    · rw [if_pos hn, if_pos hn]
    rw [if_neg hn, if_neg hn]
    by_cases hl0 : length = 0
    · rw [if_pos hl0, if_pos hl0]
    rw [if_neg hl0, if_neg hl0]
    by_cases hr : N > 32
    · rw [if_pos hr, if_pos hr]
    rw [if_neg hr, if_neg hr]
    by_cases hN0 : N = 0
    · rw [if_pos hN0, if_pos hN0]
    rw [if_neg hN0, if_neg hN0]
    refine forUnitsChecked_eq length bpp _ _ (fun i mi hi => ?_) fuel 0 m
    simp only []
    by_cases hc : (i + bpp) % 2 ^ 32 < length
    · rw [if_pos hc, if_pos hc, packUnitUIntChecked_eq mi Src1 i length _
        (fun j hj => hidx i hi hc j (by omega)) 0]
      cases packUnitUInt mi Src1 i (toInt32 bpp + 1).toNat 0 with
      | none => rfl
      | some r =>
        simp only [Checked.ofOption]
        by_cases h32 : N ≥ 32
        · rw [if_pos h32, if_pos h32]
        · rw [if_neg h32, if_neg h32]
          refine forIndexChecked_eq bpp _ _ (fun j mj hj => ?_) mi
          rw [if_neg (by have := hidx i hi hc j (by omega); omega)]
          by_cases hb32 : bpp ≥ 32
          · rw [if_pos hb32, if_pos hb32]; rfl
          · rw [if_neg hb32, if_neg hb32]; rfl
    · rw [if_neg hc, if_neg hc]; rfl
  · unfold SDL_imageFilterShiftRightUintChecked SDL_imageFilterShiftRightUint
    by_cases hn : Src1 = 0 ∨ Dest = 0
    · rw [if_pos hn, if_pos hn]
    rw [if_neg hn, if_neg hn]
    by_cases hl0 : length = 0
    · rw [if_pos hl0, if_pos hl0]
    rw [if_neg hl0, if_neg hl0]
    by_cases hr : N > 8
    · rw [if_pos hr, if_pos hr]
    rw [if_neg hr, if_neg hr]
    by_cases hN0 : N = 0
    · rw [if_pos hN0, if_pos hN0]
    rw [if_neg hN0, if_neg hN0]
    refine forUnitsChecked_eq length bpp _ _ (fun i mi hi => ?_) fuel 0 m
    simp only []
    by_cases hc : (i + bpp) % 2 ^ 32 < length
    · rw [if_pos hc, if_pos hc, packUnitIntChecked_eq mi Src1 i length _
        (fun j hj => hidx i hi hc j (by omega)) 0]
      cases packUnitInt mi Src1 i (toInt32 bpp + 1).toNat 0 with
      | none => rfl
      | some r =>
        simp only [Checked.ofOption]
        by_cases h32 : N ≥ 32
        · rw [if_pos h32, if_pos h32]
        · rw [if_neg h32, if_neg h32]
          refine forIndexChecked_eq bpp _ _ (fun j mj hj => ?_) mi
          rw [if_neg (by have := hidx i hi hc j (by omega); omega)]
          by_cases hb32 : bpp ≥ 32
          · rw [if_pos hb32, if_pos hb32]; rfl
          · rw [if_neg hb32, if_neg hb32]; rfl
    · rw [if_neg hc, if_neg hc]; rfl

/-- Instance of the preceding theorem: length 4 in units of 2 bytes, `N = 1`; the first unit
is read at the indices 0, 1, 2 and written at the indices 0, 1. -/
theorem word_shift_indices_in_bounds_witness :
    4 + 2 < 2 ^ 32 ∧
    SDL_imageFilterShiftLeftUintChecked 4 shiftMem 100 200 4 2 1
      = some (SDL_imageFilterShiftLeftUint 4 shiftMem 100 200 4 2 1) ∧
    SDL_imageFilterShiftRightUintChecked 4 shiftMem 100 200 4 2 1
      = some (SDL_imageFilterShiftRightUint 4 shiftMem 100 200 4 2 1) ∧
    (SDL_imageFilterShiftLeftUintChecked 4 shiftMem 100 200 4 2 1).isSome = true :=
  ⟨by decide,
    (word_shift_indices_in_bounds 4 shiftMem 100 200 4 2 1 (by decide)).1,
    (word_shift_indices_in_bounds 4 shiftMem 100 200 4 2 1 (by decide)).2,
    by rw [(word_shift_indices_in_bounds 4 shiftMem 100 200 4 2 1 (by decide)).1]; rfl⟩

end ImageFilter
